import Mathlib

/-!
# TileSetLL: a shallow embedding of `openscenegraph/osg_tileset/TileSetLL.cpp`

The tile set manager of the repository is embedded as pure functions over an
explicit state record.  Machine integers are natural numbers, reduced modulo
`2^w` wherever the source computes in a `w`-bit unsigned type.  Pointers to
heap objects are replaced by the immutable part of the object they point to
(a tile handle) and the mutable part is kept in a table inside the state.
Undefined behaviour of the source (indexing a vector out of range,
dereferencing a null pointer or a past-the-end iterator) is a `Fault`.
-/

namespace scratch

/-! ## Data model -/

/-- The type `TileLL::Id` (an unsigned integer key with a total order). -/
abbrev TileLL.Id : Type := Nat

/-- The value `std::numeric_limits<uint64_t>::max()`. -/
def UINT64_MAX : Nat := 2 ^ 64 - 1

/-- A handle `TileDataSourceLL::Request *`: the index of the request among all
requests the data source has handed out. -/
abbrev Request : Type := Nat

/-- The immutable fields of a `TileLL` object, `level`, `x`, `y`, `id`, with
`addr`, the position of the object in the forest (index of its root tile
followed by the quadrants taken, 0 = LT, 1 = LB, 2 = RB, 3 = RT), which stands
for the identity of the C++ object. A `TileLL *` of the source is such a
handle. -/
structure TileLL where
  level : Nat
  x : Nat
  y : Nat
  id : TileLL.Id
  addr : List Nat
deriving DecidableEq

/-- The values of `TileLL::clip` that the source tests: `k_clip_NONE`,
`k_clip_ALL`, and any other value. -/
inductive Clip where
  | k_clip_NONE
  | k_clip_ALL
  | k_clip_SOME
deriving DecidableEq

/-- The mutable fields of a `TileLL` object: the flag `clip` and the four
owned child pointers (`none` is `nullptr`). -/
structure TileLinks where
  clip : Clip
  tile_LT : Option TileLL
  tile_LB : Option TileLL
  tile_RB : Option TileLL
  tile_RT : Option TileLL
deriving DecidableEq

/-- The struct `TileSetLL::TileItem` as `buildTileSetBFS` fills it: `id`, `tile`
and `data`, the raw pointer `request->GetData().get()` (`none` is null). -/
structure TileItem where
  id : TileLL.Id
  tile : TileLL
  data : Option Nat
deriving DecidableEq

/-- The struct `TileSetLL::TileMetaData` as the BFS queue uses it. -/
structure TileMetaData where
  tile : TileLL
  is_visible : Bool
  exceeds_err : Bool
  request : Option Request
deriving DecidableEq

/-- The struct `TileSetLL::Options` with the members `TileSetLL.cpp` reads. -/
structure Options where
  min_level : Nat
  max_level : Nat
  max_data : Nat
  cache_size_hint : Nat
  list_preload_levels : List Nat
  upsample_hint : Bool
deriving DecidableEq

/-- The constant part of the data source port: level range and root grid. -/
structure TileDataSourceLL where
  GetMinLevel : Nat
  GetMaxLevel : Nat
  GetNumRootTilesX : Nat
  GetNumRootTilesY : Nat
deriving DecidableEq

/-- The answers of the external collaborators during one call: the static
`TileLL::GetIdFromLevelXY`, `TileVisibilityLL::GetVisibility` (the pair
`(is_visible, exceeds_err)`), and `IsFinished` / `GetData().get()` of a
request. The last field belongs to the helper `SplitSets` of `MiscUtils.h`,
which is not among the sources: `changed new old id` tells whether the helper,
called with the id lists `new` and `old`, puts an `id` present in both into its
third output. -/
structure Ports where
  GetIdFromLevelXY : Nat → Nat → Nat → TileLL.Id
  GetVisibility : TileLL → Bool × Bool
  IsFinished : Request → Bool
  GetData : Request → Option Nat
  changed : List TileLL.Id → List TileLL.Id → TileLL.Id → Bool

/-- A call received by the visibility port. -/
inductive VisCall where
  | Update (cam : Nat)
  | GetVisibility (tile : TileLL)
deriving DecidableEq

/-- Undefined behaviour or abort of the source, and exhaustion of the loop
bound of the embedding. -/
inductive Fault where
  | assertion
  | out_of_range
  | past_the_end
  | null_pointer
  | fuel
deriving DecidableEq

/-! ## The request cache -/

/-- An entry of the request cache; `before_mark` tells that the entry was
inserted before the last `mark_head`. -/
structure LRUEntry where
  key : TileLL.Id
  value : Request
  before_mark : Bool
deriving DecidableEq

/-- Modelled from the spec: the bounded LRU request cache `m_lru_view_data`,
whose class is not among the sources. `entries` is in recency order, most
recently used first. -/
structure LRUCache where
  entries : List LRUEntry
  capacity : Nat
deriving DecidableEq

/-- Modelled from the spec: `size()` of the request cache. -/
def LRUCache.size (c : LRUCache) : Nat := c.entries.length

/-- Modelled from the spec: `get(id, touch)` of the request cache, which looks
an entry up and, if `touch` is set, promotes it to most recently used. The
result is the handle (`none` when absent), `existed`, and the cache. -/
def LRUCache.get (c : LRUCache) (id : TileLL.Id) (touch : Bool) :
    Option Request × Bool × LRUCache :=
  match c.entries.find? (fun e => e.key == id) with
  | none => (none, false, c)
  | some e =>
    if touch then
      (some e.value, true,
        { c with entries := e :: c.entries.filter (fun e' => e'.key != id) })
    else (some e.value, true, c)

/-- Removes from a list given least recently used first up to `k` entries that
were inserted before the mark. -/
def LRUCache.evictOld : Nat → List LRUEntry → List LRUEntry
  | 0, es => es
  | _ + 1, [] => []
  | k + 1, e :: es =>
    if e.before_mark then LRUCache.evictOld k es
    else e :: LRUCache.evictOld (k + 1) es

/-- Modelled from the spec: `trim_against_mark(limit)` of the request cache:
while the size exceeds `limit`, evict the least recently used entry inserted
before the last mark; stop when there is none. -/
def LRUCache.trim_against_mark (c : LRUCache) (limit : Nat) : LRUCache :=
  { c with entries :=
      (LRUCache.evictOld (c.entries.length - limit) c.entries.reverse).reverse }

/-- Modelled from the spec: `insert(id, handle, touch)` of the request cache:
the least recently used entry is evicted if the cache is at capacity (subject
to the mark protection) and the new entry becomes the most recently used. -/
def LRUCache.insert (c : LRUCache) (id : TileLL.Id) (r : Request)
    (_touch : Bool) : LRUCache :=
  let kept := c.entries.filter (fun e => e.key != id)
  let room :=
    if c.capacity ≤ kept.length then
      (LRUCache.evictOld (kept.length + 1 - c.capacity) kept.reverse).reverse
    else kept
  { c with entries := { key := id, value := r, before_mark := false } :: room }

/-- Modelled from the spec: `mark_head()` of the request cache: every entry
present now counts as inserted before the mark. -/
def LRUCache.mark_head (c : LRUCache) : LRUCache :=
  { c with entries := c.entries.map (fun e => { e with before_mark := true }) }

/-! ## The state of a `TileSetLL` object -/

/-- The members of a `TileSetLL` object. `m_tree` holds the mutable fields of
the `TileLL` objects (a tile without an entry is as freshly constructed),
`m_tile_data_source` the ids of the requests handed out so far (a request
handle is its index in this list) and `m_tile_visibility` the calls the
visibility port has received. -/
structure TileSetLL where
  m_tile_data_source : List TileLL.Id
  m_tile_visibility : List VisCall
  m_opts : Options
  m_num_preload_data : Nat
  m_max_view_data : Nat
  m_list_root_tiles : List TileLL
  m_tree : List (TileLL × TileLinks)
  m_list_level_is_preloaded : List Nat
  m_lkup_preloaded_data : List (TileLL.Id × Request)
  m_lru_view_data : LRUCache
  m_preloaded_data_ready : Bool
  m_list_tiles : List TileItem
deriving DecidableEq

/-! ## `GetTile` -/

/-- The loop of `std::lower_bound` (bisection over `[first, first + len)`) with
the comparison `a.id < b` of `GetTile`; the first argument bounds the number
of iterations. -/
def lower_bound_loop (l : List TileItem) (b : TileLL.Id) : Nat → Nat → Nat → Nat
  | 0, first, _ => first
  | fuel + 1, first, len =>
    if len = 0 then first
    else
      let half := len / 2
      let middle := first + half
      match l[middle]? with
      | none => first
      | some a =>
        if a.id < b then lower_bound_loop l b fuel (middle + 1) (len - half - 1)
        else lower_bound_loop l b fuel first half

/-- The call `std::lower_bound(m_list_tiles.begin(), m_list_tiles.end(), tile_id, cmp)`,
as the offset of the returned iterator from `begin()`. -/
def lower_bound (l : List TileItem) (b : TileLL.Id) : Nat :=
  lower_bound_loop l b l.length 0 l.length

/-- The method `TileSetLL::GetTile`; `none` is the null result. -/
def GetTile (s : TileSetLL) (tile_id : TileLL.Id) : Option TileItem :=
  let it := lower_bound s.m_list_tiles tile_id
  if it = s.m_list_tiles.length then none
  else s.m_list_tiles[it]?

/-! ## The tile tree -/

/-- The mutable fields of a freshly constructed `TileLL`. -/
def TileLinks.fresh : TileLinks :=
  { clip := Clip.k_clip_NONE, tile_LT := none, tile_LB := none,
    tile_RB := none, tile_RT := none }

/-- Reads the mutable fields of the object `tile` points to. -/
def getLinks (tree : List (TileLL × TileLinks)) (tile : TileLL) : TileLinks :=
  match tree.find? (fun e => e.1 == tile) with
  | some e => e.2
  | none => TileLinks.fresh

/-- Writes the mutable fields of the object `tile` points to. -/
def setLinks (tree : List (TileLL × TileLinks)) (tile : TileLL)
    (l : TileLinks) : List (TileLL × TileLinks) :=
  (tile, l) :: tree.filter (fun e => e.1 != tile)

/-- Releases every object owned below `tile`: what resetting the four
`unique_ptr` children of `tile` destroys. -/
def releaseBelow (tree : List (TileLL × TileLinks)) (tile : TileLL) :
    List (TileLL × TileLinks) :=
  tree.filter (fun e => !(tile.addr.isPrefixOf e.1.addr && e.1.addr != tile.addr))

/-- Modelled from the spec: the constructor `TileLL(parent, x, y)` of the class
`TileLL`, which is not among the sources: one level below the parent, id derived
from `(level, x, y)`; `q` is the quadrant the new object is stored in. -/
def TileLL.child (env : Ports) (parent : TileLL) (x y q : Nat) : TileLL :=
  { level := parent.level + 1, x := x, y := y,
    id := env.GetIdFromLevelXY (parent.level + 1) x y,
    addr := parent.addr ++ [q] }

/-- Modelled from the spec: the constructor `TileLL(bounds, x, y)` of a root
tile (level 0); `k` is its index in `m_list_root_tiles`. -/
def TileLL.root (env : Ports) (x y k : Nat) : TileLL :=
  { level := 0, x := x, y := y, id := env.GetIdFromLevelXY 0 x y, addr := [k] }

/-- The four children `createChildren` allocates for `tile`, in the order
LT, LB, RB, RT; `x` and `y` are `uint32_t`. -/
def newChildren (env : Ports) (tile : TileLL) : List TileLL :=
  let x := (tile.x * 2) % 2 ^ 32
  let y := (tile.y * 2) % 2 ^ 32
  [ TileLL.child env tile x ((y + 1) % 2 ^ 32) 0,
    TileLL.child env tile x y 1,
    TileLL.child env tile ((x + 1) % 2 ^ 32) y 2,
    TileLL.child env tile ((x + 1) % 2 ^ 32) ((y + 1) % 2 ^ 32) 3 ]

/-- The method `TileSetLL::createChildren`. -/
def createChildren (env : Ports) (tile : TileLL) (s : TileSetLL) : TileSetLL :=
  if (getLinks s.m_tree tile).clip = Clip.k_clip_NONE then
    let x := (tile.x * 2) % 2 ^ 32
    let y := (tile.y * 2) % 2 ^ 32
    let l : TileLinks :=
      { clip := Clip.k_clip_ALL,
        tile_LT := some (TileLL.child env tile x ((y + 1) % 2 ^ 32) 0),
        tile_LB := some (TileLL.child env tile x y 1),
        tile_RB := some (TileLL.child env tile ((x + 1) % 2 ^ 32) y 2),
        tile_RT := some (TileLL.child env tile ((x + 1) % 2 ^ 32)
          ((y + 1) % 2 ^ 32) 3) }
    { s with m_tree := setLinks (releaseBelow s.m_tree tile) tile l }
  else s

/-- The method `TileSetLL::destroyChildren`. -/
def destroyChildren (tile : TileLL) (s : TileSetLL) : TileSetLL :=
  if (getLinks s.m_tree tile).clip = Clip.k_clip_ALL then
    let l : TileLinks :=
      { clip := Clip.k_clip_NONE, tile_LT := none, tile_LB := none,
        tile_RB := none, tile_RT := none }
    { s with m_tree := setLinks (releaseBelow s.m_tree tile) tile l }
  else s

/-! ## Requests -/

/-- The call `m_tile_data_source->RequestData(id)`: a new request handle. -/
def RequestData (id : TileLL.Id) (s : TileSetLL) : Request × TileSetLL :=
  (s.m_tile_data_source.length,
    { s with m_tile_data_source := s.m_tile_data_source ++ [id] })

/-- The call `m_tile_visibility->GetVisibility(tile, is_visible, exceeds_err)`. -/
def GetVisibility (env : Ports) (tile : TileLL) (s : TileSetLL) :
    (Bool × Bool) × TileSetLL :=
  (env.GetVisibility tile,
    { s with m_tile_visibility := s.m_tile_visibility ++ [VisCall.GetVisibility tile] })

/-- The method `TileSetLL::getOrCreateDataRequest`. Indexing
`m_list_level_is_preloaded` out of range and dereferencing the iterator of a
failed `find` are faults. -/
def getOrCreateDataRequest (tile : TileLL) (s : TileSetLL) :
    Except Fault (Option Request × TileSetLL) :=
  match s.m_list_level_is_preloaded[tile.level]? with
  | none => Except.error Fault.out_of_range
  | some flag =>
    if flag ≠ 0 then
      match s.m_lkup_preloaded_data.lookup tile.id with
      | none => Except.error Fault.past_the_end
      | some r => Except.ok (some r, s)
    else
      let g := s.m_lru_view_data.get tile.id true
      if g.2.1 then
        Except.ok (g.1, { s with m_lru_view_data := g.2.2 })
      else
        let rq := RequestData tile.id { s with m_lru_view_data := g.2.2 }
        let c := rq.2.m_lru_view_data.insert tile.id rq.1 false
        let g2 := c.get tile.id false
        Except.ok (g2.1, { rq.2 with m_lru_view_data := g2.2.2 })

/-- The first loop of `getOrCreateChildDataRequests`: obtains the request of
every child and tells whether all of them are finished. -/
def childRequests (env : Ports) :
    List TileLL → Bool → TileSetLL →
      Except Fault (List TileMetaData × Bool × TileSetLL)
  | [], ready, s => Except.ok ([], ready, s)
  | child :: rest, ready, s =>
    match getOrCreateDataRequest child s with
    | Except.error e => Except.error e
    | Except.ok (none, _) => Except.error Fault.null_pointer
    | Except.ok (some r, s1) =>
      match childRequests env rest (ready && env.IsFinished r) s1 with
      | Except.error e => Except.error e
      | Except.ok (metas, ready2, s2) =>
        Except.ok
          ({ tile := child, is_visible := false, exceeds_err := false,
             request := some r } :: metas, ready2, s2)

/-- The second loop of `getOrCreateChildDataRequests`: asks the visibility of
every child. -/
def childVisibility (env : Ports) :
    List TileMetaData → TileSetLL → List TileMetaData × TileSetLL
  | [], s => ([], s)
  | m :: rest, s =>
    let v := GetVisibility env m.tile s
    let r := childVisibility env rest v.2
    ({ m with is_visible := v.1.1, exceeds_err := v.1.2 } :: r.1, r.2)

/-- The method `TileSetLL::getOrCreateChildDataRequests`; the result is
`list_children`, `child_data_ready` and the state. A null child pointer is
dereferenced by the source, which is a fault. -/
def getOrCreateChildDataRequests (env : Ports) (tile : TileLL) (s : TileSetLL) :
    Except Fault (List TileMetaData × Bool × TileSetLL) :=
  let s1 := createChildren env tile s
  let l := getLinks s1.m_tree tile
  match l.tile_LT, l.tile_LB, l.tile_RB, l.tile_RT with
  | some lt, some lb, some rb, some rt =>
    match childRequests env [lt, lb, rb, rt] true s1 with
    | Except.error e => Except.error e
    | Except.ok (metas, child_data_ready, s2) =>
      if child_data_ready then
        let r := childVisibility env metas s2
        Except.ok (r.1, true, r.2)
      else Except.ok (metas, false, s2)
  | _, _, _, _ => Except.error Fault.null_pointer

/-! ## The builder -/

/-- The first loop of `buildTileSetBFS`: enqueues the root tiles until the
queue holds `max_data` entries. -/
def enqueueRoots (env : Ports) :
    List TileLL → List TileMetaData → TileSetLL →
      Except Fault (List TileMetaData × TileSetLL)
  | [], queue_bfs, s => Except.ok (queue_bfs, s)
  | tile :: rest, queue_bfs, s =>
    if queue_bfs.length = s.m_opts.max_data then Except.ok (queue_bfs, s)
    else
      let v := GetVisibility env tile s
      match getOrCreateDataRequest tile v.2 with
      | Except.error e => Except.error e
      | Except.ok (request, s1) =>
        enqueueRoots env rest
          (queue_bfs ++ [{ tile := tile, is_visible := v.1.1,
                           exceeds_err := v.1.2, request := request }]) s1

/-- The `TileItem` that `buildTileSetBFS` saves for a queue entry. -/
def makeItem (env : Ports) (m : TileMetaData) (r : Request) : TileItem :=
  { id := m.tile.id, tile := m.tile, data := env.GetData r }

/-- The traversal loop of `buildTileSetBFS` from index `i`; the first argument
bounds the number of iterations. The result is the queue, `list_tile_items`
and the state. -/
def bfsLoop (env : Ports) :
    Nat → Nat → List TileMetaData → List TileItem → TileSetLL →
      Except Fault (List TileMetaData × List TileItem × TileSetLL)
  | 0, _, _, _, _ => Except.error Fault.fuel
  | fuel + 1, i, queue_bfs, list_tile_items, s =>
    match queue_bfs[i]? with
    | none => Except.ok (queue_bfs, list_tile_items, s)
    | some m =>
      if queue_bfs.length = s.m_opts.max_data then
        Except.ok (queue_bfs, list_tile_items, s)
      else
        match m.request with
        | none => Except.error Fault.null_pointer
        | some r =>
          if env.IsFinished r then
            if m.exceeds_err ∧ m.tile.level < s.m_opts.max_level ∧
                queue_bfs.length + 4 ≤ s.m_opts.max_data then
              match getOrCreateChildDataRequests env m.tile s with
              | Except.error e => Except.error e
              | Except.ok (list_children, child_data_ready, s1) =>
                if child_data_ready then
                  bfsLoop env fuel (i + 1) (queue_bfs ++ list_children)
                    list_tile_items s1
                else
                  bfsLoop env fuel (i + 1) queue_bfs
                    (list_tile_items ++ [makeItem env m r])
                    (destroyChildren m.tile s1)
            else
              bfsLoop env fuel (i + 1) queue_bfs
                (list_tile_items ++ [makeItem env m r])
                (destroyChildren m.tile s)
          else bfsLoop env fuel (i + 1) queue_bfs list_tile_items s

/-- The method `TileSetLL::buildTileSetBFS`, with the final BFS queue as a
first result. The traversal loop runs at most `max_data` times. -/
def buildTileSetBFS_queue (env : Ports) (s : TileSetLL) :
    Except Fault (List TileMetaData × List TileItem × TileSetLL) :=
  match enqueueRoots env s.m_list_root_tiles [] s with
  | Except.error e => Except.error e
  | Except.ok (queue_bfs, s1) =>
    let s2 := { s1 with m_lru_view_data := s1.m_lru_view_data.mark_head }
    match bfsLoop env (s2.m_opts.max_data + 1) 0 queue_bfs [] s2 with
    | Except.error e => Except.error e
    | Except.ok (q, list_tile_items, s3) =>
      Except.ok (q, list_tile_items,
        { s3 with m_lru_view_data :=
            s3.m_lru_view_data.trim_against_mark s3.m_opts.cache_size_hint })

/-- The method `TileSetLL::buildTileSetBFS`. -/
def buildTileSetBFS (env : Ports) (s : TileSetLL) :
    Except Fault (List TileItem × TileSetLL) :=
  match buildTileSetBFS_queue env s with
  | Except.error e => Except.error e
  | Except.ok (_, list_tile_items, s1) => Except.ok (list_tile_items, s1)

/-! ## `UpdateTileSet` -/

/-- The comparison of `CompareTileItemIdIncreasing`, as the order that
`std::sort` establishes between neighbours. -/
def TileItem.le (a b : TileItem) : Prop := a.id ≤ b.id

instance TileItem.decidableLe : DecidableRel TileItem.le :=
  fun a b => inferInstanceAs (Decidable (a.id ≤ b.id))

/-- The call `std::sort(list_tiles_new.begin(), list_tiles_new.end(),
CompareTileItemIdIncreasing)`, as an insertion sort. -/
def sortTileItems (l : List TileItem) : List TileItem :=
  l.insertionSort TileItem.le

/-- Modelled from the spec: the linear merge inside `SplitSets` over two sorted
id lists; the first argument bounds the number of steps. The result is (ids
only in `a`, ids only in `b`, ids in both); `SplitSets` reports a part of the
last list. -/
def splitMerge : Nat → List TileLL.Id → List TileLL.Id →
    List TileLL.Id × List TileLL.Id × List TileLL.Id
  | 0, _, _ => ([], [], [])
  | _ + 1, [], b => ([], b, [])
  | _ + 1, a, [] => (a, [], [])
  | fuel + 1, x :: a, y :: b =>
    if x < y then
      let r := splitMerge fuel a (y :: b)
      (x :: r.1, r.2.1, r.2.2)
    else if y < x then
      let r := splitMerge fuel (x :: a) b
      (r.1, y :: r.2.1, r.2.2)
    else
      let r := splitMerge fuel a b
      (r.1, r.2.1, x :: r.2.2)

/-- Modelled from the spec: the helper `SplitSets(a, b, diff_a, diff_b, both)`
of `MiscUtils.h`, which is not among the sources: a linear merge of two
sorted id lists into the ids only in `a`, the ids only in `b` and, of the ids
in both, those that changed. The call in `UpdateTileSet` passes the two id
lists and nothing else, and no source says which ids in both the helper takes
as changed, so that choice is the parameter `changed`, applied to the two
lists and the id. -/
def SplitSets (changed : List TileLL.Id → List TileLL.Id → TileLL.Id → Bool)
    (a b : List TileLL.Id) : List TileLL.Id × List TileLL.Id × List TileLL.Id :=
  let r := splitMerge (a.length + b.length + 1) a b
  (r.1, r.2.1, r.2.2.filter (changed a b))

/-- The method `TileSetLL::UpdateTileSet`. `out` holds the three lists passed
by reference, in the order `(list_tile_id_add, list_tile_id_upd,
list_tile_id_rem)`; the result is the state and these lists. -/
def UpdateTileSet (env : Ports) (cam : Nat) (s : TileSetLL)
    (out : List TileLL.Id × List TileLL.Id × List TileLL.Id) :
    Except Fault (TileSetLL × List TileLL.Id × List TileLL.Id × List TileLL.Id) :=
  if !s.m_preloaded_data_ready &&
      s.m_lkup_preloaded_data.any (fun id_req => !env.IsFinished id_req.2) then
    Except.ok (s, out)
  else
    let s0 := { s with m_preloaded_data_ready := true,
                       m_tile_visibility := s.m_tile_visibility ++ [VisCall.Update cam] }
    match buildTileSetBFS env s0 with
    | Except.error e => Except.error e
    | Except.ok (built, s1) =>
      let list_tiles_new := sortTileItems built
      let list_tile_id_new := list_tiles_new.map TileItem.id
      let list_tile_id_old := s1.m_list_tiles.map TileItem.id
      let r := SplitSets env.changed list_tile_id_new list_tile_id_old
      Except.ok ({ s1 with m_list_tiles := list_tiles_new }, r.1, r.2.2, r.2.1)

/-! ## Construction -/

/-- Modelled from the spec: the helper `ipow(base, exp)` of `MiscUtils.h`, which
is not among the sources: the integer power, in 64 bits. -/
def ipow (base exp : Nat) : Nat := (base ^ exp) % 2 ^ 64

/-- Modelled from the spec: the helper `clamp(v, lo, hi)` of `MiscUtils.h`, which
is not among the sources. -/
def clamp (v lo hi : Nat) : Nat :=
  if v < lo then lo else if hi < v then hi else v

/-- The loop `num_base_data += ipow(4, level)` over a level list, in
`uint64_t`. -/
def sumPreload (levels : List Nat) : Nat :=
  levels.foldl (fun num level => (num + ipow 4 level) % 2 ^ 64) 0

/-- The method `TileSetLL::initOptions`; the failed assertion is a fault.
Levels are `uint8_t`, counts are `uint64_t`. -/
def initOptions (src : TileDataSourceLL) (opts : Options) : Except Fault Options :=
  if opts.max_data < UINT64_MAX then
    let lv : Nat × Nat :=
      if opts.min_level > opts.max_level then (opts.max_level, opts.min_level)
      else if opts.min_level = opts.max_level then
        (opts.min_level, (opts.max_level + 1) % 2 ^ 8)
      else (opts.min_level, opts.max_level)
    let min_level := clamp lv.1 src.GetMinLevel src.GetMaxLevel
    let max_level := clamp lv.2 src.GetMinLevel src.GetMaxLevel
    let list_preload_levels := opts.list_preload_levels.insertionSort (· ≤ ·)
    let num_base_data := sumPreload list_preload_levels
    Except.ok
      { opts with
        min_level := min_level,
        max_level := max_level,
        list_preload_levels := list_preload_levels,
        max_data := if num_base_data > opts.max_data then num_base_data
                    else opts.max_data }
  else Except.error Fault.assertion

/-- The method `TileSetLL::initNumPreloadData`. -/
def initNumPreloadData (m_opts : Options) : Nat :=
  sumPreload m_opts.list_preload_levels

/-- The method `TileSetLL::initMaxViewData`, a `uint64_t` difference. -/
def initMaxViewData (m_opts : Options) (m_num_preload_data : Nat) : Nat :=
  (m_opts.max_data + 2 ^ 64 - m_num_preload_data) % 2 ^ 64

/-- The root tiles the constructor creates: `y` outer, `x` inner. -/
def rootTiles (env : Ports) (num_root_tiles_x num_root_tiles_y : Nat) : List TileLL :=
  (List.range num_root_tiles_y).flatMap (fun y =>
    (List.range num_root_tiles_x).map (fun x =>
      TileLL.root env x y (y * num_root_tiles_x + x)))

/-- The statement `m_lkup_preloaded_data.emplace(tile_id, RequestData(tile_id))`:
the request is made, and stored unless the id has an entry. -/
def emplacePreload (env : Ports) (level x y : Nat) (s : TileSetLL) : TileSetLL :=
  let tile_id := env.GetIdFromLevelXY level x y
  let rq := RequestData tile_id s
  match rq.2.m_lkup_preloaded_data.lookup tile_id with
  | some _ => rq.2
  | none =>
    { rq.2 with m_lkup_preloaded_data := rq.2.m_lkup_preloaded_data ++ [(tile_id, rq.1)] }

/-- The body of the preload loop of the constructor for one level. Writing
`m_list_level_is_preloaded` out of range is a fault. -/
def preloadLevel (env : Ports) (src : TileDataSourceLL) (level : Nat)
    (s : TileSetLL) : Except Fault TileSetLL :=
  if level < s.m_list_level_is_preloaded.length then
    let s1 := { s with m_list_level_is_preloaded :=
                  s.m_list_level_is_preloaded.set level 1 }
    let tiles_in_x := (ipow 2 level * src.GetNumRootTilesX) % 2 ^ 64
    let tiles_in_y := (ipow 2 level * src.GetNumRootTilesY) % 2 ^ 64
    Except.ok
      ((List.range tiles_in_y).foldl (fun sy y =>
        (List.range tiles_in_x).foldl (fun sx x => emplacePreload env level x y sx) sy) s1)
  else Except.error Fault.out_of_range

/-- The preload loop of the constructor over `m_opts.list_preload_levels`. -/
def preloadLevels (env : Ports) (src : TileDataSourceLL) :
    List Nat → TileSetLL → Except Fault TileSetLL
  | [], s => Except.ok s
  | level :: rest, s =>
    match preloadLevel env src level s with
    | Except.error e => Except.error e
    | Except.ok s1 => preloadLevels env src rest s1

/-- The constructor `TileSetLL::TileSetLL`. The capacity of the request cache
is fixed by its class, which is not among the sources, and is a parameter. -/
def TileSetLL.TileSetLL (env : Ports) (src : TileDataSourceLL) (options : Options)
    (lru_capacity : Nat) : Except Fault TileSetLL :=
  match initOptions src options with
  | Except.error e => Except.error e
  | Except.ok m_opts =>
    let m_num_preload_data := initNumPreloadData m_opts
    preloadLevels env src m_opts.list_preload_levels
      { m_tile_data_source := [],
        m_tile_visibility := [],
        m_opts := m_opts,
        m_num_preload_data := m_num_preload_data,
        m_max_view_data := initMaxViewData m_opts m_num_preload_data,
        m_list_root_tiles := rootTiles env src.GetNumRootTilesX src.GetNumRootTilesY,
        m_tree := [],
        m_list_level_is_preloaded := List.replicate m_opts.max_level 0,
        m_lkup_preloaded_data := [],
        m_lru_view_data := { entries := [], capacity := lru_capacity },
        m_preloaded_data_ready := false,
        m_list_tiles := [] }

/-! ## Invariants and reference notions -/

/-- The mutable fields `createChildren` leaves in `tile`: `k_clip_ALL` and the
four children of `newChildren`. -/
def splitLinks (env : Ports) (tile : TileLL) : TileLinks :=
  let x := (tile.x * 2) % 2 ^ 32
  let y := (tile.y * 2) % 2 ^ 32
  { clip := Clip.k_clip_ALL,
    tile_LT := some (TileLL.child env tile x ((y + 1) % 2 ^ 32) 0),
    tile_LB := some (TileLL.child env tile x y 1),
    tile_RB := some (TileLL.child env tile ((x + 1) % 2 ^ 32) y 2),
    tile_RT := some (TileLL.child env tile ((x + 1) % 2 ^ 32) ((y + 1) % 2 ^ 32) 3) }

/-- The invariant of the tile tree: every tile is either as freshly
constructed or as `createChildren` left it. -/
def TreeOk (env : Ports) (tree : List (TileLL × TileLinks)) : Prop :=
  ∀ e ∈ tree, e.2 = TileLinks.fresh ∨ e.2 = splitLinks env e.1

instance TreeOk.decidable (env : Ports) (tree : List (TileLL × TileLinks)) :
    Decidable (TreeOk env tree) :=
  inferInstanceAs (Decidable (∀ e ∈ tree, e.2 = TileLinks.fresh ∨ e.2 = splitLinks env e.1))

/-- The nodes of the quadtree below `t` down to `d` further levels, `t`
included. -/
def subtree (env : Ports) : Nat → TileLL → List TileLL
  | 0, t => [t]
  | d + 1, t => t :: (newChildren env t).flatMap (subtree env d)

/-- The nodes of the quadtrees of the root tiles down to level `max_level`. -/
def allNodes (env : Ports) (roots : List TileLL) (max_level : Nat) : List TileLL :=
  roots.flatMap (fun r => subtree env (max_level - r.level) r)

/-- The preload gate of `UpdateTileSet`: the preloaded data is confirmed ready
or every preload request is finished. -/
def passesPreloadGate (env : Ports) (s : TileSetLL) : Bool :=
  s.m_preloaded_data_ready ||
    s.m_lkup_preloaded_data.all (fun id_req => env.IsFinished id_req.2)

/-- The members of the state that neither the builder nor the tree helpers
write: all but the tile tree, the request cache and the port logs. -/
def frame (s : TileSetLL) : TileSetLL :=
  { s with m_tree := [], m_lru_view_data := { entries := [], capacity := 0 },
           m_tile_data_source := [], m_tile_visibility := [] }

/-- The nodes still available to the traversal at index `i` of a queue with
tiles `qt`: the tiles before `i` and the subtrees of the tiles from `i` on,
down to level `max_level`. -/
def potential (env : Ports) (max_level i : Nat) (qt : List TileLL) : List TileLL :=
  qt.take i ++ (qt.drop i).flatMap (fun t => subtree env (max_level - t.level) t)

/-- What the traversal reads of a queue entry besides its request. -/
def TileMetaData.proj (m : TileMetaData) : TileLL × Bool := (m.tile, m.exceeds_err)

/-- The queue entry of a tile under the visibility answers of `env`. -/
def refEntry (env : Ports) (t : TileLL) : TileLL × Bool := (t, (env.GetVisibility t).2)

/-- Reference traversal: the tiles `bfsLoop` saves when every request is
finished, computed from the tiles and `exceeds_err` flags of the queue alone. -/
def refLoop (env : Ports) (max_level max_data : Nat) :
    Nat → Nat → List (TileLL × Bool) → List TileLL → List TileLL
  | 0, _, _, saved => saved
  | fuel + 1, i, queue, saved =>
    match queue[i]? with
    | none => saved
    | some m =>
      if queue.length = max_data then saved
      else if m.2 = true ∧ m.1.level < max_level ∧ queue.length + 4 ≤ max_data then
        refLoop env max_level max_data fuel (i + 1)
          (queue ++ (newChildren env m.1).map (refEntry env)) saved
      else refLoop env max_level max_data fuel (i + 1) queue (saved ++ [m.1])

/-- Reference builder: the tiles `buildTileSetBFS` saves when every request is
finished, as a function of the root tiles, the options and the visibility
answers. -/
def refBuild (env : Ports) (roots : List TileLL) (opts : Options) : List TileLL :=
  refLoop env opts.max_level opts.max_data (opts.max_data + 1) 0
    ((roots.take opts.max_data).map (refEntry env)) []

/-- The state in which `UpdateTileSet` calls the builder: the preloaded data
is confirmed ready and the visibility port has received `Update(cam)`. -/
def beforeBuild (cam : Nat) (s : TileSetLL) : TileSetLL :=
  { s with m_preloaded_data_ready := true,
           m_tile_visibility := s.m_tile_visibility ++ [VisCall.Update cam] }

/-! ## Decidability -/

instance exceptDecidableEq {ε α : Type} [DecidableEq ε] [DecidableEq α] :
    DecidableEq (Except ε α) := fun a b =>
  match a, b with
  | Except.ok x, Except.ok y =>
    if h : x = y then isTrue (by rw [h]) else isFalse (fun h2 => h (Except.ok.inj h2))
  | Except.error x, Except.error y =>
    if h : x = y then isTrue (by rw [h]) else isFalse (fun h2 => h (Except.error.inj h2))
  | Except.ok _, Except.error _ => isFalse (fun h => Except.noConfusion h)
  | Except.error _, Except.ok _ => isFalse (fun h => Except.noConfusion h)

instance TileItem.le_isTotal : IsTotal TileItem TileItem.le :=
  ⟨fun a b => Nat.le_total a.id b.id⟩

instance TileItem.le_isTrans : IsTrans TileItem TileItem.le :=
  ⟨fun _ _ _ h1 h2 => Nat.le_trans h1 h2⟩

/-! ## Example inputs -/

/-- An id function for the examples: level, `x` and `y` packed into one
number. -/
def packId (level x y : Nat) : TileLL.Id := level * 2 ^ 56 + x * 2 ^ 28 + y

/-- Ports for the examples: every request is finished with data and no tile
exceeds its error metric. -/
def portsLeaf : Ports :=
  { GetIdFromLevelXY := packId,
    GetVisibility := fun _ => (true, false),
    IsFinished := fun _ => true,
    GetData := fun r => some (100 + r),
    changed := fun _ _ _ => false }

/-- Ports for the examples: every request is finished with data and exactly
the root tiles exceed their error metric. -/
def portsRefine : Ports :=
  { GetIdFromLevelXY := packId,
    GetVisibility := fun t => (true, decide (t.level < 1)),
    IsFinished := fun _ => true,
    GetData := fun r => some (100 + r),
    changed := fun _ _ _ => false }

/-- Ports for the examples: no request is finished. -/
def portsPending : Ports :=
  { GetIdFromLevelXY := packId,
    GetVisibility := fun _ => (true, false),
    IsFinished := fun _ => false,
    GetData := fun _ => none,
    changed := fun _ _ _ => false }

/-- A data source with levels 0 to 18 and a single root tile. -/
def srcGrid11 : TileDataSourceLL :=
  { GetMinLevel := 0, GetMaxLevel := 18, GetNumRootTilesX := 1, GetNumRootTilesY := 1 }

/-- A data source with levels 0 to 18 and a root grid of 2 x 1 tiles. -/
def srcGrid21 : TileDataSourceLL :=
  { GetMinLevel := 0, GetMaxLevel := 18, GetNumRootTilesX := 2, GetNumRootTilesY := 1 }

/-- The state the constructor builds for `srcGrid11` with `max_level = 1`,
`max_data = 8`, `cache_size_hint = 4` and no preload level. -/
def startGrid11 : TileSetLL :=
  { m_tile_data_source := [],
    m_tile_visibility := [],
    m_opts := { min_level := 0, max_level := 1, max_data := 8, cache_size_hint := 4,
                list_preload_levels := [], upsample_hint := false },
    m_num_preload_data := 0,
    m_max_view_data := 8,
    m_list_root_tiles := [{ level := 0, x := 0, y := 0, id := 0, addr := [0] }],
    m_tree := [],
    m_list_level_is_preloaded := [0],
    m_lkup_preloaded_data := [],
    m_lru_view_data := { entries := [], capacity := 8 },
    m_preloaded_data_ready := false,
    m_list_tiles := [] }

/-- The state `startGrid11` with `cache_size_hint = 0`. -/
def startGrid11NoCache : TileSetLL :=
  { startGrid11 with
    m_opts := { min_level := 0, max_level := 1, max_data := 8, cache_size_hint := 0,
                list_preload_levels := [], upsample_hint := false } }

/-- The state the constructor builds for `srcGrid21` with `max_level = 2`,
`max_data = 16`, `cache_size_hint = 16` and no preload level. -/
def startGrid21 : TileSetLL :=
  { m_tile_data_source := [],
    m_tile_visibility := [],
    m_opts := { min_level := 0, max_level := 2, max_data := 16, cache_size_hint := 16,
                list_preload_levels := [], upsample_hint := false },
    m_num_preload_data := 0,
    m_max_view_data := 16,
    m_list_root_tiles := [{ level := 0, x := 0, y := 0, id := 0, addr := [0] },
                          { level := 0, x := 1, y := 0, id := 268435456, addr := [1] }],
    m_tree := [],
    m_list_level_is_preloaded := [0, 0],
    m_lkup_preloaded_data := [],
    m_lru_view_data := { entries := [], capacity := 16 },
    m_preloaded_data_ready := false,
    m_list_tiles := [] }

/-- The state the constructor builds for `srcGrid21` with `max_level = 1`,
`max_data = 4`, `cache_size_hint = 4` and preload level 0: two preload
requests are outstanding. -/
def startPreload21 : TileSetLL :=
  { m_tile_data_source := [0, 268435456],
    m_tile_visibility := [],
    m_opts := { min_level := 0, max_level := 1, max_data := 4, cache_size_hint := 4,
                list_preload_levels := [0], upsample_hint := false },
    m_num_preload_data := 1,
    m_max_view_data := 3,
    m_list_root_tiles := [{ level := 0, x := 0, y := 0, id := 0, addr := [0] },
                          { level := 0, x := 1, y := 0, id := 268435456, addr := [1] }],
    m_tree := [],
    m_list_level_is_preloaded := [1],
    m_lkup_preloaded_data := [(0, 0), (268435456, 1)],
    m_lru_view_data := { entries := [], capacity := 8 },
    m_preloaded_data_ready := false,
    m_list_tiles := [] }

/-- The state `UpdateTileSet` leaves when called with empty output lists (the
state it started from if it faults). -/
def stateAfter (env : Ports) (cam : Nat) (s : TileSetLL) : TileSetLL :=
  match UpdateTileSet env cam s ([], [], []) with
  | Except.ok (s1, _) => s1
  | Except.error _ => s

/-- The lists `(add, upd, rem)` that `UpdateTileSet` returns when called with
empty output lists (empty if it faults). -/
def outAfter (env : Ports) (cam : Nat) (s : TileSetLL) :
    List TileLL.Id × List TileLL.Id × List TileLL.Id :=
  match UpdateTileSet env cam s ([], [], []) with
  | Except.ok (_, r) => r
  | Except.error _ => ([], [], [])

/-- A preload level list holding each of the levels 0 to 31 three times. -/
def thriceLevels : List Nat := (List.range 32).flatMap (fun l => [l, l, l])

/-- Id lists that are monotone by index. -/
def IdsMono (l : List TileItem) : Prop :=
  ∀ (i j : Nat) (a c : TileItem), i ≤ j → l[i]? = some a → l[j]? = some c → a.id ≤ c.id

/-! ## Further notions and example inputs -/

/-- Modelled from the spec: the struct `GeoBounds`, whose declaration is not
among the sources: the four bounds the constructor `GeoBounds(minLon, maxLon,
minLat, maxLat)` stores. A `double` is taken as an exact rational number. -/
structure GeoBounds where
  minLon : ℚ
  maxLon : ℚ
  minLat : ℚ
  maxLat : ℚ
deriving DecidableEq

/-- The bounds `b` the constructor passes to `new TileLL(b,x,y)` for the root
tiles, in the order of creation: `y` outer, `x` inner. -/
def rootTileBounds (bounds : GeoBounds) (num_root_tiles_x num_root_tiles_y : Nat) :
    List GeoBounds :=
  let lon_width : ℚ := (bounds.maxLon - bounds.minLon) / num_root_tiles_x
  let lat_width : ℚ := (bounds.maxLat - bounds.minLat) / num_root_tiles_y
  (List.range num_root_tiles_y).flatMap (fun y =>
    (List.range num_root_tiles_x).map (fun x =>
      { minLon := bounds.minLon,
        maxLon := bounds.minLon + lon_width * (((x + 1 : Nat) : ℚ)),
        minLat := bounds.minLat,
        maxLat := bounds.minLat + lat_width * (((y + 1 : Nat) : ℚ)) }))

/-- The number of entries of the request cache stored under `id`. -/
def LRUCache.count (c : LRUCache) (id : TileLL.Id) : Nat :=
  c.entries.countP (fun e => e.key == id)

/-- The options of the preload scenario. -/
def optsPreload21 : Options :=
  { min_level := 0, max_level := 1, max_data := 4, cache_size_hint := 4,
    list_preload_levels := [0], upsample_hint := false }

/-- The state the constructor builds in the preload scenario, for any ports. -/
def startPreload (env : Ports) (lru_capacity : Nat) : TileSetLL :=
  { m_tile_data_source := [env.GetIdFromLevelXY 0 0 0, env.GetIdFromLevelXY 0 1 0],
    m_tile_visibility := [],
    m_opts := optsPreload21,
    m_num_preload_data := 1,
    m_max_view_data := 3,
    m_list_root_tiles := [TileLL.root env 0 0 0, TileLL.root env 1 0 1],
    m_tree := [],
    m_list_level_is_preloaded := [1],
    m_lkup_preloaded_data := [(env.GetIdFromLevelXY 0 0 0, 0), (env.GetIdFromLevelXY 0 1 0, 1)],
    m_lru_view_data := { entries := [], capacity := lru_capacity },
    m_preloaded_data_ready := false,
    m_list_tiles := [] }

/-- The resident item of a root of the preload scenario. -/
def rootItem (env : Ports) (x k : Nat) : TileItem :=
  { id := env.GetIdFromLevelXY 0 x 0, tile := TileLL.root env x 0 k, data := env.GetData k }

/-- A resident item without its data pointer. -/
def TileItem.noData (it : TileItem) : TileItem := { it with data := none }

/-- What a run of the traversal loop leaves, without the data pointers of the
saved items. -/
def loopOutcome (r : List TileMetaData × List TileItem × TileSetLL) :
    List TileMetaData × List TileItem × TileSetLL :=
  (r.1, r.2.1.map TileItem.noData, r.2.2)

/-- Ports for the examples: every request is finished without data and exactly
the root tiles exceed their error metric. -/
def portsFailed : Ports :=
  { GetIdFromLevelXY := packId,
    GetVisibility := fun t => (true, decide (t.level < 1)),
    IsFinished := fun _ => true,
    GetData := fun _ => none,
    changed := fun _ _ _ => false }

/-- The object `t` is owned below `t'`: what `releaseBelow tree t'` destroys. -/
def ownedBelow (t' t : TileLL) : Bool :=
  t'.addr.isPrefixOf t.addr && t.addr != t'.addr

/-- The ways `getOrCreateDataRequest` obtains the request `r` of `tile` in the
state `s`, leaving the state `s'`. Preloaded: the level of the tile is
preloaded, `r` is the handle the preload map holds under the id of the tile,
and the state is unchanged. Reused: the level is not preloaded, the request
cache holds an entry under the id, `r` is its handle, no request is issued and
the entry becomes the most recently used one. Issued: the level is not
preloaded, the request cache holds no entry under the id, the data source
receives `RequestData(id)` and returns `r`, and the cache gets a new entry for
`r` as its most recently used one, before entries it held already. In the last
two cases the request log and the cache are all that changes. -/
def RequestObtained (tile : TileLL) (s : TileSetLL) (r : Request) (s' : TileSetLL) : Prop :=
  (∃ flag, s.m_list_level_is_preloaded[tile.level]? = some flag ∧ flag ≠ 0 ∧
    s.m_lkup_preloaded_data.lookup tile.id = some r ∧ s' = s) ∨
  (s.m_list_level_is_preloaded[tile.level]? = some 0 ∧
    (∃ e, s.m_lru_view_data.entries.find? (fun e => e.key == tile.id) = some e ∧
      e.value = r ∧
      s'.m_lru_view_data.entries
        = e :: s.m_lru_view_data.entries.filter (fun e' => e'.key != tile.id)) ∧
    s'.m_tile_data_source = s.m_tile_data_source ∧
    s' = { s with m_tile_data_source := s'.m_tile_data_source,
                  m_lru_view_data := s'.m_lru_view_data }) ∨
  (s.m_list_level_is_preloaded[tile.level]? = some 0 ∧
    s.m_lru_view_data.entries.find? (fun e => e.key == tile.id) = none ∧
    r = s.m_tile_data_source.length ∧
    s'.m_tile_data_source = s.m_tile_data_source ++ [tile.id] ∧
    (∃ room, s'.m_lru_view_data.entries
        = { key := tile.id, value := r, before_mark := false } :: room ∧
      List.Sublist room s.m_lru_view_data.entries) ∧
    s' = { s with m_tile_data_source := s'.m_tile_data_source,
                  m_lru_view_data := s'.m_lru_view_data })

/-- The requests `rs` are obtained for the tiles one after the other, from the
state `s` to the state `s'`. -/
def RequestsObtained : List TileLL → TileSetLL → List Request → TileSetLL → Prop
  | [], s, rs, s' => rs = [] ∧ s' = s
  | _ :: _, _, [], _ => False
  | t :: ts, s, r :: rs, s' =>
    ∃ s1, RequestObtained t s r s1 ∧ RequestsObtained ts s1 rs s'

/-- The queue entry of the root tile of `startGrid11` with request 0, not
exceeding its error metric. -/
def rootEntry11 : TileMetaData :=
  { tile := { level := 0, x := 0, y := 0, id := 0, addr := [0] },
    is_visible := true, exceeds_err := false, request := some 0 }

/-- Ports for the examples: only request 0 is finished and exactly the root
tiles exceed their error metric. -/
def portsFirstOnly : Ports :=
  { GetIdFromLevelXY := packId,
    GetVisibility := fun t => (true, decide (t.level < 1)),
    IsFinished := fun r => decide (r = 0),
    GetData := fun r => some (100 + r),
    changed := fun _ _ _ => false }

/-- The state the constructor builds for `srcGrid11` with `max_level = 2`,
`max_data = 16`, `cache_size_hint = 16` and no preload level. -/
def startGrid11Deep : TileSetLL :=
  { m_tile_data_source := [],
    m_tile_visibility := [],
    m_opts := { min_level := 0, max_level := 2, max_data := 16, cache_size_hint := 16,
                list_preload_levels := [], upsample_hint := false },
    m_num_preload_data := 0,
    m_max_view_data := 16,
    m_list_root_tiles := [{ level := 0, x := 0, y := 0, id := 0, addr := [0] }],
    m_tree := [],
    m_list_level_is_preloaded := [0, 0],
    m_lkup_preloaded_data := [],
    m_lru_view_data := { entries := [], capacity := 16 },
    m_preloaded_data_ready := false,
    m_list_tiles := [] }

/-- The queue entry of the root tile of `startGrid11Deep` with request 0,
exceeding its error metric. -/
def rootEntryExceeds : TileMetaData :=
  { tile := { level := 0, x := 0, y := 0, id := 0, addr := [0] },
    is_visible := true, exceeds_err := true, request := some 0 }

/-- The state of `startGrid11Deep` after the request of the root tile has been
issued and cached. -/
def startGrid11Seeded : TileSetLL :=
  { startGrid11Deep with
    m_tile_data_source := [0],
    m_lru_view_data := { entries := [{ key := 0, value := 0, before_mark := true }],
                         capacity := 16 } }

/-- The results of `getOrCreateChildDataRequests` (empty, not ready and the
state it started from if it faults). -/
def childResult (env : Ports) (tile : TileLL) (s : TileSetLL) :
    List TileMetaData × Bool × TileSetLL :=
  match getOrCreateChildDataRequests env tile s with
  | Except.ok r => r
  | Except.error _ => ([], false, s)

/-- The first child of the root tile with request 1. -/
def childEntryLT : TileMetaData :=
  { tile := { level := 1, x := 0, y := 1, id := packId 1 0 1, addr := [0, 0] },
    is_visible := false, exceeds_err := false, request := some 1 }

/-- The state the constructor builds for `srcGrid21` with `max_level = 2`,
`max_data = 2`, `cache_size_hint = 16` and no preload level: the cap equals the
number of root tiles. -/
def startGrid21Cap2 : TileSetLL :=
  { startGrid21 with
    m_opts := { min_level := 0, max_level := 2, max_data := 2, cache_size_hint := 16,
                list_preload_levels := [], upsample_hint := false },
    m_max_view_data := 2 }

/-- A call that can change the tile tree: `createChildren(tile)`,
`destroyChildren(tile)`, or `buildTileSetBFS()` under given answers of the
visibility port and of the requests. -/
inductive TreeCall where
  | createChildren (tile : TileLL)
  | destroyChildren (tile : TileLL)
  | buildTileSetBFS (GetVisibility : TileLL → Bool × Bool) (IsFinished : Request → Bool)
      (GetData : Request → Option Nat)

/-- Ports with the id function `GetId` and no other answer: what
`createChildren` needs. -/
def idPorts (GetId : Nat → Nat → Nat → TileLL.Id) : Ports :=
  { GetIdFromLevelXY := GetId, GetVisibility := fun _ => (false, false),
    IsFinished := fun _ => false, GetData := fun _ => none,
    changed := fun _ _ _ => false }

/-- Runs one call; `GetId` is the static `TileLL::GetIdFromLevelXY`. -/
def runCall (GetId : Nat → Nat → Nat → TileLL.Id) (c : TreeCall) (s : TileSetLL) :
    Except Fault TileSetLL :=
  match c with
  | TreeCall.createChildren tile =>
    Except.ok (createChildren (idPorts GetId) tile s)
  | TreeCall.destroyChildren tile => Except.ok (destroyChildren tile s)
  | TreeCall.buildTileSetBFS v f d =>
    match buildTileSetBFS
      { GetIdFromLevelXY := GetId, GetVisibility := v, IsFinished := f, GetData := d,
        changed := fun _ _ _ => false } s with
    | Except.error e => Except.error e
    | Except.ok (_, s1) => Except.ok s1

/-- Runs a sequence of calls, stopping at the first fault. -/
def runCalls (GetId : Nat → Nat → Nat → TileLL.Id) :
    List TreeCall → TileSetLL → Except Fault TileSetLL
  | [], s => Except.ok s
  | c :: rest, s =>
    match runCall GetId c s with
    | Except.error e => Except.error e
    | Except.ok s1 => runCalls GetId rest s1

/-- Split atomicity of a node: all four children null and the split flag
clear, or all four children non-null and the split flag set. -/
def SplitAtomic (l : TileLinks) : Prop :=
  (l.clip = Clip.k_clip_NONE ∧ l.tile_LT = none ∧ l.tile_LB = none ∧
      l.tile_RB = none ∧ l.tile_RT = none) ∨
  (l.clip = Clip.k_clip_ALL ∧ l.tile_LT ≠ none ∧ l.tile_LB ≠ none ∧
      l.tile_RB ≠ none ∧ l.tile_RT ≠ none)

/-- The calls of the example: split the root tile, build with the answers of
`portsRefine`, release the root tile, build again. -/
def exampleCalls : List TreeCall :=
  [TreeCall.createChildren rootEntryExceeds.tile,
   TreeCall.buildTileSetBFS portsRefine.GetVisibility portsRefine.IsFinished portsRefine.GetData,
   TreeCall.destroyChildren rootEntryExceeds.tile,
   TreeCall.buildTileSetBFS portsRefine.GetVisibility portsRefine.IsFinished portsRefine.GetData]

/-- The state a sequence of calls leaves (the state it started from if a call
faults). -/
def stateAfterCalls (GetId : Nat → Nat → Nat → TileLL.Id) (calls : List TreeCall)
    (s : TileSetLL) : TileSetLL :=
  match runCalls GetId calls s with
  | Except.ok s1 => s1
  | Except.error _ => s

/-- A queue entry without its `is_visible` flag. -/
def TileMetaData.blind (m : TileMetaData) : TileMetaData := { m with is_visible := false }

/-- The ports `env` with the `is_visible` answers replaced by `vis`. -/
def withVisible (env : Ports) (vis : TileLL → Bool) : Ports :=
  { env with GetVisibility := fun t => (vis t, (env.GetVisibility t).2) }

/-- What a run of the traversal loop leaves, without the `is_visible` flags of
the queue. -/
def blindOutcome (r : List TileMetaData × List TileItem × TileSetLL) :
    List TileMetaData × List TileItem × TileSetLL :=
  (r.1.map TileMetaData.blind, r.2.1, r.2.2)

/-- The state `startGrid11Deep` with `max_data = 5`: the cap leaves room for
exactly one split of the root tile. -/
def startGrid11Cap5 : TileSetLL :=
  { startGrid11Deep with
    m_opts := { min_level := 0, max_level := 2, max_data := 5, cache_size_hint := 16,
                list_preload_levels := [], upsample_hint := false },
    m_max_view_data := 5 }

/-- The results of `getOrCreateDataRequest` (null and the state it started
from if it faults). -/
def requestResult (tile : TileLL) (s : TileSetLL) : Option Request × TileSetLL :=
  match getOrCreateDataRequest tile s with
  | Except.ok r => r
  | Except.error _ => (none, s)

/-- The state in which the traversal loop of `buildTileSetBFS` starts when the
root loop ended in `s`: the mark of the request cache is recorded. -/
def marked (s : TileSetLL) : TileSetLL :=
  { s with m_lru_view_data := s.m_lru_view_data.mark_head }

/-- The state of the example after the root loop: the request of the root
tile of `startGrid11Deep` has been obtained. -/
def afterRootLoop : TileSetLL :=
  (requestResult rootEntryExceeds.tile
    (GetVisibility portsRefine rootEntryExceeds.tile startGrid11Deep).2).2

/-- The requests issued from index `n` on are all in the request cache: each
has an entry inserted after the mark, the only entry under its id. -/
def FreshCached (n : Nat) (s : TileSetLL) : Prop :=
  ∀ (r : Request) (id : TileLL.Id), n ≤ r → s.m_tile_data_source[r]? = some id →
    ∃ e ∈ s.m_lru_view_data.entries, e.key = id ∧ e.value = r ∧ e.before_mark = false ∧
      s.m_lru_view_data.count id = 1

/-- The result of the root loop of `buildTileSetBFS` (the empty queue and the
state it started from if it faults). -/
def rootsResult (env : Ports) (s : TileSetLL) : List TileMetaData × TileSetLL :=
  match enqueueRoots env s.m_list_root_tiles [] s with
  | Except.ok r => r
  | Except.error _ => ([], s)

/-- The result of `buildTileSetBFS` (the empty list and the state it started
from if it faults). -/
def buildResult (env : Ports) (s : TileSetLL) : List TileItem × TileSetLL :=
  match buildTileSetBFS env s with
  | Except.ok r => r
  | Except.error _ => ([], s)

/-- The state `startGrid11Deep` with `cache_size_hint = 0`. -/
def startGrid11DeepNoCache : TileSetLL :=
  { startGrid11Deep with
    m_opts := { min_level := 0, max_level := 2, max_data := 16, cache_size_hint := 0,
                list_preload_levels := [], upsample_hint := false } }

/-- What C5 says the `updated` output is: the ids of the items of the new
resident list whose id is in the old list too, with another data pointer. -/
def changedIds (old new : List TileItem) : List TileLL.Id :=
  (new.filter (fun n => old.any (fun o => o.id == n.id && o.data != n.data))).map TileItem.id

/-- The example ports `portsLeaf` with `changed` for the part of `SplitSets`
that the sources leave open. -/
def portsLeafWith (changed : List TileLL.Id → List TileLL.Id → TileLL.Id → Bool) : Ports :=
  { portsLeaf with changed := changed }

/-! ## Lemmas -/

theorem frame_opts (s s' : TileSetLL) (h : frame s' = frame s) : s'.m_opts = s.m_opts :=
  show (frame s').m_opts = (frame s).m_opts from congrArg TileSetLL.m_opts h

theorem frame_tiles (s s' : TileSetLL) (h : frame s' = frame s) :
    s'.m_list_tiles = s.m_list_tiles :=
  show (frame s').m_list_tiles = (frame s).m_list_tiles from
    congrArg TileSetLL.m_list_tiles h

theorem getLinks_setLinks (tree : List (TileLL × TileLinks)) (t : TileLL) (l : TileLinks) :
    getLinks (setLinks tree t l) t = l := by
  simp [getLinks, setLinks]

theorem getLinks_ok (env : Ports) (tree : List (TileLL × TileLinks)) (t : TileLL)
    (h : TreeOk env tree) :
    getLinks tree t = TileLinks.fresh ∨ getLinks tree t = splitLinks env t := by
  unfold getLinks
  cases hf : tree.find? (fun e => e.1 == t) with
  | none => exact Or.inl rfl
  | some e =>
    have hm := List.mem_of_find?_eq_some hf
    have he := List.find?_some hf
    simp only [beq_iff_eq] at he
    have := h e hm
    rw [he] at this
    exact this

theorem TreeOk_setLinks (env : Ports) (tree : List (TileLL × TileLinks)) (t : TileLL)
    (l : TileLinks) (h : TreeOk env tree)
    (hl : l = TileLinks.fresh ∨ l = splitLinks env t) :
    TreeOk env (setLinks (releaseBelow tree t) t l) := by
  intro e he
  unfold setLinks releaseBelow at he
  rcases List.mem_cons.mp he with rfl | he
  · exact hl
  · exact h e (List.mem_of_mem_filter (List.mem_of_mem_filter he))

theorem createChildren_frame (env : Ports) (t : TileLL) (s : TileSetLL) :
    frame (createChildren env t s) = frame s := by
  unfold createChildren
  split <;> rfl

theorem createChildren_treeOk (env : Ports) (t : TileLL) (s : TileSetLL)
    (h : TreeOk env s.m_tree) : TreeOk env (createChildren env t s).m_tree := by
  unfold createChildren
  split
  · exact TreeOk_setLinks env s.m_tree t _ h (Or.inr rfl)
  · exact h

theorem createChildren_links (env : Ports) (t : TileLL) (s : TileSetLL)
    (h : TreeOk env s.m_tree) :
    getLinks (createChildren env t s).m_tree t = splitLinks env t := by
  unfold createChildren
  split
  · exact getLinks_setLinks _ _ _
  · rename_i hc
    rcases getLinks_ok env s.m_tree t h with h1 | h1
    · exact absurd (by rw [h1]; rfl) hc
    · exact h1

theorem destroyChildren_frame (t : TileLL) (s : TileSetLL) :
    frame (destroyChildren t s) = frame s := by
  unfold destroyChildren
  split <;> rfl

theorem destroyChildren_treeOk (env : Ports) (t : TileLL) (s : TileSetLL)
    (h : TreeOk env s.m_tree) : TreeOk env (destroyChildren t s).m_tree := by
  unfold destroyChildren
  split
  · exact TreeOk_setLinks env s.m_tree t _ h (Or.inl rfl)
  · exact h

theorem getOrCreateDataRequest_ok (t : TileLL) (s s' : TileSetLL) (r : Option Request)
    (h : getOrCreateDataRequest t s = Except.ok (r, s')) :
    frame s' = frame s ∧ s'.m_tree = s.m_tree := by
  unfold getOrCreateDataRequest at h
  split at h
  · cases h
  · split at h
    · split at h
      · cases h
      · cases h; exact ⟨rfl, rfl⟩
    · dsimp only at h
      split at h
      · cases h; exact ⟨rfl, rfl⟩
      · cases h; exact ⟨rfl, rfl⟩

theorem getOrCreateDataRequest_fuel (t : TileLL) (s : TileSetLL) :
    getOrCreateDataRequest t s ≠ Except.error Fault.fuel := by
  unfold getOrCreateDataRequest
  split
  · simp
  · split
    · split <;> simp
    · dsimp only
      split <;> simp

theorem childRequests_ok (env : Ports) : ∀ (cs : List TileLL) (ready : Bool) (s : TileSetLL)
    (metas : List TileMetaData) (ready' : Bool) (s' : TileSetLL),
    childRequests env cs ready s = Except.ok (metas, ready', s') →
    metas.map TileMetaData.tile = cs ∧ frame s' = frame s ∧ s'.m_tree = s.m_tree ∧
      ((∀ r, env.IsFinished r = true) → ready' = ready) := by
  intro cs
  induction cs with
  | nil =>
    intro ready s metas ready' s' h
    simp only [childRequests] at h
    cases h
    exact ⟨rfl, rfl, rfl, fun _ => rfl⟩
  | cons c cs ih =>
    intro ready s metas ready' s' h
    simp only [childRequests] at h
    split at h
    · cases h
    · cases h
    · rename_i r s1 hreq
      split at h
      · cases h
      · rename_i metas2 ready2 s2 hrec
        cases h
        obtain ⟨h1, h2, h3, h4⟩ := ih _ _ _ _ _ hrec
        obtain ⟨g1, g2⟩ := getOrCreateDataRequest_ok _ _ _ _ hreq
        refine ⟨by simp [h1], h2.trans g1, h3.trans g2, ?_⟩
        intro hall
        rw [h4 hall, hall r]
        simp

theorem childRequests_fuel (env : Ports) : ∀ (cs : List TileLL) (ready : Bool) (s : TileSetLL),
    childRequests env cs ready s ≠ Except.error Fault.fuel := by
  intro cs
  induction cs with
  | nil => intro ready s; simp [childRequests]
  | cons c cs ih =>
    intro ready s
    simp only [childRequests]
    split
    · rename_i e hreq
      intro h
      cases h
      exact getOrCreateDataRequest_fuel _ _ hreq
    · simp
    · rename_i r s1 hreq
      split
      · rename_i e hrec
        intro h
        cases h
        exact ih _ _ hrec
      · simp

theorem childVisibility_ok (env : Ports) : ∀ (ms : List TileMetaData) (s : TileSetLL),
    (childVisibility env ms s).1.map TileMetaData.tile = ms.map TileMetaData.tile ∧
    (childVisibility env ms s).1.map TileMetaData.exceeds_err
      = ms.map (fun m => (env.GetVisibility m.tile).2) ∧
    (childVisibility env ms s).1.map TileMetaData.request = ms.map TileMetaData.request ∧
    frame (childVisibility env ms s).2 = frame s ∧
    (childVisibility env ms s).2.m_tree = s.m_tree := by
  intro ms
  induction ms with
  | nil => intro s; simp [childVisibility]
  | cons m ms ih =>
    intro s
    simp only [childVisibility, List.map_cons]
    obtain ⟨h1, h2, h3, h4, h5⟩ := ih (GetVisibility env m.tile s).2
    refine ⟨by rw [h1], ?_, by rw [h3], h4.trans rfl, h5.trans rfl⟩
    rw [h2]
    rfl

theorem newChildren_level (env : Ports) (t c : TileLL) (h : c ∈ newChildren env t) :
    c.level = t.level + 1 := by
  simp only [newChildren, List.mem_cons, List.mem_singleton, List.not_mem_nil, or_false] at h
  rcases h with rfl | rfl | rfl | rfl <;> rfl

theorem getOrCreateChildDataRequests_ok (env : Ports) (t : TileLL) (s s' : TileSetLL)
    (metas : List TileMetaData) (ready : Bool) (htree : TreeOk env s.m_tree)
    (h : getOrCreateChildDataRequests env t s = Except.ok (metas, ready, s')) :
    metas.map TileMetaData.tile = newChildren env t ∧ frame s' = frame s ∧
      TreeOk env s'.m_tree ∧
      (ready = true → metas.map TileMetaData.exceeds_err
        = (newChildren env t).map (fun c => (env.GetVisibility c).2)) ∧
      ((∀ r, env.IsFinished r = true) → ready = true) := by
  unfold getOrCreateChildDataRequests at h
  dsimp only at h
  rw [createChildren_links env t s htree] at h
  simp only [splitLinks] at h
  split at h
  · cases h
  · rename_i metas1 ready1 s2 hreq
    obtain ⟨h1, h2, h3, h4⟩ := childRequests_ok env _ _ _ _ _ _ hreq
    have hf : frame s2 = frame s := h2.trans (createChildren_frame env t s)
    have ht : TreeOk env s2.m_tree := by
      rw [h3]; exact createChildren_treeOk env t s htree
    split at h
    · rename_i hr
      cases h
      obtain ⟨g1, g2, _, g4, g5⟩ := childVisibility_ok env metas1 s2
      refine ⟨by rw [g1, h1]; rfl, g4.trans hf, by rw [g5]; exact ht, ?_, fun _ => rfl⟩
      intro _
      have hfun : (fun m : TileMetaData => (env.GetVisibility m.tile).2)
          = (fun c => (env.GetVisibility c).2) ∘ TileMetaData.tile := rfl
      rw [g2, hfun, ← List.map_map, h1]
      rfl
    · rename_i hr
      cases h
      refine ⟨by rw [h1]; rfl, hf, ht, fun hc => Bool.noConfusion hc, ?_⟩
      intro hall
      exact absurd (h4 hall) hr

theorem getOrCreateChildDataRequests_fuel (env : Ports) (t : TileLL) (s : TileSetLL) :
    getOrCreateChildDataRequests env t s ≠ Except.error Fault.fuel := by
  unfold getOrCreateChildDataRequests
  dsimp only
  split
  · split
    · rename_i e hreq
      intro h
      cases h
      exact childRequests_fuel env _ _ _ hreq
    · split <;> simp
  · simp

theorem subtree_head (env : Ports) (d : Nat) (t : TileLL) :
    List.Sublist [t] (subtree env d t) := by
  cases d with
  | zero => exact List.Sublist.refl _
  | succ d =>
    simp only [subtree]
    exact List.Sublist.cons₂ _ (List.nil_sublist _)

theorem potential_step (env : Ports) (L i : Nat) (qt : List TileLL) (t : TileLL)
    (h : qt[i]? = some t) :
    List.Sublist (potential env L (i + 1) qt) (potential env L i qt) := by
  obtain ⟨hi, rfl⟩ := List.getElem?_eq_some.mp h
  unfold potential
  rw [List.take_succ, h, List.drop_eq_getElem_cons hi]
  simp only [Option.toList, List.flatMap_cons, List.append_assoc]
  exact List.Sublist.append (List.Sublist.refl _)
    (List.Sublist.append (subtree_head env _ _) (List.Sublist.refl _))

theorem potential_refine (env : Ports) (L i : Nat) (qt : List TileLL) (t : TileLL)
    (h : qt[i]? = some t) (hl : t.level < L) :
    List.Perm (potential env L (i + 1) (qt ++ newChildren env t)) (potential env L i qt) := by
  obtain ⟨hi, rfl⟩ := List.getElem?_eq_some.mp h
  have hK : (newChildren env qt[i]).flatMap (fun c => subtree env (L - c.level) c)
      = (newChildren env qt[i]).flatMap (subtree env (L - qt[i].level - 1)) := by
    apply List.flatMap_congr
    intro c hc
    rw [newChildren_level env _ c hc]
    rfl
  have hS : subtree env (L - qt[i].level) qt[i]
      = qt[i] :: (newChildren env qt[i]).flatMap (subtree env (L - qt[i].level - 1)) := by
    have : L - qt[i].level = (L - qt[i].level - 1) + 1 := by omega
    rw [this]
    simp only [subtree]
    rfl
  unfold potential
  rw [List.take_append_of_le_length (by omega), List.drop_append_of_le_length (by omega),
    List.take_succ, h, List.drop_eq_getElem_cons hi]
  simp only [Option.toList, List.flatMap_cons, List.flatMap_append, List.append_assoc, hK, hS,
    List.cons_append, List.nil_append, List.singleton_append]
  apply List.Perm.append_left
  apply List.Perm.cons
  exact List.perm_append_comm

theorem take_sublist_take_succ_append (qt cs : List TileLL) (i : Nat) :
    List.Sublist (qt.take i) ((qt ++ cs).take (i + 1)) := by
  have h1 : List.Sublist (qt.take i) (qt.take (i + 1)) := by
    rw [List.take_succ]
    exact List.sublist_append_left _ _
  have h2 : List.Sublist (qt.take (i + 1)) ((qt ++ cs).take (i + 1)) := by
    rw [List.take_append_eq_append_take]
    exact List.sublist_append_left _ _
  exact h1.trans h2

theorem bfsLoop_potential (env : Ports) : ∀ (fuel i : Nat) (q : List TileMetaData)
    (items : List TileItem) (s : TileSetLL) (q' : List TileMetaData)
    (items' : List TileItem) (s' : TileSetLL),
    TreeOk env s.m_tree →
    bfsLoop env fuel i q items s = Except.ok (q', items', s') →
    List.Sublist (items.map TileItem.tile) ((q.map TileMetaData.tile).take i) →
    (∀ it ∈ items, it.id = it.tile.id) →
    frame s' = frame s ∧ TreeOk env s'.m_tree ∧ (∀ it ∈ items', it.id = it.tile.id) ∧
    ∃ i', List.Sublist (items'.map TileItem.tile) ((q'.map TileMetaData.tile).take i') ∧
      List.Subperm (potential env s.m_opts.max_level i' (q'.map TileMetaData.tile))
        (potential env s.m_opts.max_level i (q.map TileMetaData.tile)) := by
  intro fuel
  induction fuel with
  | zero =>
    intro i q items s q' items' s' _ h
    simp only [bfsLoop] at h
    cases h
  | succ fuel ih =>
    intro i q items s q' items' s' htree h hsub hid
    unfold bfsLoop at h
    cases hq : q[i]? with
    | none =>
      rw [hq] at h
      cases h
      exact ⟨rfl, htree, hid, i, hsub, List.Subperm.refl _⟩
    | some m =>
      rw [hq] at h
      dsimp only at h
      have hqt : (q.map TileMetaData.tile)[i]? = some m.tile := by
        rw [List.getElem?_map, hq]; rfl
      have hstep := potential_step env s.m_opts.max_level i _ _ hqt
      have htake : (q.map TileMetaData.tile).take (i + 1)
          = (q.map TileMetaData.tile).take i ++ [m.tile] := by
        rw [List.take_succ, hqt]; rfl
      have hsub1 : List.Sublist (items.map TileItem.tile)
          ((q.map TileMetaData.tile).take (i + 1)) := by
        rw [htake]; exact hsub.trans (List.sublist_append_left _ _)
      split at h
      · cases h
        exact ⟨rfl, htree, hid, i, hsub, List.Subperm.refl _⟩
      · cases hr : m.request with
        | none => rw [hr] at h; cases h
        | some r =>
          rw [hr] at h
          dsimp only at h
          have hsave : ∀ (s1 : TileSetLL), frame s1 = frame s → TreeOk env s1.m_tree →
              bfsLoop env fuel (i + 1) q (items ++ [makeItem env m r]) s1
                = Except.ok (q', items', s') →
              frame s' = frame s ∧ TreeOk env s'.m_tree ∧ (∀ it ∈ items', it.id = it.tile.id) ∧
              ∃ i', List.Sublist (items'.map TileItem.tile) ((q'.map TileMetaData.tile).take i') ∧
                List.Subperm (potential env s.m_opts.max_level i' (q'.map TileMetaData.tile))
                  (potential env s.m_opts.max_level i (q.map TileMetaData.tile)) := by
            intro s1 hf1 ht1 h1
            have hs : List.Sublist ((items ++ [makeItem env m r]).map TileItem.tile)
                ((q.map TileMetaData.tile).take (i + 1)) := by
              rw [htake, List.map_append]
              exact List.Sublist.append hsub (List.Sublist.refl _)
            have hid1 : ∀ it ∈ items ++ [makeItem env m r], it.id = it.tile.id := by
              intro it hit
              rcases List.mem_append.mp hit with hit | hit
              · exact hid it hit
              · rw [List.mem_singleton.mp hit]; rfl
            obtain ⟨g1, g2, g3, i', g4, g5⟩ := ih _ _ _ _ _ _ _ ht1 h1 hs hid1
            rw [frame_opts _ _ hf1] at g5
            exact ⟨g1.trans hf1, g2, g3, i', g4, g5.trans hstep.subperm⟩
          split at h
          · split at h
            · rename_i hcond
              split at h
              · cases h
              · rename_i list_children ready s1 hch
                obtain ⟨c1, c2, c3, _, _⟩ :=
                  getOrCreateChildDataRequests_ok env m.tile s s1 list_children ready htree hch
                split at h
                · have hs : List.Sublist (items.map TileItem.tile)
                      (((q ++ list_children).map TileMetaData.tile).take (i + 1)) := by
                    rw [List.map_append]
                    exact hsub.trans (take_sublist_take_succ_append _ _ _)
                  obtain ⟨g1, g2, g3, i', g4, g5⟩ := ih _ _ _ _ _ _ _ c3 h hs hid
                  rw [frame_opts _ _ c2, List.map_append, c1] at g5
                  exact ⟨g1.trans c2, g2, g3, i', g4,
                    g5.trans (potential_refine env _ i _ _ hqt hcond.2.1).subperm⟩
                · exact hsave _ ((destroyChildren_frame _ _).trans c2)
                    (destroyChildren_treeOk env _ _ c3) h
            · exact hsave _ (destroyChildren_frame _ _) (destroyChildren_treeOk env _ _ htree) h
          · obtain ⟨g1, g2, g3, i', g4, g5⟩ := ih _ _ _ _ _ _ _ htree h hsub1 hid
            exact ⟨g1, g2, g3, i', g4, g5.trans hstep.subperm⟩

theorem enqueueRoots_ok (env : Ports) : ∀ (roots : List TileLL) (q : List TileMetaData)
    (s : TileSetLL) (q' : List TileMetaData) (s' : TileSetLL),
    enqueueRoots env roots q s = Except.ok (q', s') → q.length ≤ s.m_opts.max_data →
    frame s' = frame s ∧ s'.m_tree = s.m_tree ∧
      q'.map TileMetaData.proj = q.map TileMetaData.proj ++
        (roots.take (s.m_opts.max_data - q.length)).map (refEntry env) := by
  intro roots
  induction roots with
  | nil =>
    intro q s q' s' h _
    simp only [enqueueRoots] at h
    cases h
    exact ⟨rfl, rfl, by simp⟩
  | cons t roots ih =>
    intro q s q' s' h hle
    simp only [enqueueRoots] at h
    split at h
    · rename_i heq
      cases h
      refine ⟨rfl, rfl, ?_⟩
      rw [heq]
      simp
    · rename_i hne
      split at h
      · cases h
      · rename_i request s1 hreq
        obtain ⟨f1, f2⟩ := getOrCreateDataRequest_ok _ _ _ _ hreq
        have hf : frame s1 = frame s := f1.trans rfl
        have hlt : q.length < s.m_opts.max_data := lt_of_le_of_ne hle hne
        obtain ⟨g1, g2, g3⟩ := ih _ _ _ _ h (by
          rw [frame_opts _ _ hf, List.length_append]; simpa using hlt)
        refine ⟨g1.trans hf, g2.trans (f2.trans rfl), ?_⟩
        rw [g3, frame_opts _ _ hf, List.map_append, List.append_assoc]
        congr 1
        rw [List.length_append, List.length_singleton]
        have hk : s.m_opts.max_data - q.length = (s.m_opts.max_data - (q.length + 1)) + 1 := by
          omega
        rw [hk, List.take_succ_cons, List.map_cons]
        rfl

theorem enqueueRoots_fuel (env : Ports) : ∀ (roots : List TileLL) (q : List TileMetaData)
    (s : TileSetLL), enqueueRoots env roots q s ≠ Except.error Fault.fuel := by
  intro roots
  induction roots with
  | nil => intro q s; simp [enqueueRoots]
  | cons t roots ih =>
    intro q s
    simp only [enqueueRoots]
    split
    · simp
    · split
      · rename_i e hreq
        intro h
        cases h
        exact getOrCreateDataRequest_fuel _ _ hreq
      · exact ih _ _

theorem length_of_map_newChildren (env : Ports) (t : TileLL) (l : List TileMetaData)
    (h : l.map TileMetaData.tile = newChildren env t) : l.length = 4 := by
  have := congrArg List.length h
  simpa [newChildren] using this

theorem bfsLoop_fuel (env : Ports) : ∀ (fuel i : Nat) (q : List TileMetaData)
    (items : List TileItem) (s : TileSetLL),
    TreeOk env s.m_tree → q.length ≤ s.m_opts.max_data → i ≤ s.m_opts.max_data →
    s.m_opts.max_data + 1 ≤ i + fuel →
    bfsLoop env fuel i q items s ≠ Except.error Fault.fuel := by
  intro fuel
  induction fuel with
  | zero =>
    intro i q items s _ _ hi hf
    omega
  | succ fuel ih =>
    intro i q items s htree hq hi hf
    unfold bfsLoop
    cases hqi : q[i]? with
    | none => simp
    | some m =>
      dsimp only
      have hil : i < q.length := (List.getElem?_eq_some.mp hqi).1
      split
      · simp
      · rename_i hne
        have hlt : q.length < s.m_opts.max_data := lt_of_le_of_ne hq hne
        cases hr : m.request with
        | none => simp
        | some r =>
          dsimp only
          split
          · split
            · rename_i hcond
              split
              · rename_i e hch
                intro h
                cases h
                exact getOrCreateChildDataRequests_fuel env _ _ hch
              · rename_i list_children ready s1 hch
                obtain ⟨c1, c2, c3, _, _⟩ :=
                  getOrCreateChildDataRequests_ok env m.tile s s1 list_children ready htree hch
                have hlen := length_of_map_newChildren env _ _ c1
                split
                · apply ih _ _ _ _ c3
                  · rw [frame_opts _ _ c2, List.length_append, hlen]; exact hcond.2.2
                  · rw [frame_opts _ _ c2]; omega
                  · rw [frame_opts _ _ c2]; omega
                · have hfd : frame (destroyChildren m.tile s1) = frame s :=
                    (destroyChildren_frame _ _).trans c2
                  apply ih _ _ _ _ (destroyChildren_treeOk env _ _ c3)
                  · rw [frame_opts _ _ hfd]; exact hq
                  · rw [frame_opts _ _ hfd]; omega
                  · rw [frame_opts _ _ hfd]; omega
            · have hfd : frame (destroyChildren m.tile s) = frame s := destroyChildren_frame _ _
              apply ih _ _ _ _ (destroyChildren_treeOk env _ _ htree)
              · rw [frame_opts _ _ hfd]; exact hq
              · rw [frame_opts _ _ hfd]; omega
              · rw [frame_opts _ _ hfd]; omega
          · exact ih _ _ _ _ htree hq (by omega) (by omega)

theorem bfsLoop_ref (env : Ports) (hall : ∀ r, env.IsFinished r = true) :
    ∀ (fuel i : Nat) (q : List TileMetaData)
    (items : List TileItem) (s : TileSetLL) (q' : List TileMetaData)
    (items' : List TileItem) (s' : TileSetLL),
    TreeOk env s.m_tree →
    bfsLoop env fuel i q items s = Except.ok (q', items', s') →
    items'.map TileItem.tile = refLoop env s.m_opts.max_level s.m_opts.max_data fuel i
      (q.map TileMetaData.proj) (items.map TileItem.tile) := by
  intro fuel
  induction fuel with
  | zero =>
    intro i q items s q' items' s' _ h
    simp only [bfsLoop] at h
    cases h
  | succ fuel ih =>
    intro i q items s q' items' s' htree h
    unfold bfsLoop at h
    unfold refLoop
    rw [List.getElem?_map]
    cases hq : q[i]? with
    | none =>
      rw [hq] at h
      cases h
      rfl
    | some m =>
      rw [hq] at h
      dsimp only [Option.map] at h ⊢
      rw [List.length_map]
      split at h
      · rename_i heq
        cases h
        rw [if_pos heq]
      · rename_i hne
        rw [if_neg hne]
        cases hr : m.request with
        | none => rw [hr] at h; cases h
        | some r =>
          rw [hr] at h
          dsimp only at h
          rw [if_pos (hall r)] at h
          have hsave : ∀ (s1 : TileSetLL), frame s1 = frame s → TreeOk env s1.m_tree →
              bfsLoop env fuel (i + 1) q (items ++ [makeItem env m r]) s1
                = Except.ok (q', items', s') →
              items'.map TileItem.tile = refLoop env s.m_opts.max_level s.m_opts.max_data fuel
                (i + 1) (q.map TileMetaData.proj) (items.map TileItem.tile ++ [m.proj.1]) := by
            intro s1 hf1 ht1 h1
            have := ih _ _ _ _ _ _ _ ht1 h1
            rw [frame_opts _ _ hf1, List.map_append] at this
            exact this
          split at h
          · rename_i hcond
            rw [if_pos (show m.proj.2 = true ∧ m.proj.1.level < s.m_opts.max_level ∧
              q.length + 4 ≤ s.m_opts.max_data from hcond)]
            split at h
            · cases h
            · rename_i list_children ready s1 hch
              obtain ⟨c1, c2, c3, c4, c5⟩ :=
                getOrCreateChildDataRequests_ok env m.tile s s1 list_children ready htree hch
              have hready := c5 hall
              subst hready
              rw [if_pos rfl] at h
              have := ih _ _ _ _ _ _ _ c3 h
              rw [frame_opts _ _ c2, List.map_append] at this
              rw [this]
              congr 2
              have e1 := c4 rfl
              apply List.ext_getElem
              · simp [length_of_map_newChildren env _ _ c1, newChildren]
              · intro n h1 h2
                simp only [List.getElem_map]
                have a1 : (list_children.map TileMetaData.tile)[n]? = (newChildren env m.tile)[n]? := by
                  rw [c1]
                have a2 : (list_children.map TileMetaData.exceeds_err)[n]?
                    = ((newChildren env m.tile).map (fun c => (env.GetVisibility c).2))[n]? := by
                  rw [e1]
                simp only [List.getElem?_map] at a1 a2
                have hn1 : n < list_children.length := by simpa using h1
                have hn2 : n < (newChildren env m.tile).length := by simpa using h2
                rw [List.getElem?_eq_getElem hn1, List.getElem?_eq_getElem hn2] at a1 a2
                simp only [Option.map_some', Option.some.injEq] at a1 a2
                unfold TileMetaData.proj refEntry
                rw [a1, a2]
          · rename_i hcond
            rw [if_neg (show ¬ (m.proj.2 = true ∧ m.proj.1.level < s.m_opts.max_level ∧
              q.length + 4 ≤ s.m_opts.max_data) from hcond)]
            exact hsave _ (destroyChildren_frame _ _) (destroyChildren_treeOk env _ _ htree) h

theorem sublist_flatMap {α β : Type} (f : α → List β) {l1 l2 : List α}
    (h : List.Sublist l1 l2) : List.Sublist (l1.flatMap f) (l2.flatMap f) := by
  induction h with
  | slnil => exact List.Sublist.refl _
  | cons a _ ih =>
    rw [List.flatMap_cons]
    exact ih.trans (List.sublist_append_right _ _)
  | cons₂ a _ ih =>
    rw [List.flatMap_cons, List.flatMap_cons]
    exact List.Sublist.append (List.Sublist.refl _) ih

theorem map_fst_refEntry (env : Ports) (l : List TileLL) :
    (l.map (refEntry env)).map Prod.fst = l := by
  induction l with
  | nil => rfl
  | cons a l ih => simp only [List.map_cons, ih]; rfl

theorem map_tile_of_proj (q : List TileMetaData) :
    q.map TileMetaData.tile = (q.map TileMetaData.proj).map Prod.fst := by
  rw [List.map_map]; rfl

theorem buildTileSetBFS_queue_ok (env : Ports) (s s' : TileSetLL) (q : List TileMetaData)
    (items : List TileItem) (htree : TreeOk env s.m_tree)
    (h : buildTileSetBFS_queue env s = Except.ok (q, items, s')) :
    frame s' = frame s ∧ TreeOk env s'.m_tree ∧ (∀ it ∈ items, it.id = it.tile.id) ∧
      List.Subperm (items.map TileItem.tile)
        (allNodes env s.m_list_root_tiles s.m_opts.max_level) ∧
      ((∀ r, env.IsFinished r = true) →
        items.map TileItem.tile = refBuild env s.m_list_root_tiles s.m_opts) := by
  unfold buildTileSetBFS_queue at h
  split at h
  · cases h
  · rename_i q0 s1 hroots
    obtain ⟨r1, r2, r3⟩ := enqueueRoots_ok env _ _ _ _ _ hroots (Nat.zero_le _)
    simp only [List.map_nil, List.nil_append, List.length_nil, Nat.sub_zero] at r3
    dsimp only at h
    split at h
    · cases h
    · rename_i q1 items1 s3 hloop
      cases h
      have ht2 : TreeOk env s1.m_tree := by rw [r2]; exact htree
      obtain ⟨g1, g2, g3, i', g4, g5⟩ := bfsLoop_potential env _ _ _ _
        { s1 with m_lru_view_data := s1.m_lru_view_data.mark_head } _ _ _ ht2 hloop
        (List.nil_sublist _) (by intro it hit; cases hit)
      have hf : frame s3 = frame s := g1.trans (Eq.trans rfl r1)
      have hopts : s1.m_opts = s.m_opts := frame_opts _ _ r1
      refine ⟨hf, g2, g3, ?_, ?_⟩
      · have hq0 : q0.map TileMetaData.tile = s.m_list_root_tiles.take s.m_opts.max_data := by
          rw [map_tile_of_proj, r3, map_fst_refEntry]
        have h1 : List.Sublist (items.map TileItem.tile)
            (potential env s.m_opts.max_level i' (q.map TileMetaData.tile)) := by
          unfold potential
          exact g4.trans (List.sublist_append_left _ _)
        have h2 : List.Sublist (potential env s.m_opts.max_level 0 (q0.map TileMetaData.tile))
            (allNodes env s.m_list_root_tiles s.m_opts.max_level) := by
          unfold potential allNodes
          rw [hq0]
          simp only [List.take_zero, List.nil_append, List.drop_zero]
          exact sublist_flatMap _ (List.take_sublist _ _)
        have g5' : List.Subperm (potential env s.m_opts.max_level i' (q.map TileMetaData.tile))
            (potential env s.m_opts.max_level 0 (q0.map TileMetaData.tile)) := by
          have := g5
          simp only [hopts] at this
          exact this
        exact h1.subperm.trans (g5'.trans h2.subperm)
      · intro hall
        have := bfsLoop_ref env hall _ _ _ _
          { s1 with m_lru_view_data := s1.m_lru_view_data.mark_head } _ _ _ ht2 hloop
        simp only [hopts, List.map_nil] at this
        rw [this, r3]
        rfl

theorem buildTileSetBFS_queue_fuel (env : Ports) (s : TileSetLL) (htree : TreeOk env s.m_tree) :
    buildTileSetBFS_queue env s ≠ Except.error Fault.fuel := by
  unfold buildTileSetBFS_queue
  split
  · rename_i e hroots
    intro h
    cases h
    exact enqueueRoots_fuel env _ _ _ hroots
  · rename_i q0 s1 hroots
    obtain ⟨r1, r2, r3⟩ := enqueueRoots_ok env _ _ _ _ _ hroots (Nat.zero_le _)
    have hlen : q0.length ≤ s1.m_opts.max_data := by
      have := congrArg List.length r3
      simp only [List.length_map, List.map_nil, List.nil_append, List.length_nil, Nat.sub_zero,
        List.length_take] at this
      rw [frame_opts _ _ r1, this]
      exact Nat.min_le_left _ _
    dsimp only
    split
    · rename_i e hloop
      intro h
      cases h
      refine bfsLoop_fuel env (s1.m_opts.max_data + 1) 0 q0 []
        { s1 with m_lru_view_data := s1.m_lru_view_data.mark_head } ?_ hlen (Nat.zero_le _) ?_ hloop
      · show TreeOk env s1.m_tree
        rw [r2]; exact htree
      · show s1.m_opts.max_data + 1 ≤ 0 + (s1.m_opts.max_data + 1)
        omega
    · simp

theorem buildTileSetBFS_ok (env : Ports) (s s' : TileSetLL)
    (items : List TileItem) (htree : TreeOk env s.m_tree)
    (h : buildTileSetBFS env s = Except.ok (items, s')) :
    frame s' = frame s ∧ TreeOk env s'.m_tree ∧ (∀ it ∈ items, it.id = it.tile.id) ∧
      List.Subperm (items.map TileItem.tile)
        (allNodes env s.m_list_root_tiles s.m_opts.max_level) ∧
      ((∀ r, env.IsFinished r = true) →
        items.map TileItem.tile = refBuild env s.m_list_root_tiles s.m_opts) := by
  unfold buildTileSetBFS at h
  split at h
  · cases h
  · rename_i q items1 s1 hq
    cases h
    exact buildTileSetBFS_queue_ok env s s' q items htree hq

theorem buildTileSetBFS_fuel (env : Ports) (s : TileSetLL) (htree : TreeOk env s.m_tree) :
    buildTileSetBFS env s ≠ Except.error Fault.fuel := by
  unfold buildTileSetBFS
  split
  · rename_i e hq
    intro h
    cases h
    exact buildTileSetBFS_queue_fuel env s htree hq
  · simp

theorem getOrCreateChildDataRequests_frame (env : Ports) (t : TileLL) (s s' : TileSetLL)
    (metas : List TileMetaData) (ready : Bool)
    (h : getOrCreateChildDataRequests env t s = Except.ok (metas, ready, s')) :
    frame s' = frame s := by
  unfold getOrCreateChildDataRequests at h
  dsimp only at h
  split at h
  · split at h
    · cases h
    · rename_i metas1 ready1 s2 hreq
      obtain ⟨_, h2, _, _⟩ := childRequests_ok env _ _ _ _ _ _ hreq
      have hf : frame s2 = frame s := h2.trans (createChildren_frame env t s)
      split at h
      · cases h
        exact (childVisibility_ok env metas1 s2).2.2.2.1.trans hf
      · cases h
        exact hf
  · cases h

theorem bfsLoop_frame (env : Ports) : ∀ (fuel i : Nat) (q : List TileMetaData)
    (items : List TileItem) (s : TileSetLL) (q' : List TileMetaData)
    (items' : List TileItem) (s' : TileSetLL),
    bfsLoop env fuel i q items s = Except.ok (q', items', s') → frame s' = frame s := by
  intro fuel
  induction fuel with
  | zero =>
    intro i q items s q' items' s' h
    simp only [bfsLoop] at h
    cases h
  | succ fuel ih =>
    intro i q items s q' items' s' h
    unfold bfsLoop at h
    split at h
    · cases h; rfl
    · split at h
      · cases h; rfl
      · split at h
        · cases h
        · split at h
          · split at h
            · split at h
              · cases h
              · rename_i list_children ready s1 hch
                have c := getOrCreateChildDataRequests_frame env _ _ _ _ _ hch
                split at h
                · exact (ih _ _ _ _ _ _ _ h).trans c
                · exact (ih _ _ _ _ _ _ _ h).trans ((destroyChildren_frame _ _).trans c)
            · exact (ih _ _ _ _ _ _ _ h).trans (destroyChildren_frame _ _)
          · exact ih _ _ _ _ _ _ _ h

theorem buildTileSetBFS_frame (env : Ports) (s s' : TileSetLL) (items : List TileItem)
    (h : buildTileSetBFS env s = Except.ok (items, s')) : frame s' = frame s := by
  unfold buildTileSetBFS buildTileSetBFS_queue at h
  split at h
  · cases h
  · rename_i q items1 s1 hq
    cases h
    split at hq
    · cases hq
    · rename_i q0 s2 hroots
      obtain ⟨r1, _, _⟩ := enqueueRoots_ok env _ _ _ _ _ hroots (Nat.zero_le _)
      dsimp only at hq
      split at hq
      · cases hq
      · rename_i q1 items2 s3 hloop
        cases hq
        exact ((bfsLoop_frame env _ _ _ _ _ _ _ _ hloop).trans rfl).trans r1

theorem gate_eq (env : Ports) (s : TileSetLL) :
    (!s.m_preloaded_data_ready &&
      s.m_lkup_preloaded_data.any (fun id_req => !env.IsFinished id_req.2))
      = !passesPreloadGate env s := by
  unfold passesPreloadGate
  rw [Bool.not_or]
  congr 1
  induction s.m_lkup_preloaded_data with
  | nil => rfl
  | cons a l ih => simp only [List.any_cons, List.all_cons, ih, Bool.not_and]

/-- What a call of `UpdateTileSet` that passes the preload gate computes. -/
theorem UpdateTileSet_ok (env : Ports) (cam : Nat) (s s' : TileSetLL)
    (out r : List TileLL.Id × List TileLL.Id × List TileLL.Id)
    (hgate : passesPreloadGate env s = true)
    (h : UpdateTileSet env cam s out = Except.ok (s', r)) :
    ∃ items sB,
      buildTileSetBFS env (beforeBuild cam s) = Except.ok (items, sB) ∧
      s' = { sB with m_list_tiles := sortTileItems items } ∧
      r = ((SplitSets env.changed ((sortTileItems items).map TileItem.id)
          (s.m_list_tiles.map TileItem.id)).1,
           (SplitSets env.changed ((sortTileItems items).map TileItem.id)
          (s.m_list_tiles.map TileItem.id)).2.2,
           (SplitSets env.changed ((sortTileItems items).map TileItem.id)
          (s.m_list_tiles.map TileItem.id)).2.1) := by
  unfold UpdateTileSet at h
  rw [gate_eq, hgate] at h
  simp only [Bool.not_true, Bool.false_eq_true, if_false] at h
  split at h
  · cases h
  · rename_i built s1 hb
    have hf := buildTileSetBFS_frame env _ _ _ hb
    have ht : s1.m_list_tiles = s.m_list_tiles := frame_tiles (beforeBuild cam s) s1 hf
    cases h
    refine ⟨built, s1, hb, rfl, ?_⟩
    rw [ht]

theorem splitMerge_both_mem : ∀ (fuel : Nat) (a b : List TileLL.Id) (z : TileLL.Id),
    z ∈ (splitMerge fuel a b).2.2 → z ∈ a ∧ z ∈ b := by
  intro fuel
  induction fuel with
  | zero => intro a b z h; simp [splitMerge] at h
  | succ n ih =>
    intro a b z h
    cases a with
    | nil => simp [splitMerge] at h
    | cons x a =>
      cases b with
      | nil => simp [splitMerge] at h
      | cons y b =>
        simp only [splitMerge] at h
        by_cases hxy : x < y
        · simp only [hxy, if_true] at h
          have h2 := ih a (y :: b) z h
          exact ⟨List.mem_cons_of_mem _ h2.1, h2.2⟩
        · by_cases hyx : y < x
          · simp only [hxy, hyx, if_true, if_false] at h
            have h2 := ih (x :: a) b z h
            exact ⟨h2.1, List.mem_cons_of_mem _ h2.2⟩
          · simp only [hxy, hyx, if_false, List.mem_cons] at h
            have hxy2 : x = y := Nat.le_antisymm (Nat.le_of_not_lt hyx) (Nat.le_of_not_lt hxy)
            rcases h with h | h
            · subst h
              exact ⟨List.mem_cons_self _ _, by rw [← hxy2]; exact List.mem_cons_self _ _⟩
            · have h2 := ih a b z h
              exact ⟨List.mem_cons_of_mem _ h2.1, List.mem_cons_of_mem _ h2.2⟩

theorem SplitSets_both_mem (changed : List TileLL.Id → List TileLL.Id → TileLL.Id → Bool)
    (a b : List TileLL.Id) (z : TileLL.Id) (h : z ∈ (SplitSets changed a b).2.2) :
    z ∈ a ∧ z ∈ b :=
  splitMerge_both_mem _ a b z (List.mem_filter.mp h).1

theorem splitMerge_both : ∀ (fuel : Nat) (a b : List TileLL.Id),
    a.length + b.length < fuel → a.Sorted (· ≤ ·) → b.Sorted (· ≤ ·) →
    ∀ z, z ∈ (splitMerge fuel a b).2.2 ↔ (z ∈ a ∧ z ∈ b) := by
  intro fuel
  induction fuel with
  | zero => intro a b h; omega
  | succ n ih =>
    intro a b h ha hb z
    cases a with
    | nil => simp [splitMerge]
    | cons x a =>
      cases b with
      | nil => simp [splitMerge]
      | cons y b =>
        simp only [splitMerge]
        have hxa := List.rel_of_sorted_cons ha
        have hyb := List.rel_of_sorted_cons hb
        simp only [List.length_cons] at h
        by_cases hxy : x < y
        · simp only [hxy, if_true]
          rw [ih a (y :: b) (by simp only [List.length_cons]; omega) ha.of_cons hb z]
          constructor
          · rintro ⟨h1, h2⟩
            exact ⟨List.mem_cons_of_mem _ h1, h2⟩
          · rintro ⟨h1, h2⟩
            refine ⟨?_, h2⟩
            rcases List.mem_cons.mp h1 with rfl | h1
            · rcases List.mem_cons.mp h2 with rfl | h2
              · exact absurd hxy (lt_irrefl _)
              · exact absurd (hyb _ h2) (not_le.mpr hxy)
            · exact h1
        · simp only [hxy, if_false]
          by_cases hyx : y < x
          · simp only [hyx, if_true]
            rw [ih (x :: a) b (by simp only [List.length_cons]; omega) ha hb.of_cons z]
            constructor
            · rintro ⟨h1, h2⟩
              exact ⟨h1, List.mem_cons_of_mem _ h2⟩
            · rintro ⟨h1, h2⟩
              refine ⟨h1, ?_⟩
              rcases List.mem_cons.mp h2 with rfl | h2
              · rcases List.mem_cons.mp h1 with rfl | h1
                · exact absurd hyx (lt_irrefl _)
                · exact absurd (hxa _ h1) (not_le.mpr hyx)
              · exact h2
          · simp only [hyx, if_false]
            have hxy' : x = y := le_antisymm (not_lt.mp hyx) (not_lt.mp hxy)
            subst hxy'
            simp only [List.mem_cons]
            rw [ih a b (by omega) ha.of_cons hb.of_cons z]
            constructor
            · rintro (h1 | ⟨h1, h2⟩)
              · exact ⟨Or.inl h1, Or.inl h1⟩
              · exact ⟨Or.inr h1, Or.inr h2⟩
            · rintro ⟨h1 | h1, h2 | h2⟩
              · exact Or.inl h1
              · exact Or.inl h1
              · exact Or.inl h2
              · exact Or.inr ⟨h1, h2⟩

/-! ## `std::lower_bound` -/

theorem idsMono_of_sorted (l : List TileItem)
    (h : (l.map TileItem.id).Sorted (· ≤ ·)) : IdsMono l := by
  intro i j a c hij ha hc
  rcases Nat.eq_or_lt_of_le hij with heq | hlt
  · subst heq
    rw [ha] at hc
    cases hc
    exact le_refl _
  · have hp : List.Pairwise (fun u v : TileItem => u.id ≤ v.id) l := by
      have := h
      unfold List.Sorted at this
      rwa [List.pairwise_map] at this
    rw [List.pairwise_iff_getElem] at hp
    obtain ⟨hi, rfl⟩ := List.getElem?_eq_some.mp ha
    obtain ⟨hj, rfl⟩ := List.getElem?_eq_some.mp hc
    exact hp i j hi hj hlt

theorem lower_bound_loop_spec (l : List TileItem) (b : TileLL.Id) (hm : IdsMono l) :
    ∀ fuel first len, len ≤ fuel → first + len ≤ l.length →
      (∀ j a, j < first → l[j]? = some a → a.id < b) →
      (∀ j a, first + len ≤ j → l[j]? = some a → b ≤ a.id) →
      (lower_bound_loop l b fuel first len ≤ l.length ∧
       (∀ j a, j < lower_bound_loop l b fuel first len → l[j]? = some a → a.id < b) ∧
       (∀ j a, lower_bound_loop l b fuel first len ≤ j → l[j]? = some a → b ≤ a.id)) := by
  intro fuel
  induction fuel with
  | zero =>
    intro first len hlen hb hlo hhi
    have : len = 0 := by omega
    subst this
    simp only [lower_bound_loop]
    exact ⟨by omega, hlo, fun j a hj => hhi j a (by omega)⟩
  | succ fuel ih =>
    intro first len hlen hb hlo hhi
    unfold lower_bound_loop
    by_cases h0 : len = 0
    · subst h0
      simp only [if_true]
      exact ⟨by omega, hlo, fun j a hj => hhi j a (by omega)⟩
    · simp only [h0, if_false]
      have hhalf : len / 2 < len := Nat.div_lt_self (by omega) (by decide)
      have hmid : first + len / 2 < l.length := by omega
      have hget : l[first + len / 2]? = some (l[first + len / 2]) :=
        List.getElem?_eq_getElem hmid
      rw [hget]
      simp only
      by_cases hc : (l[first + len / 2]).id < b
      · simp only [hc, if_true]
        apply ih
        · omega
        · omega
        · intro j a hj ha
          exact lt_of_le_of_lt (hm j (first + len / 2) a _ (by omega) ha hget) hc
        · intro j a hj ha
          exact hhi j a (by omega) ha
      · simp only [hc, if_false]
        apply ih
        · omega
        · omega
        · exact hlo
        · intro j a hj ha
          exact le_trans (not_lt.mp hc) (hm (first + len / 2) j _ a (by omega) hget ha)

theorem lower_bound_spec (l : List TileItem) (b : TileLL.Id) (hm : IdsMono l) :
    lower_bound l b ≤ l.length ∧
    (∀ j a, j < lower_bound l b → l[j]? = some a → a.id < b) ∧
    (∀ j a, lower_bound l b ≤ j → l[j]? = some a → b ≤ a.id) := by
  unfold lower_bound
  apply lower_bound_loop_spec l b hm
  · exact le_refl _
  · omega
  · intro j a hj; omega
  · intro j a hj ha
    have := (List.getElem?_eq_some.mp ha).1
    omega

/-! ## Options -/

theorem foldl_sumPreload (ls : List Nat) : ∀ a : Nat, a < 2 ^ 64 →
    ls.foldl (fun num level => (num + ipow 4 level) % 2 ^ 64) a
      = (a + (ls.map (fun l => 4 ^ l)).sum) % 2 ^ 64 := by
  induction ls with
  | nil =>
    intro a ha
    simp only [List.foldl_nil, List.map_nil, List.sum_nil, Nat.add_zero]
    omega
  | cons l ls ih =>
    intro a ha
    simp only [List.foldl_cons, List.map_cons, List.sum_cons]
    rw [ih _ (Nat.mod_lt _ (by positivity))]
    unfold ipow
    generalize (List.map (fun l => 4 ^ l) ls).sum = q
    generalize 4 ^ l = p
    omega

theorem sumPreload_eq (ls : List Nat) :
    sumPreload ls = (ls.map (fun l => 4 ^ l)).sum % 2 ^ 64 := by
  unfold sumPreload
  rw [foldl_sumPreload ls 0 (by positivity)]
  simp

theorem sumPreload_sorted (ls : List Nat) :
    sumPreload (ls.insertionSort (· ≤ ·)) = (ls.map (fun l => 4 ^ l)).sum % 2 ^ 64 := by
  rw [sumPreload_eq]
  congr 1
  exact ((List.perm_insertionSort _ ls).map _).sum_eq

/-- The assertion of `initOptions` fails exactly when the supplied `max_data`
is the largest `uint64_t`. -/
theorem initOptions_assertion (src : TileDataSourceLL) (opts : Options)
    (h64 : opts.max_data ≤ UINT64_MAX) :
    initOptions src opts = Except.error Fault.assertion ↔ opts.max_data = UINT64_MAX := by
  unfold initOptions
  split
  · rename_i hlt
    constructor
    · intro h; cases h
    · intro h; omega
  · rename_i hlt
    constructor
    · intro _; omega
    · intro _; rfl

/-- For levels of type `uint8_t` other than the pair (255, 255), `initOptions`
returns levels inside the range of the source with `min_level ≤ max_level`. -/
theorem initOptions_levels_ordered (src : TileDataSourceLL) (opts r : Options)
    (hsrc : src.GetMinLevel ≤ src.GetMaxLevel)
    (hmax : opts.max_level < 256) (hne : ¬ (opts.min_level = 255 ∧ opts.max_level = 255))
    (h : initOptions src opts = Except.ok r) :
    src.GetMinLevel ≤ r.min_level ∧ r.min_level ≤ r.max_level ∧
      r.max_level ≤ src.GetMaxLevel := by
  unfold initOptions at h
  split at h
  · cases h
    dsimp only
    unfold clamp
    by_cases h1 : opts.min_level > opts.max_level
    · simp only [h1, if_true]
      split_ifs <;> omega
    · by_cases h2 : opts.min_level = opts.max_level
      · simp only [h1, h2, if_true, if_false]
        split_ifs <;> omega
      · simp only [h1, h2, if_false]
        split_ifs <;> omega
  · cases h

/-! ## Construction -/

theorem emplacePreload_tree (env : Ports) (level x y : Nat) (s : TileSetLL) :
    (emplacePreload env level x y s).m_tree = s.m_tree := by
  unfold emplacePreload
  dsimp only
  split <;> rfl

theorem foldl_tree {α : Type} (f : TileSetLL → α → TileSetLL)
    (hf : ∀ s a, (f s a).m_tree = s.m_tree) :
    ∀ (l : List α) (s : TileSetLL), (l.foldl f s).m_tree = s.m_tree := by
  intro l
  induction l with
  | nil => intro s; rfl
  | cons a l ih => intro s; rw [List.foldl_cons, ih, hf]

theorem preloadLevels_tree (env : Ports) (src : TileDataSourceLL) :
    ∀ (levels : List Nat) (s s' : TileSetLL),
    preloadLevels env src levels s = Except.ok s' → s'.m_tree = s.m_tree := by
  intro levels
  induction levels with
  | nil =>
    intro s s' h
    simp only [preloadLevels] at h
    cases h
    rfl
  | cons level rest ih =>
    intro s s' h
    simp only [preloadLevels] at h
    split at h
    · cases h
    · rename_i s1 h1
      rw [ih _ _ h]
      unfold preloadLevel at h1
      split at h1
      · cases h1
        refine (foldl_tree _ ?_ _ _).trans rfl
        intro sy y
        exact foldl_tree _ (fun sx x => emplacePreload_tree env level x y sx) _ _
      · cases h1

/-- The constructor leaves a well-formed tile tree: no tile has children. -/
theorem ctor_treeOk (env : Ports) (src : TileDataSourceLL) (options : Options)
    (lru_capacity : Nat) (s : TileSetLL)
    (h : TileSetLL.TileSetLL env src options lru_capacity = Except.ok s) :
    TreeOk env s.m_tree := by
  unfold TileSetLL.TileSetLL at h
  split at h
  · cases h
  · have := preloadLevels_tree env src _ _ _ h
    rw [this]
    intro e he
    cases he

/-- The example state `startGrid11` is what the constructor builds. -/
theorem ctor_startGrid11 :
    TileSetLL.TileSetLL portsLeaf srcGrid11
      { min_level := 0, max_level := 1, max_data := 8, cache_size_hint := 4,
        list_preload_levels := [], upsample_hint := false } 8 = Except.ok startGrid11 := by
  decide

/-- The example state `startGrid21` is what the constructor builds. -/
theorem ctor_startGrid21 :
    TileSetLL.TileSetLL portsLeaf srcGrid21
      { min_level := 0, max_level := 2, max_data := 16, cache_size_hint := 16,
        list_preload_levels := [], upsample_hint := false } 16 = Except.ok startGrid21 := by
  decide

/-- The example state `startPreload21` is what the constructor builds. -/
theorem ctor_startPreload21 :
    TileSetLL.TileSetLL portsPending srcGrid21
      { min_level := 0, max_level := 1, max_data := 4, cache_size_hint := 4,
        list_preload_levels := [0], upsample_hint := false } 8 = Except.ok startPreload21 := by
  decide

/-- With `cache_size_hint = 0` the request of the root tile is evicted at the end
of the first update and issued again in the second: the resident item keeps
its id and tile and gets the data pointer of the new request. -/
theorem UpdateTileSet_second_call_new_request :
    (stateAfter portsLeaf 7 startGrid11NoCache).m_list_tiles
      = [{ id := 0, tile := { level := 0, x := 0, y := 0, id := 0, addr := [0] },
           data := some 100 }] ∧
    (stateAfter portsLeaf 7 (stateAfter portsLeaf 7 startGrid11NoCache)).m_list_tiles
      = [{ id := 0, tile := { level := 0, x := 0, y := 0, id := 0, addr := [0] },
           data := some 101 }] := by
  decide

theorem rootTiles_length (env : Ports) (nx ny : Nat) :
    (rootTiles env nx ny).length = ny * nx := by
  unfold rootTiles
  induction ny with
  | zero => simp
  | succ n ih =>
    rw [List.range_succ, List.flatMap_append, List.length_append, ih]
    simp [Nat.succ_mul]

theorem rootTileBounds_length (b : GeoBounds) (nx ny : Nat) :
    (rootTileBounds b nx ny).length = ny * nx := by
  simp [rootTileBounds, List.length_flatMap, Function.comp_def]

theorem rootTileBounds_min (bounds : GeoBounds) (nx ny : Nat) :
    ∀ b ∈ rootTileBounds bounds nx ny,
      b.minLon = bounds.minLon ∧ b.minLat = bounds.minLat := by
  intro b hb
  simp only [rootTileBounds, List.mem_flatMap, List.mem_map, List.mem_range] at hb
  obtain ⟨y, _, x, _, rfl⟩ := hb
  exact ⟨rfl, rfl⟩

theorem LRUCache.get_fst (c : LRUCache) (id : TileLL.Id) (touch : Bool) :
    (c.get id touch).1 = (c.entries.find? (fun e => e.key == id)).map LRUEntry.value ∧
    (c.get id touch).2.1 = (c.entries.find? (fun e => e.key == id)).isSome := by
  unfold LRUCache.get
  cases c.entries.find? (fun e => e.key == id) with
  | none => exact ⟨rfl, rfl⟩
  | some e => cases touch <;> exact ⟨rfl, rfl⟩

theorem countP_filter_ne (l : List LRUEntry) (id : TileLL.Id) :
    (l.filter (fun e => e.key != id)).countP (fun e => e.key == id) = 0 := by
  rw [List.countP_eq_zero]
  intro e he
  have := (List.mem_filter.mp he).2
  simpa using this

theorem evictOld_sublist : ∀ (k : Nat) (l : List LRUEntry),
    List.Sublist (LRUCache.evictOld k l) l := by
  intro k l
  induction l generalizing k with
  | nil => cases k <;> simp [LRUCache.evictOld]
  | cons e es ih =>
    cases k with
    | zero => simp [LRUCache.evictOld]
    | succ k =>
      unfold LRUCache.evictOld
      split
      · exact (ih k).cons e
      · exact (ih (k + 1)).cons₂ e

theorem insert_entries (c : LRUCache) (id : TileLL.Id) (r : Request) (touch : Bool) :
    ∃ room, (c.insert id r touch).entries
        = { key := id, value := r, before_mark := false } :: room ∧
      ∀ e ∈ room, (e.key == id) = false := by
  unfold LRUCache.insert
  dsimp only
  refine ⟨_, rfl, ?_⟩
  intro e he
  have hk : e ∈ c.entries.filter (fun e => e.key != id) := by
    split at he
    · have h1 := (evictOld_sublist _ _).reverse.subset he
      simpa using h1
    · exact he
  have := (List.mem_filter.mp hk).2
  simpa using this

theorem getOrCreateDataRequest_cached (tile : TileLL) (s : TileSetLL) (e : LRUEntry)
    (hflag : s.m_list_level_is_preloaded[tile.level]? = some 0)
    (hfind : s.m_lru_view_data.entries.find? (fun e => e.key == tile.id) = some e) :
    getOrCreateDataRequest tile s = Except.ok (some e.value,
      { s with m_lru_view_data :=
          { s.m_lru_view_data with
            entries := e :: s.m_lru_view_data.entries.filter (fun e' => e'.key != tile.id) } }) := by
  unfold getOrCreateDataRequest
  simp [hflag, LRUCache.get, hfind]

theorem getOrCreateDataRequest_absent (tile : TileLL) (s : TileSetLL)
    (hflag : s.m_list_level_is_preloaded[tile.level]? = some 0)
    (hfind : s.m_lru_view_data.entries.find? (fun e => e.key == tile.id) = none) :
    getOrCreateDataRequest tile s = Except.ok (some s.m_tile_data_source.length,
      { s with m_tile_data_source := s.m_tile_data_source ++ [tile.id],
               m_lru_view_data :=
                 s.m_lru_view_data.insert tile.id s.m_tile_data_source.length false }) := by
  obtain ⟨room, hroom, _⟩ :=
    insert_entries s.m_lru_view_data tile.id s.m_tile_data_source.length false
  unfold getOrCreateDataRequest
  simp [hflag, LRUCache.get, hfind, RequestData, hroom]

theorem getOrCreateDataRequest_preloaded (tile : TileLL) (s : TileSetLL) (flag : Nat)
    (r : Request)
    (hflag : s.m_list_level_is_preloaded[tile.level]? = some flag) (hne : flag ≠ 0)
    (hl : s.m_lkup_preloaded_data.lookup tile.id = some r) :
    getOrCreateDataRequest tile s = Except.ok (some r, s) := by
  unfold getOrCreateDataRequest
  simp [hflag, hne, hl]

theorem getOrCreateDataRequest_preloaded_absent (tile : TileLL) (s : TileSetLL) (flag : Nat)
    (hflag : s.m_list_level_is_preloaded[tile.level]? = some flag) (hne : flag ≠ 0)
    (hl : s.m_lkup_preloaded_data.lookup tile.id = none) :
    getOrCreateDataRequest tile s = Except.error Fault.past_the_end := by
  unfold getOrCreateDataRequest
  simp [hflag, hne, hl]

theorem getOrCreateDataRequest_no_flag (tile : TileLL) (s : TileSetLL)
    (hflag : s.m_list_level_is_preloaded[tile.level]? = none) :
    getOrCreateDataRequest tile s = Except.error Fault.out_of_range := by
  unfold getOrCreateDataRequest
  simp [hflag]

theorem count_cached (l : List LRUEntry) (id : TileLL.Id) (e : LRUEntry)
    (h : l.find? (fun e => e.key == id) = some e) :
    (e :: l.filter (fun e' => e'.key != id)).countP (fun e => e.key == id) = 1 := by
  have hk := List.find?_some h
  rw [List.countP_cons, countP_filter_ne, if_pos hk]

theorem count_absent (l : List LRUEntry) (id : TileLL.Id)
    (h : l.find? (fun e => e.key == id) = none) :
    l.countP (fun e => e.key == id) = 0 := by
  rw [List.countP_eq_zero]
  intro e he
  have := List.find?_eq_none.mp h e he
  simpa using this

theorem getOrCreateChildDataRequests_length (env : Ports) (t : TileLL) (s s' : TileSetLL)
    (metas : List TileMetaData) (ready : Bool)
    (h : getOrCreateChildDataRequests env t s = Except.ok (metas, ready, s')) :
    metas.length = 4 := by
  unfold getOrCreateChildDataRequests at h
  dsimp only at h
  split at h
  · split at h
    · cases h
    · rename_i metas1 ready1 s2 hreq
      obtain ⟨h1, _, _, _⟩ := childRequests_ok env _ _ _ _ _ _ hreq
      have hlen : metas1.length = 4 := by
        have := congrArg List.length h1
        simpa using this
      split at h
      · cases h
        have := congrArg List.length (childVisibility_ok env metas1 s2).1
        simpa [hlen] using this
      · cases h
        exact hlen
  · cases h

theorem enqueueRoots_bound (env : Ports) : ∀ (roots : List TileLL) (q : List TileMetaData)
    (s : TileSetLL) (q' : List TileMetaData) (s' : TileSetLL),
    enqueueRoots env roots q s = Except.ok (q', s') → q.length ≤ s.m_opts.max_data →
    q <+: q' ∧ q'.length ≤ s.m_opts.max_data := by
  intro roots
  induction roots with
  | nil =>
    intro q s q' s' h hle
    simp only [enqueueRoots] at h
    cases h
    exact ⟨List.prefix_refl _, hle⟩
  | cons t roots ih =>
    intro q s q' s' h hle
    simp only [enqueueRoots] at h
    split at h
    · cases h
      exact ⟨List.prefix_refl _, hle⟩
    · rename_i hne
      split at h
      · cases h
      · rename_i request s1 hreq
        obtain ⟨f1, _⟩ := getOrCreateDataRequest_ok _ _ _ _ hreq
        have hf : frame s1 = frame s := f1.trans rfl
        have hlt : q.length < s.m_opts.max_data := lt_of_le_of_ne hle hne
        obtain ⟨g1, g2⟩ := ih _ _ _ _ h (by
          rw [frame_opts _ _ hf, List.length_append]; simpa using hlt)
        rw [frame_opts _ _ hf] at g2
        exact ⟨(List.prefix_append _ _).trans g1, g2⟩

theorem bfsLoop_bound (env : Ports) : ∀ (fuel i : Nat) (q : List TileMetaData)
    (items : List TileItem) (s : TileSetLL),
    q.length ≤ s.m_opts.max_data →
    (i ≤ s.m_opts.max_data → s.m_opts.max_data + 1 ≤ i + fuel →
      bfsLoop env fuel i q items s ≠ Except.error Fault.fuel) ∧
    ∀ (q' : List TileMetaData) (items' : List TileItem) (s' : TileSetLL),
      bfsLoop env fuel i q items s = Except.ok (q', items', s') →
      q <+: q' ∧ q'.length ≤ s.m_opts.max_data ∧ items <+: items' ∧
        (items.length ≤ i → i ≤ q.length → items'.length ≤ q'.length) := by
  intro fuel
  induction fuel with
  | zero =>
    intro i q items s hq
    refine ⟨fun _ _ => by omega, ?_⟩
    intro q' items' s' h
    simp only [bfsLoop] at h
    cases h
  | succ fuel ih =>
    intro i q items s hq
    unfold bfsLoop
    cases hqi : q[i]? with
    | none =>
      refine ⟨fun _ _ => by simp, ?_⟩
      intro q' items' s' h
      cases h
      exact ⟨List.prefix_refl _, hq, List.prefix_refl _, fun h1 h2 => le_trans h1 h2⟩
    | some m =>
      dsimp only
      have hil : i < q.length := (List.getElem?_eq_some.mp hqi).1
      split
      · refine ⟨fun _ _ => by simp, ?_⟩
        intro q' items' s' h
        cases h
        exact ⟨List.prefix_refl _, hq, List.prefix_refl _, fun h1 h2 => le_trans h1 h2⟩
      · rename_i hne
        have hlt : q.length < s.m_opts.max_data := lt_of_le_of_ne hq hne
        cases hr : m.request with
        | none =>
          refine ⟨fun _ _ => by simp, ?_⟩
          intro q' items' s' h
          cases h
        | some r =>
          dsimp only
          split
          · split
            · rename_i hcond
              split
              · rename_i e hch
                refine ⟨fun _ _ h => ?_, fun q' items' s' h => by cases h⟩
                cases h
                exact getOrCreateChildDataRequests_fuel env _ _ hch
              · rename_i list_children ready s1 hch
                have c2 := getOrCreateChildDataRequests_frame env _ _ _ _ _ hch
                have hlen := getOrCreateChildDataRequests_length env _ _ _ _ _ hch
                split
                · obtain ⟨k1, k2⟩ := ih (i + 1) (q ++ list_children) items s1 (by
                    rw [frame_opts _ _ c2, List.length_append, hlen]; exact hcond.2.2)
                  rw [frame_opts _ _ c2] at k1 k2
                  refine ⟨fun _ _ => k1 (by omega) (by omega), ?_⟩
                  intro q' items' s' h
                  obtain ⟨a1, a2, a3, a4⟩ := k2 q' items' s' h
                  refine ⟨(List.prefix_append _ _).trans a1, a2, a3, fun h1 _ => ?_⟩
                  exact a4 (by omega) (by rw [List.length_append]; omega)
                · have hfd : frame (destroyChildren m.tile s1) = frame s :=
                    (destroyChildren_frame _ _).trans c2
                  obtain ⟨k1, k2⟩ := ih (i + 1) q (items ++ [makeItem env m r])
                    (destroyChildren m.tile s1) (by rw [frame_opts _ _ hfd]; exact hq)
                  rw [frame_opts _ _ hfd] at k1 k2
                  refine ⟨fun _ _ => k1 (by omega) (by omega), ?_⟩
                  intro q' items' s' h
                  obtain ⟨a1, a2, a3, a4⟩ := k2 q' items' s' h
                  refine ⟨a1, a2, (List.prefix_append _ _).trans a3, fun h1 _ => ?_⟩
                  exact a4 (by rw [List.length_append, List.length_singleton]; omega) (by omega)
            · have hfd : frame (destroyChildren m.tile s) = frame s := destroyChildren_frame _ _
              obtain ⟨k1, k2⟩ := ih (i + 1) q (items ++ [makeItem env m r])
                (destroyChildren m.tile s) (by rw [frame_opts _ _ hfd]; exact hq)
              rw [frame_opts _ _ hfd] at k1 k2
              refine ⟨fun _ _ => k1 (by omega) (by omega), ?_⟩
              intro q' items' s' h
              obtain ⟨a1, a2, a3, a4⟩ := k2 q' items' s' h
              refine ⟨a1, a2, (List.prefix_append _ _).trans a3, fun h1 _ => ?_⟩
              exact a4 (by rw [List.length_append, List.length_singleton]; omega) (by omega)
          · obtain ⟨k1, k2⟩ := ih (i + 1) q items s hq
            refine ⟨fun _ _ => k1 (by omega) (by omega), ?_⟩
            intro q' items' s' h
            obtain ⟨a1, a2, a3, a4⟩ := k2 q' items' s' h
            exact ⟨a1, a2, a3, fun h1 _ => a4 (by omega) (by omega)⟩

theorem initOptions_optsPreload21 :
    initOptions srcGrid21 optsPreload21 = Except.ok optsPreload21 := by
  decide

theorem ctor_startPreload (env : Ports) (lru_capacity : Nat)
    (hid : env.GetIdFromLevelXY 0 0 0 ≠ env.GetIdFromLevelXY 0 1 0) :
    TileSetLL.TileSetLL env srcGrid21 optsPreload21 lru_capacity
      = Except.ok (startPreload env lru_capacity) := by
  unfold TileSetLL.TileSetLL
  rw [initOptions_optsPreload21]
  have h1 : initNumPreloadData optsPreload21 = 1 := by decide
  have h2 : initMaxViewData optsPreload21 1 = 3 := by decide
  have h3 : (ipow 2 0 * 2) % 2 ^ 64 = 2 := by decide
  have h4 : (ipow 2 0 * 1) % 2 ^ 64 = 1 := by decide
  simp only [h1, h2]
  simp [preloadLevels, preloadLevel, optsPreload21, srcGrid21, h3, h4, List.range,
    List.range.loop, emplacePreload, RequestData, rootTiles, List.lookup, startPreload,
    hid, Ne.symm hid]
  have hb : (env.GetIdFromLevelXY 0 1 0 == env.GetIdFromLevelXY 0 0 0) = false := by
    simpa using Ne.symm hid
  rw [hb]

theorem splitMerge_nil_right (fuel : Nat) (a : List TileLL.Id) :
    splitMerge (fuel + 1) a [] = (a, [], []) := by
  cases a <;> rfl

theorem update_startPreload (env : Ports) (cam lru_capacity : Nat)
    (hid : env.GetIdFromLevelXY 0 0 0 ≠ env.GetIdFromLevelXY 0 1 0)
    (hfin0 : env.IsFinished 0 = true) (hfin1 : env.IsFinished 1 = true) :
    ∃ s1, UpdateTileSet env cam (startPreload env lru_capacity) ([], [], [])
        = Except.ok (s1, sortTileItems [rootItem env 0 0, rootItem env 1 1] |>.map TileItem.id, [], []) ∧
      s1.m_list_tiles = sortTileItems [rootItem env 0 0, rootItem env 1 1] := by
  have hb : (env.GetIdFromLevelXY 0 1 0 == env.GetIdFromLevelXY 0 0 0) = false := by
    simpa using Ne.symm hid
  simp [UpdateTileSet, startPreload, hfin0, hfin1, buildTileSetBFS, buildTileSetBFS_queue,
    enqueueRoots, optsPreload21, GetVisibility, getOrCreateDataRequest, TileLL.root,
    List.lookup, hb, bfsLoop, LRUCache.mark_head, makeItem, destroyChildren, getLinks,
    TileLinks.fresh, LRUCache.trim_against_mark, LRUCache.evictOld, SplitSets, rootItem,
    splitMerge_nil_right]

theorem childRequests_data (env : Ports) (g : Request → Option Nat) :
    ∀ (cs : List TileLL) (ready : Bool) (s : TileSetLL),
    childRequests { env with GetData := g } cs ready s = childRequests env cs ready s := by
  intro cs
  induction cs with
  | nil => intro ready s; rfl
  | cons c cs ih =>
    intro ready s
    unfold childRequests
    cases getOrCreateDataRequest c s with
    | error e => rfl
    | ok v =>
      obtain ⟨r, s1⟩ := v
      cases r with
      | none => rfl
      | some r =>
        dsimp only
        rw [ih]

theorem childVisibility_data (env : Ports) (g : Request → Option Nat) :
    ∀ (ms : List TileMetaData) (s : TileSetLL),
    childVisibility { env with GetData := g } ms s = childVisibility env ms s := by
  intro ms
  induction ms with
  | nil => intro s; rfl
  | cons m ms ih =>
    intro s
    unfold childVisibility
    dsimp only
    rw [ih]
    rfl

theorem getOrCreateChildDataRequests_data (env : Ports) (g : Request → Option Nat)
    (t : TileLL) (s : TileSetLL) :
    getOrCreateChildDataRequests { env with GetData := g } t s
      = getOrCreateChildDataRequests env t s := by
  unfold getOrCreateChildDataRequests
  simp only [childRequests_data, childVisibility_data]
  rfl

theorem enqueueRoots_data (env : Ports) (g : Request → Option Nat) :
    ∀ (roots : List TileLL) (q : List TileMetaData) (s : TileSetLL),
    enqueueRoots { env with GetData := g } roots q s = enqueueRoots env roots q s := by
  intro roots
  induction roots with
  | nil => intro q s; rfl
  | cons t roots ih =>
    intro q s
    unfold enqueueRoots
    split
    · rfl
    · dsimp only
      cases h : getOrCreateDataRequest t (GetVisibility env t s).2 with
      | error e =>
        have h2 : getOrCreateDataRequest t (GetVisibility { env with GetData := g } t s).2
            = Except.error e := h
        rw [h2]
      | ok v =>
        have h2 : getOrCreateDataRequest t (GetVisibility { env with GetData := g } t s).2
            = Except.ok v := h
        rw [h2]
        dsimp only
        rw [ih]
        rfl

theorem bfsLoop_data (env : Ports) (g : Request → Option Nat) :
    ∀ (fuel i : Nat) (q : List TileMetaData) (items items2 : List TileItem) (s : TileSetLL),
    items.map TileItem.noData = items2.map TileItem.noData →
    (bfsLoop { env with GetData := g } fuel i q items s).map loopOutcome
      = (bfsLoop env fuel i q items2 s).map loopOutcome := by
  intro fuel
  induction fuel with
  | zero => intro i q items items2 s _; rfl
  | succ fuel ih =>
    intro i q items items2 s h
    have hstep : ∀ (m : TileMetaData) (r : Request),
        (items ++ [makeItem { env with GetData := g } m r]).map TileItem.noData
          = (items2 ++ [makeItem env m r]).map TileItem.noData := by
      intro m r
      rw [List.map_append, List.map_append, h]
      rfl
    unfold bfsLoop
    cases hqi : q[i]? with
    | none =>
      show Except.ok (loopOutcome (q, items, s)) = Except.ok (loopOutcome (q, items2, s))
      unfold loopOutcome
      rw [h]
    | some m =>
      dsimp only
      split
      · show Except.ok (loopOutcome (q, items, s)) = Except.ok (loopOutcome (q, items2, s))
        unfold loopOutcome
        rw [h]
      · cases hr : m.request with
        | none => rfl
        | some r =>
          dsimp only
          split
          · split
            · rw [getOrCreateChildDataRequests_data]
              cases getOrCreateChildDataRequests env m.tile s with
              | error e => rfl
              | ok v =>
                obtain ⟨lc, ready, s1⟩ := v
                dsimp only
                split
                · exact ih _ _ _ _ _ h
                · exact ih _ _ _ _ _ (hstep m r)
            · exact ih _ _ _ _ _ (hstep m r)
          · exact ih _ _ _ _ _ h

theorem bfsLoop_items (env : Ports) :
    ∀ (fuel i : Nat) (q : List TileMetaData) (items : List TileItem) (s : TileSetLL)
      (q' : List TileMetaData) (items' : List TileItem) (s' : TileSetLL),
    bfsLoop env fuel i q items s = Except.ok (q', items', s') →
    (∀ it ∈ items, ∃ m ∈ q, ∃ r, m.request = some r ∧ env.IsFinished r = true ∧
      it = makeItem env m r) →
    ∀ it ∈ items', ∃ m ∈ q', ∃ r, m.request = some r ∧ env.IsFinished r = true ∧
      it = makeItem env m r := by
  intro fuel
  induction fuel with
  | zero =>
    intro i q items s q' items' s' h
    simp only [bfsLoop] at h
    cases h
  | succ fuel ih =>
    intro i q items s q' items' s' h hinv
    have hstep : ∀ (m : TileMetaData) (r : Request), q[i]? = some m → m.request = some r →
        env.IsFinished r = true →
        ∀ it ∈ items ++ [makeItem env m r], ∃ m ∈ q, ∃ r, m.request = some r ∧
          env.IsFinished r = true ∧ it = makeItem env m r := by
      intro m r hm hr hfin it hit
      rcases List.mem_append.mp hit with hit | hit
      · exact hinv it hit
      · rw [List.mem_singleton] at hit
        exact ⟨m, List.getElem?_mem hm, r, hr, hfin, hit⟩
    unfold bfsLoop at h
    split at h
    · cases h; exact hinv
    · rename_i m hqi
      split at h
      · cases h; exact hinv
      · split at h
        · cases h
        · rename_i r hr
          split at h
          · rename_i hfin
            split at h
            · split at h
              · cases h
              · rename_i lc ready s1 hch
                split at h
                · refine ih _ _ _ _ _ _ _ h ?_
                  intro it hit
                  obtain ⟨m1, hm1, rest⟩ := hinv it hit
                  exact ⟨m1, List.mem_append_left _ hm1, rest⟩
                · exact ih _ _ _ _ _ _ _ h (hstep m r hqi hr hfin)
            · exact ih _ _ _ _ _ _ _ h (hstep m r hqi hr hfin)
          · exact ih _ _ _ _ _ _ _ h hinv

theorem buildTileSetBFS_queue_data (env : Ports) (g : Request → Option Nat) (s : TileSetLL) :
    (buildTileSetBFS_queue { env with GetData := g } s).map loopOutcome
      = (buildTileSetBFS_queue env s).map loopOutcome := by
  unfold buildTileSetBFS_queue
  rw [enqueueRoots_data]
  cases enqueueRoots env s.m_list_root_tiles [] s with
  | error e => rfl
  | ok v =>
    obtain ⟨q0, s1⟩ := v
    dsimp only
    have h := bfsLoop_data env g (s1.m_opts.max_data + 1) 0 q0 [] []
      { s1 with m_lru_view_data := s1.m_lru_view_data.mark_head } rfl
    revert h
    cases bfsLoop { env with GetData := g } (s1.m_opts.max_data + 1) 0 q0 []
      { s1 with m_lru_view_data := s1.m_lru_view_data.mark_head } with
    | error e =>
      cases bfsLoop env (s1.m_opts.max_data + 1) 0 q0 []
        { s1 with m_lru_view_data := s1.m_lru_view_data.mark_head } with
      | error e2 => intro h; exact h
      | ok v2 => intro h; cases h
    | ok v1 =>
      cases bfsLoop env (s1.m_opts.max_data + 1) 0 q0 []
        { s1 with m_lru_view_data := s1.m_lru_view_data.mark_head } with
      | error e2 => intro h; cases h
      | ok v2 =>
        intro h
        have h2 : loopOutcome v1 = loopOutcome v2 := Except.ok.inj h
        obtain ⟨a1, a2, a3⟩ := v1
        obtain ⟨b1, b2, b3⟩ := v2
        simp only [loopOutcome, Prod.mk.injEq] at h2
        obtain ⟨e1, e2, e3⟩ := h2
        subst e1 e3
        show Except.ok (loopOutcome _) = Except.ok (loopOutcome _)
        simp only [loopOutcome, e2]

theorem find?_filter_keep (tree : List (TileLL × TileLinks)) (p : TileLL × TileLinks → Bool)
    (t : TileLL) (hp : ∀ e : TileLL × TileLinks, e.1 = t → p e = true) :
    (tree.filter p).find? (fun e => e.1 == t) = tree.find? (fun e => e.1 == t) := by
  induction tree with
  | nil => rfl
  | cons e es ih =>
    by_cases he : e.1 = t
    · rw [List.filter_cons_of_pos (hp e he)]
      simp [List.find?_cons, he]
    · by_cases hpe : p e = true
      · rw [List.filter_cons_of_pos hpe]
        simp [List.find?_cons, he, ih]
      · rw [List.filter_cons_of_neg hpe]
        simp [List.find?_cons, he, ih]

theorem find?_filter_drop (tree : List (TileLL × TileLinks)) (p : TileLL × TileLinks → Bool)
    (t : TileLL) (hp : ∀ e : TileLL × TileLinks, e.1 = t → p e = false) :
    (tree.filter p).find? (fun e => e.1 == t) = none := by
  rw [List.find?_eq_none]
  intro e he hc
  have h1 := (List.mem_filter.mp he).2
  rw [hp e (by simpa using hc)] at h1
  exact absurd h1 (by decide)

theorem getLinks_releaseBelow (tree : List (TileLL × TileLinks)) (t' t : TileLL) :
    getLinks (releaseBelow tree t') t
      = if ownedBelow t' t then TileLinks.fresh else getLinks tree t := by
  unfold getLinks releaseBelow
  by_cases h : ownedBelow t' t = true
  · rw [if_pos h, find?_filter_drop]
    intro e he
    subst he
    unfold ownedBelow at h
    rw [h]
    rfl
  · rw [if_neg h, find?_filter_keep]
    intro e he
    subst he
    unfold ownedBelow at h
    simp only [Bool.not_eq_true] at h
    rw [h]
    rfl

theorem getLinks_setLinks_ne (tree : List (TileLL × TileLinks)) (t' t : TileLL)
    (l : TileLinks) (hne : t ≠ t') :
    getLinks (setLinks tree t' l) t = getLinks tree t := by
  unfold getLinks setLinks
  have h1 : ((t', l).1 == t) = false := by
    simpa using Ne.symm hne
  rw [List.find?_cons, h1]
  dsimp only
  rw [find?_filter_keep]
  intro e he
  subst he
  simpa using hne

theorem getLinks_createChildren_ne (env : Ports) (t' t : TileLL) (s : TileSetLL)
    (hne : t ≠ t') :
    getLinks (createChildren env t' s).m_tree t = getLinks s.m_tree t ∨
      (ownedBelow t' t = true ∧ getLinks (createChildren env t' s).m_tree t = TileLinks.fresh) := by
  unfold createChildren
  split
  · dsimp only
    rw [getLinks_setLinks_ne _ _ _ _ hne, getLinks_releaseBelow]
    by_cases h : ownedBelow t' t = true
    · rw [if_pos h]; exact Or.inr ⟨h, rfl⟩
    · rw [if_neg h]; exact Or.inl rfl
  · exact Or.inl rfl

theorem getLinks_destroyChildren_ne (t' t : TileLL) (s : TileSetLL) (hne : t ≠ t') :
    getLinks (destroyChildren t' s).m_tree t = getLinks s.m_tree t ∨
      (ownedBelow t' t = true ∧ getLinks (destroyChildren t' s).m_tree t = TileLinks.fresh) := by
  unfold destroyChildren
  split
  · dsimp only
    rw [getLinks_setLinks_ne _ _ _ _ hne, getLinks_releaseBelow]
    by_cases h : ownedBelow t' t = true
    · rw [if_pos h]; exact Or.inr ⟨h, rfl⟩
    · rw [if_neg h]; exact Or.inl rfl
  · exact Or.inl rfl

theorem getLinks_destroyChildren_self (env : Ports) (t : TileLL) (s : TileSetLL)
    (h : TreeOk env s.m_tree) :
    getLinks (destroyChildren t s).m_tree t = TileLinks.fresh := by
  unfold destroyChildren
  split
  · exact getLinks_setLinks _ _ _
  · rename_i hc
    rcases getLinks_ok env _ t h with h1 | h1
    · exact h1
    · rw [h1] at hc
      exact absurd rfl hc

theorem getOrCreateChildDataRequests_tree (env : Ports) (t : TileLL) (s s' : TileSetLL)
    (metas : List TileMetaData) (ready : Bool)
    (h : getOrCreateChildDataRequests env t s = Except.ok (metas, ready, s')) :
    s'.m_tree = (createChildren env t s).m_tree := by
  unfold getOrCreateChildDataRequests at h
  dsimp only at h
  split at h
  · split at h
    · cases h
    · rename_i metas1 ready1 s2 hreq
      obtain ⟨_, _, h3, _⟩ := childRequests_ok env _ _ _ _ _ _ hreq
      split at h
      · cases h
        exact (childVisibility_ok env metas1 s2).2.2.2.2.trans h3
      · cases h
        exact h3
  · cases h

theorem mem_potential (env : Ports) (L i : Nat) (qt : List TileLL) :
    ∀ t ∈ qt, t ∈ potential env L i qt := by
  intro t ht
  unfold potential
  rw [← List.take_append_drop i qt] at ht
  rcases List.mem_append.mp ht with h | h
  · exact List.mem_append_left _ h
  · apply List.mem_append_right
    rw [List.mem_flatMap]
    exact ⟨t, h, (subtree_head env _ t).subset (List.mem_singleton_self t)⟩

theorem head_mem_flatMap_subtree (env : Ports) (L i : Nat) (qt : List TileLL) (t : TileLL)
    (h : qt[i]? = some t) :
    t ∈ (qt.drop i).flatMap (fun t => subtree env (L - t.level) t) := by
  rw [List.mem_flatMap]
  obtain ⟨hi, rfl⟩ := List.getElem?_eq_some.mp h
  refine ⟨qt[i], ?_, (subtree_head env _ _).subset (List.mem_singleton_self _)⟩
  rw [List.drop_eq_getElem_cons hi]
  exact List.mem_cons_self _ _

theorem ne_of_mem_take (env : Ports) (L i : Nat) (qt : List TileLL) (t u : TileLL)
    (hn : (potential env L i qt).Nodup) (h : qt[i]? = some t) (hu : u ∈ qt.take i) :
    u ≠ t := by
  intro heq
  subst heq
  unfold potential at hn
  exact (List.nodup_append.mp hn).2.2 hu (head_mem_flatMap_subtree env L i qt u h)

theorem bfsLoop_extends (env : Ports) : ∀ (fuel i : Nat) (q : List TileMetaData)
    (items : List TileItem) (s : TileSetLL) (q' : List TileMetaData)
    (items' : List TileItem) (s' : TileSetLL),
    bfsLoop env fuel i q items s = Except.ok (q', items', s') →
    q <+: q' ∧ items <+: items' := by
  intro fuel
  induction fuel with
  | zero =>
    intro i q items s q' items' s' h
    simp only [bfsLoop] at h
    cases h
  | succ fuel ih =>
    intro i q items s q' items' s' h
    unfold bfsLoop at h
    split at h
    · cases h; exact ⟨List.prefix_refl _, List.prefix_refl _⟩
    · split at h
      · cases h; exact ⟨List.prefix_refl _, List.prefix_refl _⟩
      · split at h
        · cases h
        · split at h
          · split at h
            · split at h
              · cases h
              · split at h
                · obtain ⟨a, b⟩ := ih _ _ _ _ _ _ _ h
                  exact ⟨(List.prefix_append _ _).trans a, b⟩
                · obtain ⟨a, b⟩ := ih _ _ _ _ _ _ _ h
                  exact ⟨a, (List.prefix_append _ _).trans b⟩
            · obtain ⟨a, b⟩ := ih _ _ _ _ _ _ _ h
              exact ⟨a, (List.prefix_append _ _).trans b⟩
          · exact ih _ _ _ _ _ _ _ h

theorem bfsLoop_later (env : Ports) : ∀ (fuel i : Nat) (q : List TileMetaData)
    (items : List TileItem) (s : TileSetLL) (q' : List TileMetaData)
    (items' : List TileItem) (s' : TileSetLL),
    TreeOk env s.m_tree →
    (potential env s.m_opts.max_level i (q.map TileMetaData.tile)).Nodup →
    bfsLoop env fuel i q items s = Except.ok (q', items', s') →
    (∀ t ∈ (q.map TileMetaData.tile).take i, getLinks s.m_tree t = TileLinks.fresh →
      getLinks s'.m_tree t = TileLinks.fresh) ∧
    (∀ c ∈ q'.map TileMetaData.tile,
      c ∈ potential env s.m_opts.max_level i (q.map TileMetaData.tile)) ∧
    (∀ it ∈ items', it ∈ items ∨ it.tile ∈ q'.map TileMetaData.tile) := by
  intro fuel
  induction fuel with
  | zero =>
    intro i q items s q' items' s' _ _ h
    simp only [bfsLoop] at h
    cases h
  | succ fuel ih =>
    intro i q items s q' items' s' htree hnd h
    have hbase : (∀ t ∈ (q.map TileMetaData.tile).take i, getLinks s.m_tree t = TileLinks.fresh →
          getLinks s.m_tree t = TileLinks.fresh) ∧
        (∀ c ∈ q.map TileMetaData.tile,
          c ∈ potential env s.m_opts.max_level i (q.map TileMetaData.tile)) ∧
        (∀ it ∈ items, it ∈ items ∨ it.tile ∈ q.map TileMetaData.tile) :=
      ⟨fun _ _ h => h, mem_potential env _ _ _, fun _ h => Or.inl h⟩
    unfold bfsLoop at h
    cases hq : q[i]? with
    | none =>
      rw [hq] at h
      cases h
      exact hbase
    | some m =>
      rw [hq] at h
      dsimp only at h
      have hqt : (q.map TileMetaData.tile)[i]? = some m.tile := by
        rw [List.getElem?_map, hq]; rfl
      have hstep := potential_step env s.m_opts.max_level i _ _ hqt
      have htake : (q.map TileMetaData.tile).take (i + 1)
          = (q.map TileMetaData.tile).take i ++ [m.tile] := by
        rw [List.take_succ, hqt]; rfl
      have hmq : m.tile ∈ q.map TileMetaData.tile := List.getElem?_mem hqt
      split at h
      · cases h
        exact hbase
      · cases hr : m.request with
        | none => rw [hr] at h; cases h
        | some r =>
          rw [hr] at h
          dsimp only at h
          have hsave : ∀ (s1 : TileSetLL), frame s1 = frame s → TreeOk env s1.m_tree →
              (∀ t, t ≠ m.tile → getLinks s.m_tree t = TileLinks.fresh →
                getLinks s1.m_tree t = TileLinks.fresh) →
              getLinks s1.m_tree m.tile = TileLinks.fresh →
              bfsLoop env fuel (i + 1) q (items ++ [makeItem env m r]) s1
                = Except.ok (q', items', s') →
              (∀ t ∈ (q.map TileMetaData.tile).take i, getLinks s.m_tree t = TileLinks.fresh →
                getLinks s'.m_tree t = TileLinks.fresh) ∧
              (∀ c ∈ q'.map TileMetaData.tile,
                c ∈ potential env s.m_opts.max_level i (q.map TileMetaData.tile)) ∧
              (∀ it ∈ items', it ∈ items ∨ it.tile ∈ q'.map TileMetaData.tile) := by
            intro s1 hf1 ht1 hkeep _ h1
            have hnd1 : (potential env s1.m_opts.max_level (i + 1)
                (q.map TileMetaData.tile)).Nodup := by
              rw [frame_opts _ _ hf1]
              exact hnd.sublist hstep
            obtain ⟨g1, g2, g3⟩ := ih _ _ _ _ _ _ _ ht1 hnd1 h1
            rw [frame_opts _ _ hf1] at g2
            refine ⟨?_, fun c hc => hstep.subset (g2 c hc), ?_⟩
            · intro t ht hfresh
              apply g1 t (by rw [htake]; exact List.mem_append_left _ ht)
              exact hkeep t (ne_of_mem_take env _ i _ _ t hnd hqt ht) hfresh
            · intro it hit
              rcases g3 it hit with hit | hit
              · rcases List.mem_append.mp hit with hit | hit
                · exact Or.inl hit
                · rw [List.mem_singleton.mp hit]
                  right
                  have hpre := (bfsLoop_extends env _ _ _ _ _ _ _ _ h1).1
                  exact (hpre.map TileMetaData.tile).subset hmq
              · exact Or.inr hit
          split at h
          · split at h
            · rename_i hcond
              split at h
              · cases h
              · rename_i list_children ready s1 hch
                obtain ⟨c1, c2, c3, _, _⟩ :=
                  getOrCreateChildDataRequests_ok env m.tile s s1 list_children ready htree hch
                have htr := getOrCreateChildDataRequests_tree env _ _ _ _ _ hch
                have hkeep1 : ∀ t, t ≠ m.tile → getLinks s.m_tree t = TileLinks.fresh →
                    getLinks s1.m_tree t = TileLinks.fresh := by
                  intro t hne hfresh
                  rw [htr]
                  rcases getLinks_createChildren_ne env m.tile t s hne with h1 | h1
                  · rw [h1]; exact hfresh
                  · exact h1.2
                split at h
                · have hperm := potential_refine env s.m_opts.max_level i _ _ hqt hcond.2.1
                  have hnd1 : (potential env s1.m_opts.max_level (i + 1)
                      ((q ++ list_children).map TileMetaData.tile)).Nodup := by
                    rw [frame_opts _ _ c2, List.map_append, c1]
                    exact hperm.nodup_iff.mpr hnd
                  obtain ⟨g1, g2, g3⟩ := ih _ _ _ _ _ _ _ c3 hnd1 h
                  rw [frame_opts _ _ c2, List.map_append, c1] at g2
                  refine ⟨?_, fun c hc => hperm.subset (g2 c hc), g3⟩
                  intro t ht hfresh
                  apply g1 t
                  · rw [List.map_append]
                    exact (take_sublist_take_succ_append _ _ _).subset ht
                  · exact hkeep1 t (ne_of_mem_take env _ i _ _ t hnd hqt ht) hfresh
                · refine hsave _ ((destroyChildren_frame _ _).trans c2)
                    (destroyChildren_treeOk env _ _ c3) ?_
                    (getLinks_destroyChildren_self env _ _ c3) h
                  intro t hne hfresh
                  rcases getLinks_destroyChildren_ne m.tile t s1 hne with h1 | h1
                  · rw [h1]; exact hkeep1 t hne hfresh
                  · exact h1.2
            · refine hsave _ (destroyChildren_frame _ _) (destroyChildren_treeOk env _ _ htree) ?_
                (getLinks_destroyChildren_self env _ _ htree) h
              intro t hne hfresh
              rcases getLinks_destroyChildren_ne m.tile t s hne with h1 | h1
              · rw [h1]; exact hfresh
              · exact h1.2
          · obtain ⟨g1, g2, g3⟩ := ih _ _ _ _ _ _ _ htree (hnd.sublist hstep) h
            refine ⟨?_, fun c hc => hstep.subset (g2 c hc), g3⟩
            intro t ht hfresh
            exact g1 t (by rw [htake]; exact List.mem_append_left _ ht) hfresh

theorem bfsLoop_step_save (env : Ports) (fuel i : Nat) (q : List TileMetaData)
    (items : List TileItem) (s : TileSetLL) (m : TileMetaData) (r : Request)
    (hm : q[i]? = some m) (hfull : q.length ≠ s.m_opts.max_data)
    (hr : m.request = some r) (hfin : env.IsFinished r = true)
    (hleaf : ¬ (m.exceeds_err = true ∧ m.tile.level < s.m_opts.max_level ∧
      q.length + 4 ≤ s.m_opts.max_data)) :
    bfsLoop env (fuel + 1) i q items s
      = bfsLoop env fuel (i + 1) q (items ++ [makeItem env m r]) (destroyChildren m.tile s) := by
  conv_lhs => unfold bfsLoop
  rw [hm]
  dsimp only
  rw [if_neg hfull, hr]
  dsimp only
  rw [if_pos hfin, if_neg hleaf]

theorem bfsLoop_step_children (env : Ports) (fuel i : Nat) (q : List TileMetaData)
    (items : List TileItem) (s : TileSetLL) (m : TileMetaData) (r : Request)
    (metas : List TileMetaData) (ready : Bool) (s1 : TileSetLL)
    (hm : q[i]? = some m) (hfull : q.length ≠ s.m_opts.max_data)
    (hr : m.request = some r) (hfin : env.IsFinished r = true)
    (hcond : m.exceeds_err = true ∧ m.tile.level < s.m_opts.max_level ∧
      q.length + 4 ≤ s.m_opts.max_data)
    (hch : getOrCreateChildDataRequests env m.tile s = Except.ok (metas, ready, s1)) :
    bfsLoop env (fuel + 1) i q items s
      = if ready then bfsLoop env fuel (i + 1) (q ++ metas) items s1
        else bfsLoop env fuel (i + 1) q (items ++ [makeItem env m r])
          (destroyChildren m.tile s1) := by
  conv_lhs => unfold bfsLoop
  rw [hm]
  dsimp only
  rw [if_neg hfull, hr]
  dsimp only
  rw [if_pos hfin, if_pos hcond, hch]

theorem bfsLoop_step_done (env : Ports) (fuel i : Nat) (q : List TileMetaData)
    (items : List TileItem) (s : TileSetLL) (hm : q[i]? = none) :
    bfsLoop env (fuel + 1) i q items s = Except.ok (q, items, s) := by
  conv_lhs => unfold bfsLoop
  rw [hm]

theorem childRequests_requests (env : Ports) : ∀ (cs : List TileLL) (ready : Bool)
    (s : TileSetLL) (metas : List TileMetaData) (ready' : Bool) (s' : TileSetLL),
    childRequests env cs ready s = Except.ok (metas, ready', s') →
    (∀ m ∈ metas, ∃ r, m.request = some r) ∧
    (ready' = true ↔ (ready = true ∧
      ∀ m ∈ metas, ∀ r, m.request = some r → env.IsFinished r = true)) := by
  intro cs
  induction cs with
  | nil =>
    intro ready s metas ready' s' h
    simp only [childRequests] at h
    cases h
    simp
  | cons c cs ih =>
    intro ready s metas ready' s' h
    simp only [childRequests] at h
    split at h
    · cases h
    · cases h
    · rename_i r s1 hreq
      split at h
      · cases h
      · rename_i metas2 ready2 s2 hrest
        cases h
        obtain ⟨a1, a2⟩ := ih _ _ _ _ _ hrest
        refine ⟨?_, ?_⟩
        · intro m hm
          rcases List.mem_cons.mp hm with hm | hm
          · exact ⟨r, by rw [hm]⟩
          · exact a1 m hm
        · rw [a2]
          simp only [Bool.and_eq_true, List.mem_cons, forall_eq_or_imp, Option.some.injEq,
            forall_eq']
          tauto

theorem getOrCreateChildDataRequests_requests (env : Ports) (t : TileLL) (s s' : TileSetLL)
    (metas : List TileMetaData) (ready : Bool)
    (h : getOrCreateChildDataRequests env t s = Except.ok (metas, ready, s')) :
    (∀ m ∈ metas, ∃ r, m.request = some r) ∧
    (ready = true ↔ ∀ m ∈ metas, ∀ r, m.request = some r → env.IsFinished r = true) := by
  unfold getOrCreateChildDataRequests at h
  dsimp only at h
  split at h
  · split at h
    · cases h
    · rename_i metas1 ready1 s2 hreq
      obtain ⟨a1, a2⟩ := childRequests_requests env _ _ _ _ _ _ hreq
      simp only [true_and] at a2
      split at h
      · rename_i hrd
        cases h
        have hmap := (childVisibility_ok env metas1 s2).2.2.1
        have hall : ∀ m ∈ (childVisibility env metas1 s2).1, m.request ∈
            metas1.map TileMetaData.request := by
          intro m hm
          rw [← hmap]
          exact List.mem_map_of_mem _ hm
        refine ⟨?_, ?_⟩
        · intro m hm
          obtain ⟨m1, hm1, he⟩ := List.mem_map.mp (hall m hm)
          obtain ⟨r, hr⟩ := a1 m1 hm1
          exact ⟨r, by rw [← he, hr]⟩
        · refine ⟨fun _ => ?_, fun _ => rfl⟩
          intro m hm r hr
          obtain ⟨m1, hm1, he⟩ := List.mem_map.mp (hall m hm)
          exact (a2.mp hrd) m1 hm1 r (by rw [he, hr])
      · rename_i hrd
        cases h
        refine ⟨a1, ?_⟩
        rw [← a2]
        simp only [Bool.not_eq_true] at hrd
        rw [hrd]
  · cases h

theorem child_not_mem_potential_succ (env : Ports) (L i : Nat) (qt : List TileLL)
    (t c : TileLL) (hn : (potential env L i qt).Nodup) (h : qt[i]? = some t)
    (hl : t.level < L) (hc : c ∈ newChildren env t) :
    c ∉ potential env L (i + 1) qt := by
  obtain ⟨hi, rfl⟩ := List.getElem?_eq_some.mp h
  have hS : subtree env (L - qt[i].level) qt[i]
      = qt[i] :: (newChildren env qt[i]).flatMap (subtree env (L - qt[i].level - 1)) := by
    have : L - qt[i].level = (L - qt[i].level - 1) + 1 := by omega
    rw [this]
    simp only [subtree]
    rfl
  have hcK : c ∈ (newChildren env qt[i]).flatMap (subtree env (L - qt[i].level - 1)) := by
    rw [List.mem_flatMap]
    exact ⟨c, hc, (subtree_head env _ c).subset (List.mem_singleton_self c)⟩
  unfold potential at hn ⊢
  rw [List.drop_eq_getElem_cons hi, List.flatMap_cons, hS] at hn
  rw [List.take_succ, h]
  simp only [Option.toList, List.append_assoc, List.singleton_append]
  obtain ⟨_, n2, d1⟩ := List.nodup_append.mp hn
  obtain ⟨n3, _, d2⟩ := List.nodup_append.mp n2
  intro hmem
  rcases List.mem_append.mp hmem with h1 | h1
  · exact d1 h1 (List.mem_append_left _ (List.mem_cons_of_mem _ hcK))
  · rcases List.mem_cons.mp h1 with h2 | h2
    · subst h2
      exact (List.nodup_cons.mp n3).1 hcK
    · exact d2 (List.mem_cons_of_mem _ hcK) h2

theorem insert_room_sublist (c : LRUCache) (id : TileLL.Id) (r : Request) (touch : Bool) :
    ∃ room, (c.insert id r touch).entries
        = { key := id, value := r, before_mark := false } :: room ∧
      List.Sublist room c.entries := by
  unfold LRUCache.insert
  dsimp only
  refine ⟨_, rfl, ?_⟩
  split
  · exact ((evictOld_sublist _ _).reverse.trans (by rw [List.reverse_reverse])).trans
      (List.filter_sublist _)
  · exact List.filter_sublist _

theorem getOrCreateDataRequest_obtained (tile : TileLL) (s s' : TileSetLL) (r : Request)
    (h : getOrCreateDataRequest tile s = Except.ok (some r, s')) :
    RequestObtained tile s r s' := by
  cases hflag : s.m_list_level_is_preloaded[tile.level]? with
  | none =>
    rw [getOrCreateDataRequest_no_flag tile s hflag] at h
    cases h
  | some flag =>
    by_cases hne : flag = 0
    · subst hne
      cases hfind : s.m_lru_view_data.entries.find? (fun e => e.key == tile.id) with
      | none =>
        rw [getOrCreateDataRequest_absent tile s hflag hfind] at h
        cases h
        exact Or.inr (Or.inr ⟨hflag, hfind, rfl, rfl, insert_room_sublist _ _ _ false, rfl⟩)
      | some e =>
        rw [getOrCreateDataRequest_cached tile s e hflag hfind] at h
        cases h
        exact Or.inr (Or.inl ⟨hflag, ⟨e, hfind, rfl, rfl⟩, rfl, rfl⟩)
    · cases hl : s.m_lkup_preloaded_data.lookup tile.id with
      | none =>
        rw [getOrCreateDataRequest_preloaded_absent tile s flag hflag hne hl] at h
        cases h
      | some r0 =>
        rw [getOrCreateDataRequest_preloaded tile s flag r0 hflag hne hl] at h
        cases h
        exact Or.inl ⟨flag, hflag, hne, hl, rfl⟩

theorem childRequests_obtained (env : Ports) : ∀ (cs : List TileLL) (ready : Bool)
    (s : TileSetLL) (metas : List TileMetaData) (ready' : Bool) (s' : TileSetLL),
    childRequests env cs ready s = Except.ok (metas, ready', s') →
    ∃ rs, metas.map TileMetaData.request = rs.map some ∧ RequestsObtained cs s rs s' := by
  intro cs
  induction cs with
  | nil =>
    intro ready s metas ready' s' h
    simp only [childRequests] at h
    cases h
    exact ⟨[], rfl, rfl, rfl⟩
  | cons c cs ih =>
    intro ready s metas ready' s' h
    simp only [childRequests] at h
    split at h
    · cases h
    · cases h
    · rename_i r s1 hreq
      split at h
      · cases h
      · rename_i metas2 ready2 s2 hrest
        cases h
        obtain ⟨rs, h1, h2⟩ := ih _ _ _ _ _ hrest
        refine ⟨r :: rs, ?_, s1, getOrCreateDataRequest_obtained c s s1 r hreq, h2⟩
        simp only [List.map_cons, h1]

theorem getOrCreateChildDataRequests_obtained (env : Ports) (t : TileLL) (s s' : TileSetLL)
    (metas : List TileMetaData) (htree : TreeOk env s.m_tree)
    (h : getOrCreateChildDataRequests env t s = Except.ok (metas, false, s')) :
    ∃ rs, metas.map TileMetaData.request = rs.map some ∧
      RequestsObtained (newChildren env t) (createChildren env t s) rs s' := by
  unfold getOrCreateChildDataRequests at h
  dsimp only at h
  rw [createChildren_links env t s htree] at h
  simp only [splitLinks] at h
  split at h
  · cases h
  · rename_i metas1 ready1 s2 hreq
    split at h
    · cases h
    · cases h
      exact childRequests_obtained env _ _ _ _ _ _ hreq

theorem ctor_startGrid21Cap2 :
    TileSetLL.TileSetLL portsLeaf srcGrid21
      { min_level := 0, max_level := 2, max_data := 2, cache_size_hint := 16,
        list_preload_levels := [], upsample_hint := false } 16
      = Except.ok startGrid21Cap2 := by
  decide

theorem sortTileItems_pair (a b : TileItem) :
    sortTileItems [a, b] = if a.id ≤ b.id then [a, b] else [b, a] := by
  simp [sortTileItems, List.insertionSort, List.orderedInsert, TileItem.le]

theorem bfsLoop_levels (env : Ports) : ∀ (fuel i : Nat) (q : List TileMetaData)
    (items : List TileItem) (s : TileSetLL) (q' : List TileMetaData)
    (items' : List TileItem) (s' : TileSetLL),
    TreeOk env s.m_tree →
    (∀ m ∈ q, m.tile.level ≤ s.m_opts.max_level) →
    bfsLoop env fuel i q items s = Except.ok (q', items', s') →
    ∀ m ∈ q', m.tile.level ≤ s.m_opts.max_level := by
  intro fuel
  induction fuel with
  | zero =>
    intro i q items s q' items' s' _ _ h
    simp only [bfsLoop] at h
    cases h
  | succ fuel ih =>
    intro i q items s q' items' s' htree hlv h
    unfold bfsLoop at h
    split at h
    · cases h; exact hlv
    · rename_i m hqi
      split at h
      · cases h; exact hlv
      · split at h
        · cases h
        · split at h
          · split at h
            · rename_i hcond
              split at h
              · cases h
              · rename_i lc ready s1 hch
                obtain ⟨c1, c2, c3, _, _⟩ :=
                  getOrCreateChildDataRequests_ok env m.tile s s1 lc ready htree hch
                split at h
                · have := ih _ _ _ _ _ _ _ c3 (by
                    intro m' hm'
                    rw [frame_opts _ _ c2]
                    rcases List.mem_append.mp hm' with h1 | h1
                    · exact hlv m' h1
                    · have hmem : m'.tile ∈ newChildren env m.tile := by
                        rw [← c1]
                        exact List.mem_map_of_mem _ h1
                      rw [newChildren_level env _ _ hmem]
                      exact hcond.2.1) h
                  rw [frame_opts _ _ c2] at this
                  exact this
                · have hfd : frame (destroyChildren m.tile s1) = frame s :=
                    (destroyChildren_frame _ _).trans c2
                  have := ih _ _ _ _ _ _ _ (destroyChildren_treeOk env _ _ c3)
                    (by rw [frame_opts _ _ hfd]; exact hlv) h
                  rw [frame_opts _ _ hfd] at this
                  exact this
            · have hfd : frame (destroyChildren m.tile s) = frame s := destroyChildren_frame _ _
              have := ih _ _ _ _ _ _ _ (destroyChildren_treeOk env _ _ htree)
                (by rw [frame_opts _ _ hfd]; exact hlv) h
              rw [frame_opts _ _ hfd] at this
              exact this
          · exact ih _ _ _ _ _ _ _ htree hlv h

theorem buildTileSetBFS_queue_items (env : Ports) (s s' : TileSetLL)
    (q : List TileMetaData) (items : List TileItem)
    (h : buildTileSetBFS_queue env s = Except.ok (q, items, s')) :
    ∀ it ∈ items, ∃ m ∈ q, ∃ r, m.request = some r ∧ env.IsFinished r = true ∧
      it = makeItem env m r := by
  unfold buildTileSetBFS_queue at h
  split at h
  · cases h
  · dsimp only at h
    split at h
    · cases h
    · rename_i q1 items1 s3 hloop
      cases h
      exact bfsLoop_items env _ _ _ _ _ _ _ _ hloop (fun it hit => absurd hit (List.not_mem_nil it))

theorem buildTileSetBFS_queue_levels (env : Ports) (s : TileSetLL)
    (htree : TreeOk env s.m_tree)
    (hroots : ∀ t ∈ s.m_list_root_tiles, t.level = 0) :
    buildTileSetBFS_queue env s ≠ Except.error Fault.fuel ∧
    ∀ (q : List TileMetaData) (items : List TileItem) (s' : TileSetLL),
      buildTileSetBFS_queue env s = Except.ok (q, items, s') →
      (∀ m ∈ q, m.tile.level ≤ s.m_opts.max_level) ∧
      (∀ it ∈ items, it.tile.level ≤ s.m_opts.max_level) ∧
      buildTileSetBFS env s = Except.ok (items, s') := by
  refine ⟨buildTileSetBFS_queue_fuel env s htree, ?_⟩
  intro q items s' h
  have hb : buildTileSetBFS env s = Except.ok (items, s') := by
    unfold buildTileSetBFS
    rw [h]
  have hq : ∀ m ∈ q, m.tile.level ≤ s.m_opts.max_level := by
    unfold buildTileSetBFS_queue at h
    split at h
    · cases h
    · rename_i q0 s1 hq0
      obtain ⟨r1, r2, r3⟩ := enqueueRoots_ok env _ _ _ _ _ hq0 (Nat.zero_le _)
      simp only [List.map_nil, List.nil_append, List.length_nil, Nat.sub_zero] at r3
      dsimp only at h
      split at h
      · cases h
      · rename_i q1 items1 s3 hloop
        cases h
        have ht2 : TreeOk env s1.m_tree := by rw [r2]; exact htree
        have hq0t : q0.map TileMetaData.tile = s.m_list_root_tiles.take s.m_opts.max_data := by
          rw [map_tile_of_proj, r3, map_fst_refEntry]
        have := bfsLoop_levels env _ _ _ _
          { s1 with m_lru_view_data := s1.m_lru_view_data.mark_head } _ _ _ ht2 (by
            intro m hm
            have hmem : m.tile ∈ q0.map TileMetaData.tile := List.mem_map_of_mem _ hm
            rw [hq0t] at hmem
            rw [hroots _ (List.mem_of_mem_take hmem)]
            exact Nat.zero_le _) hloop
        intro m hm
        have h2 := this m hm
        have hopts : s1.m_opts = s.m_opts := frame_opts _ _ r1
        simp only [hopts] at h2
        exact h2
  refine ⟨hq, ?_, hb⟩
  intro it hit
  obtain ⟨m, hm, r, _, _, he⟩ := buildTileSetBFS_queue_items env s s' q items h it hit
  rw [he]
  exact hq m hm

theorem TreeOk_of_GetId (env1 env2 : Ports) (tree : List (TileLL × TileLinks))
    (hid : env1.GetIdFromLevelXY = env2.GetIdFromLevelXY) (h : TreeOk env1 tree) :
    TreeOk env2 tree := by
  intro e he
  rcases h e he with h1 | h1
  · exact Or.inl h1
  · right
    rw [h1]
    unfold splitLinks TileLL.child
    rw [hid]

theorem runCall_treeOk (env : Ports) (c : TreeCall) (s s' : TileSetLL)
    (htree : TreeOk env s.m_tree) (h : runCall env.GetIdFromLevelXY c s = Except.ok s') :
    TreeOk env s'.m_tree := by
  cases c with
  | createChildren tile =>
    simp only [runCall] at h
    cases h
    exact TreeOk_of_GetId (idPorts env.GetIdFromLevelXY) env _ rfl
      (createChildren_treeOk _ tile s (TreeOk_of_GetId env _ _ rfl htree))
  | destroyChildren tile =>
    simp only [runCall] at h
    cases h
    exact destroyChildren_treeOk env tile s htree
  | buildTileSetBFS v f d =>
    simp only [runCall] at h
    split at h
    · cases h
    · rename_i items s1 hb
      cases h
      have h2 := fun ht => (buildTileSetBFS_ok _ s _ items ht hb).2.1
      exact TreeOk_of_GetId _ env _ rfl (h2 (TreeOk_of_GetId env _ _ rfl htree))

theorem runCalls_treeOk (env : Ports) : ∀ (calls : List TreeCall) (s s' : TileSetLL),
    TreeOk env s.m_tree → runCalls env.GetIdFromLevelXY calls s = Except.ok s' →
    TreeOk env s'.m_tree := by
  intro calls
  induction calls with
  | nil =>
    intro s s' htree h
    simp only [runCalls] at h
    cases h
    exact htree
  | cons c rest ih =>
    intro s s' htree h
    simp only [runCalls] at h
    split at h
    · cases h
    · rename_i s1 hc
      exact ih s1 s' (runCall_treeOk env c s s1 htree hc) h

theorem splitAtomic_of_treeOk (env : Ports) (tree : List (TileLL × TileLinks))
    (h : TreeOk env tree) (t : TileLL) : SplitAtomic (getLinks tree t) := by
  rcases getLinks_ok env tree t h with h1 | h1
  · rw [h1]
    exact Or.inl ⟨rfl, rfl, rfl, rfl, rfl⟩
  · rw [h1]
    refine Or.inr ⟨rfl, ?_, ?_, ?_, ?_⟩ <;> simp [splitLinks]

theorem childRequests_vis (env : Ports) (vis : TileLL → Bool) :
    ∀ (cs : List TileLL) (ready : Bool) (s : TileSetLL),
    childRequests (withVisible env vis) cs ready s = childRequests env cs ready s := by
  intro cs
  induction cs with
  | nil => intro ready s; rfl
  | cons c cs ih =>
    intro ready s
    unfold childRequests
    cases getOrCreateDataRequest c s with
    | error e => rfl
    | ok v =>
      obtain ⟨r, s1⟩ := v
      cases r with
      | none => rfl
      | some r =>
        dsimp only
        rw [ih]
        rfl

theorem childVisibility_vis (env : Ports) (vis : TileLL → Bool) :
    ∀ (ms : List TileMetaData) (s : TileSetLL),
    (childVisibility (withVisible env vis) ms s).1.map TileMetaData.blind
      = (childVisibility env ms s).1.map TileMetaData.blind ∧
    (childVisibility (withVisible env vis) ms s).2 = (childVisibility env ms s).2 := by
  intro ms
  induction ms with
  | nil => intro s; exact ⟨rfl, rfl⟩
  | cons m ms ih =>
    intro s
    unfold childVisibility
    dsimp only
    have hs : (GetVisibility (withVisible env vis) m.tile s).2 = (GetVisibility env m.tile s).2 :=
      rfl
    rw [hs]
    obtain ⟨a, b⟩ := ih (GetVisibility env m.tile s).2
    refine ⟨?_, b⟩
    rw [List.map_cons, List.map_cons, a]
    rfl

theorem getOrCreateChildDataRequests_vis (env : Ports) (vis : TileLL → Bool)
    (t : TileLL) (s : TileSetLL) :
    (∀ e, getOrCreateChildDataRequests env t s = Except.error e →
      getOrCreateChildDataRequests (withVisible env vis) t s = Except.error e) ∧
    (∀ metas ready s1, getOrCreateChildDataRequests env t s = Except.ok (metas, ready, s1) →
      ∃ metas', getOrCreateChildDataRequests (withVisible env vis) t s
          = Except.ok (metas', ready, s1) ∧
        metas'.map TileMetaData.blind = metas.map TileMetaData.blind) := by
  have hc : createChildren (withVisible env vis) t s = createChildren env t s := rfl
  unfold getOrCreateChildDataRequests
  rw [hc]
  dsimp only
  split
  · rw [childRequests_vis]
    cases childRequests env _ true (createChildren env t s) with
    | error e =>
      refine ⟨fun e h => h, fun metas ready s1 h => ?_⟩
      cases h
    | ok v =>
      obtain ⟨metas0, ready0, s2⟩ := v
      dsimp only
      obtain ⟨a, b⟩ := childVisibility_vis env vis metas0 s2
      split
      · refine ⟨fun e h => (by cases h), fun metas ready s1 h => ?_⟩
        cases h
        refine ⟨_, ?_, a⟩
        rw [b]
      · refine ⟨fun e h => (by cases h), fun metas ready s1 h => ?_⟩
        cases h
        exact ⟨_, rfl, rfl⟩
  · exact ⟨fun e h => h, fun metas ready s1 h => by cases h⟩

theorem blind_eq (m1 m2 : TileMetaData) (h : m1.blind = m2.blind) :
    m1.tile = m2.tile ∧ m1.exceeds_err = m2.exceeds_err ∧ m1.request = m2.request := by
  obtain ⟨t1, v1, e1, r1⟩ := m1
  obtain ⟨t2, v2, e2, r2⟩ := m2
  simp only [TileMetaData.blind, TileMetaData.mk.injEq] at h
  exact ⟨h.1, h.2.2.1, h.2.2.2⟩

theorem getElem?_of_map_blind (q1 q2 : List TileMetaData) (i : Nat)
    (h : q1.map TileMetaData.blind = q2.map TileMetaData.blind) :
    q1[i]?.map TileMetaData.blind = q2[i]?.map TileMetaData.blind := by
  rw [← List.getElem?_map, ← List.getElem?_map, h]

theorem bfsLoop_vis (env : Ports) (vis : TileLL → Bool) :
    ∀ (fuel i : Nat) (q1 q2 : List TileMetaData) (items : List TileItem) (s : TileSetLL),
    q1.map TileMetaData.blind = q2.map TileMetaData.blind →
    (bfsLoop (withVisible env vis) fuel i q1 items s).map blindOutcome
      = (bfsLoop env fuel i q2 items s).map blindOutcome := by
  intro fuel
  induction fuel with
  | zero => intro i q1 q2 items s _; rfl
  | succ fuel ih =>
    intro i q1 q2 items s h
    have hlen : q1.length = q2.length := by
      have := congrArg List.length h
      simpa using this
    have hi := getElem?_of_map_blind q1 q2 i h
    have hdone : (Except.ok (q1, items, s) : Except Fault _).map blindOutcome
        = (Except.ok (q2, items, s) : Except Fault _).map blindOutcome := by
      show Except.ok (blindOutcome (q1, items, s)) = Except.ok (blindOutcome (q2, items, s))
      unfold blindOutcome
      rw [h]
    cases h2 : q2[i]? with
    | none =>
      rw [h2] at hi
      have h1 : q1[i]? = none := by
        cases h1 : q1[i]? with
        | none => rfl
        | some m => rw [h1] at hi; cases hi
      rw [bfsLoop_step_done _ _ _ _ _ _ h1, bfsLoop_step_done _ _ _ _ _ _ h2]
      exact hdone
    | some m2 =>
      rw [h2] at hi
      obtain ⟨m1, h1, hb⟩ : ∃ m1, q1[i]? = some m1 ∧ m1.blind = m2.blind := by
        cases h1 : q1[i]? with
        | none => rw [h1] at hi; cases hi
        | some m => rw [h1] at hi; exact ⟨m, rfl, Option.some.inj hi⟩
      obtain ⟨ht, he, hr⟩ := blind_eq m1 m2 hb
      have hmk : ∀ r, makeItem (withVisible env vis) m1 r = makeItem env m2 r := by
        intro r
        unfold makeItem
        rw [ht]
        rfl
      unfold bfsLoop
      rw [h1, h2]
      dsimp only
      rw [hlen]
      split
      · exact hdone
      · rw [hr, he, ht]
        cases m2.request with
        | none => rfl
        | some r =>
          dsimp only
          have hfin : (withVisible env vis).IsFinished r = env.IsFinished r := rfl
          rw [hfin]
          split
          · split
            · obtain ⟨c1, c2⟩ := getOrCreateChildDataRequests_vis env vis m2.tile s
              cases hch : getOrCreateChildDataRequests env m2.tile s with
              | error e =>
                rw [c1 e hch]
              | ok v =>
                obtain ⟨metas, ready, s1⟩ := v
                obtain ⟨metas', d1, d2⟩ := c2 metas ready s1 hch
                rw [d1]
                dsimp only
                split
                · apply ih
                  rw [List.map_append, List.map_append, h, d2]
                · rw [hmk]
                  exact ih _ _ _ _ _ h
            · rw [hmk]
              exact ih _ _ _ _ _ h
          · exact ih _ _ _ _ _ h

theorem enqueueRoots_vis (env : Ports) (vis : TileLL → Bool) :
    ∀ (roots : List TileLL) (q1 q2 : List TileMetaData) (s : TileSetLL),
    q1.map TileMetaData.blind = q2.map TileMetaData.blind →
    (∀ e, enqueueRoots env roots q2 s = Except.error e →
      enqueueRoots (withVisible env vis) roots q1 s = Except.error e) ∧
    (∀ q2' s', enqueueRoots env roots q2 s = Except.ok (q2', s') →
      ∃ q1', enqueueRoots (withVisible env vis) roots q1 s = Except.ok (q1', s') ∧
        q1'.map TileMetaData.blind = q2'.map TileMetaData.blind) := by
  intro roots
  induction roots with
  | nil =>
    intro q1 q2 s h
    refine ⟨fun e he => ?_, fun q2' s' he => ?_⟩
    · simp only [enqueueRoots] at he
      cases he
    · simp only [enqueueRoots] at he
      cases he
      exact ⟨q1, rfl, h⟩
  | cons t roots ih =>
    intro q1 q2 s h
    have hlen : q1.length = q2.length := by
      have := congrArg List.length h
      simpa using this
    have hs : (GetVisibility (withVisible env vis) t s).2 = (GetVisibility env t s).2 := rfl
    unfold enqueueRoots
    rw [hlen]
    split
    · refine ⟨fun e he => (by cases he), fun q2' s' he => ?_⟩
      cases he
      exact ⟨q1, rfl, h⟩
    · dsimp only
      rw [hs]
      cases getOrCreateDataRequest t (GetVisibility env t s).2 with
      | error e => exact ⟨fun e he => he, fun q2' s' he => (by cases he)⟩
      | ok v =>
        obtain ⟨request, s1⟩ := v
        dsimp only
        apply ih
        rw [List.map_append, List.map_append, h]
        rfl

theorem subtree_eq_cons (env : Ports) (d : Nat) (t : TileLL) :
    subtree env d t = t :: (subtree env d t).tail := by
  cases d <;> rfl

theorem subtree_succ_tail (env : Ports) (d : Nat) (t : TileLL) :
    (subtree env (d + 1) t).tail = (newChildren env t).flatMap (subtree env d) := rfl

theorem subtree_level_ge (env : Ports) : ∀ (k : Nat) (t d : TileLL),
    d ∈ subtree env k t → t.level ≤ d.level := by
  intro k
  induction k with
  | zero =>
    intro t d h
    simp only [subtree, List.mem_singleton] at h
    rw [h]
  | succ k ih =>
    intro t d h
    simp only [subtree, List.mem_cons, List.mem_flatMap] at h
    rcases h with h | ⟨c, hc, hd⟩
    · rw [h]
    · have := ih c d hd
      rw [newChildren_level env t c hc] at this
      omega

theorem subtree_truncate (env : Ports) : ∀ (k j : Nat) (t d : TileLL),
    d ∈ subtree env k t → d.level ≤ t.level + j → d ∈ subtree env j t := by
  intro k
  induction k with
  | zero =>
    intro j t d h _
    simp only [subtree, List.mem_singleton] at h
    rw [h]
    exact (subtree_head env j t).subset (List.mem_singleton_self t)
  | succ k ih =>
    intro j t d h hl
    simp only [subtree, List.mem_cons, List.mem_flatMap] at h
    rcases h with h | ⟨c, hc, hd⟩
    · rw [h]
      exact (subtree_head env j t).subset (List.mem_singleton_self t)
    · have hge := subtree_level_ge env k c d hd
      have hcl := newChildren_level env t c hc
      cases j with
      | zero => omega
      | succ j =>
        simp only [subtree, List.mem_cons, List.mem_flatMap]
        exact Or.inr ⟨c, hc, ih j c d hd (by omega)⟩

theorem subtree_tail_truncate (env : Ports) (k j : Nat) (t d : TileLL)
    (h : d ∈ (subtree env k t).tail) (hl : d.level ≤ t.level + j) :
    d ∈ (subtree env j t).tail := by
  cases k with
  | zero => simp [subtree] at h
  | succ k =>
    rw [subtree_succ_tail, List.mem_flatMap] at h
    obtain ⟨c, hc, hd⟩ := h
    have hge := subtree_level_ge env k c d hd
    have hcl := newChildren_level env t c hc
    cases j with
    | zero => omega
    | succ j =>
      rw [subtree_succ_tail, List.mem_flatMap]
      exact ⟨c, hc, subtree_truncate env k j c d hd (by omega)⟩

theorem desc_not_mem_potential_succ (env : Ports) (L i : Nat) (qt : List TileLL)
    (t d : TileLL) (hn : (potential env L i qt).Nodup) (h : qt[i]? = some t)
    (hd : d ∈ (subtree env (L - t.level) t).tail) :
    d ∉ potential env L (i + 1) qt := by
  obtain ⟨hi, rfl⟩ := List.getElem?_eq_some.mp h
  unfold potential at hn ⊢
  rw [List.drop_eq_getElem_cons hi, List.flatMap_cons, subtree_eq_cons] at hn
  rw [List.take_succ, h]
  simp only [Option.toList, List.append_assoc, List.singleton_append]
  obtain ⟨_, n2, d1⟩ := List.nodup_append.mp hn
  obtain ⟨n3, _, d2⟩ := List.nodup_append.mp n2
  intro hmem
  rcases List.mem_append.mp hmem with h1 | h1
  · exact d1 h1 (List.mem_append_left _ (List.mem_cons_of_mem _ hd))
  · rcases List.mem_cons.mp h1 with h2 | h2
    · subst h2
      exact (List.nodup_cons.mp n3).1 hd
    · exact d2 (List.mem_cons_of_mem _ hd) h2

theorem bfsLoop_antichain (env : Ports) : ∀ (fuel i : Nat) (q : List TileMetaData)
    (items : List TileItem) (s : TileSetLL) (q' : List TileMetaData)
    (items' : List TileItem) (s' : TileSetLL),
    TreeOk env s.m_tree →
    (potential env s.m_opts.max_level i (q.map TileMetaData.tile)).Nodup →
    (∀ a ∈ items.map TileItem.tile, a ∈ (q.map TileMetaData.tile).take i) →
    (∀ a ∈ items.map TileItem.tile,
      ∀ d ∈ (subtree env (s.m_opts.max_level - a.level) a).tail,
        d ∉ potential env s.m_opts.max_level i (q.map TileMetaData.tile)) →
    bfsLoop env fuel i q items s = Except.ok (q', items', s') →
    ∀ a ∈ items'.map TileItem.tile, ∀ d ∈ items'.map TileItem.tile,
      d ∉ (subtree env (s.m_opts.max_level - a.level) a).tail := by
  intro fuel
  induction fuel with
  | zero =>
    intro i q items s q' items' s' _ _ _ _ h
    simp only [bfsLoop] at h
    cases h
  | succ fuel ih =>
    intro i q items s q' items' s' htree hnd h1 h2 h
    have hbase : ∀ a ∈ items.map TileItem.tile, ∀ d ∈ items.map TileItem.tile,
        d ∉ (subtree env (s.m_opts.max_level - a.level) a).tail := by
      intro a ha d hd hc
      apply h2 a ha d hc
      unfold potential
      exact List.mem_append_left _ (h1 d hd)
    unfold bfsLoop at h
    cases hq : q[i]? with
    | none =>
      rw [hq] at h
      cases h
      exact hbase
    | some m =>
      rw [hq] at h
      dsimp only at h
      have hqt : (q.map TileMetaData.tile)[i]? = some m.tile := by
        rw [List.getElem?_map, hq]; rfl
      have hstep := potential_step env s.m_opts.max_level i _ _ hqt
      have htake : (q.map TileMetaData.tile).take (i + 1)
          = (q.map TileMetaData.tile).take i ++ [m.tile] := by
        rw [List.take_succ, hqt]; rfl
      split at h
      · cases h
        exact hbase
      · cases hr : m.request with
        | none => rw [hr] at h; cases h
        | some r =>
          rw [hr] at h
          dsimp only at h
          have hsave : ∀ (s1 : TileSetLL), frame s1 = frame s → TreeOk env s1.m_tree →
              bfsLoop env fuel (i + 1) q (items ++ [makeItem env m r]) s1
                = Except.ok (q', items', s') →
              ∀ a ∈ items'.map TileItem.tile, ∀ d ∈ items'.map TileItem.tile,
                d ∉ (subtree env (s.m_opts.max_level - a.level) a).tail := by
            intro s1 hf1 ht1 hl
            have := ih _ _ _ _ _ _ _ ht1 (by
                rw [frame_opts _ _ hf1]; exact hnd.sublist hstep) (by
                intro a ha
                rw [htake]
                rw [List.map_append] at ha
                rcases List.mem_append.mp ha with ha | ha
                · exact List.mem_append_left _ (h1 a ha)
                · exact List.mem_append_right _ ha) (by
                intro a ha d hd
                rw [frame_opts _ _ hf1] at hd ⊢
                rw [List.map_append] at ha
                rcases List.mem_append.mp ha with ha | ha
                · exact fun hc => h2 a ha d hd (hstep.subset hc)
                · have hae : a = m.tile := by simpa [makeItem] using ha
                  subst hae
                  exact desc_not_mem_potential_succ env _ i _ _ d hnd hqt hd) hl
            rw [frame_opts _ _ hf1] at this
            exact this
          split at h
          · split at h
            · rename_i hcond
              split at h
              · cases h
              · rename_i list_children ready s1 hch
                obtain ⟨c1, c2, c3, _, _⟩ :=
                  getOrCreateChildDataRequests_ok env m.tile s s1 list_children ready htree hch
                split at h
                · have hperm := potential_refine env s.m_opts.max_level i _ _ hqt hcond.2.1
                  have := ih _ _ _ _ _ _ _ c3 (by
                      rw [frame_opts _ _ c2, List.map_append, c1]
                      exact hperm.nodup_iff.mpr hnd) (by
                      intro a ha
                      rw [List.map_append]
                      exact (take_sublist_take_succ_append _ _ _).subset (h1 a ha)) (by
                      intro a ha d hd
                      rw [frame_opts _ _ c2] at hd ⊢
                      rw [List.map_append, c1]
                      exact fun hc => h2 a ha d hd (hperm.subset hc)) h
                  rw [frame_opts _ _ c2] at this
                  exact this
                · exact hsave _ ((destroyChildren_frame _ _).trans c2)
                    (destroyChildren_treeOk env _ _ c3) h
            · exact hsave _ (destroyChildren_frame _ _) (destroyChildren_treeOk env _ _ htree) h
          · exact ih _ _ _ _ _ _ _ htree (hnd.sublist hstep) (by
              intro a ha
              rw [htake]
              exact List.mem_append_left _ (h1 a ha)) (by
              intro a ha d hd
              exact fun hc => h2 a ha d hd (hstep.subset hc)) h

theorem isPrefixOf_append_singleton (l : List Nat) (k : Nat) :
    (l ++ [k]).isPrefixOf l = false := by
  induction l with
  | nil => rfl
  | cons a l ih =>
    show (a == a && (l ++ [k]).isPrefixOf l) = false
    rw [ih, Bool.and_false]

theorem child_not_owner (env : Ports) (t c : TileLL) (hc : c ∈ newChildren env t) :
    c ≠ t ∧ ownedBelow c t = false := by
  refine ⟨?_, ?_⟩
  · intro h
    have := newChildren_level env t c hc
    rw [h] at this
    omega
  · unfold ownedBelow
    simp only [newChildren, List.mem_cons, List.mem_singleton, List.not_mem_nil, or_false] at hc
    rcases hc with h | h | h | h <;>
      (rw [h]; simp only [TileLL.child, isPrefixOf_append_singleton, Bool.false_and])

theorem bfsLoop_save_rest (env : Ports) (q : List TileMetaData) :
    ∀ (fuel i : Nat) (items : List TileItem) (s : TileSetLL),
    q.length ≠ s.m_opts.max_data → q.length - i < fuel →
    (∀ m ∈ q.drop i, m.exceeds_err = false ∧
      ∃ r, m.request = some r ∧ env.IsFinished r = true) →
    ∃ items' s', bfsLoop env fuel i q items s = Except.ok (q, items', s') ∧
      items'.map TileItem.tile = items.map TileItem.tile ++ (q.drop i).map TileMetaData.tile ∧
      ∀ t, (∀ m ∈ q.drop i, t ≠ m.tile ∧ ownedBelow m.tile t = false) →
        getLinks s'.m_tree t = getLinks s.m_tree t := by
  intro fuel
  induction fuel with
  | zero => intro i items s _ h; omega
  | succ fuel ih =>
    intro i items s hfull hfuel hall
    cases hq : q[i]? with
    | none =>
      have hi : q.length ≤ i := List.getElem?_eq_none_iff.mp hq
      refine ⟨items, s, bfsLoop_step_done env fuel i q items s hq, ?_, fun _ _ => rfl⟩
      rw [List.drop_eq_nil_of_le hi]
      simp
    | some m =>
      obtain ⟨hi, hm⟩ := List.getElem?_eq_some.mp hq
      have hdrop : q.drop i = m :: q.drop (i + 1) := by
        rw [List.drop_eq_getElem_cons hi, hm]
      obtain ⟨hex, r, hr, hfin⟩ := hall m (by rw [hdrop]; exact List.mem_cons_self _ _)
      have hstep := bfsLoop_step_save env fuel i q items s m r hq hfull hr hfin (by
        rintro ⟨h1, _, _⟩
        rw [hex] at h1
        cases h1)
      have hfd : frame (destroyChildren m.tile s) = frame s := destroyChildren_frame _ _
      obtain ⟨items', s', g1, g2, g3⟩ := ih (i + 1) (items ++ [makeItem env m r])
        (destroyChildren m.tile s) (by rw [frame_opts _ _ hfd]; exact hfull) (by omega)
        (fun m' hm' => hall m' (by rw [hdrop]; exact List.mem_cons_of_mem _ hm'))
      refine ⟨items', s', by rw [hstep]; exact g1, ?_, ?_⟩
      · rw [g2, hdrop, List.map_append, List.append_assoc]
        rfl
      · intro t ht
        rw [g3 t (fun m' hm' => ht m' (by rw [hdrop]; exact List.mem_cons_of_mem _ hm'))]
        obtain ⟨hne, hown⟩ := ht m (by rw [hdrop]; exact List.mem_cons_self _ _)
        rcases getLinks_destroyChildren_ne m.tile t s hne with h1 | h1
        · exact h1
        · rw [hown] at h1
          cases h1.1

theorem ctor_startGrid11Cap5 :
    TileSetLL.TileSetLL portsLeaf srcGrid11
      { min_level := 0, max_level := 2, max_data := 5, cache_size_hint := 16,
        list_preload_levels := [], upsample_hint := false } 16
      = Except.ok startGrid11Cap5 := by
  decide

theorem evictOld_keeps : ∀ (l : List LRUEntry) (k : Nat) (e : LRUEntry),
    e ∈ l → e.before_mark = false → e ∈ LRUCache.evictOld k l := by
  intro l
  induction l with
  | nil => intro k e h; cases h
  | cons a l ih =>
    intro k e he hb
    cases k with
    | zero => simpa [LRUCache.evictOld] using he
    | succ k =>
      unfold LRUCache.evictOld
      rcases List.mem_cons.mp he with h | h
      · subst h
        rw [if_neg (by rw [hb]; decide)]
        exact List.mem_cons_self _ _
      · split
        · exact ih k e h hb
        · exact List.mem_cons_of_mem _ (ih (k + 1) e h hb)

theorem insert_room (c : LRUCache) (id : TileLL.Id) (r : Request) (touch : Bool) :
    ∃ room, (c.insert id r touch).entries
        = { key := id, value := r, before_mark := false } :: room ∧
      (∀ e ∈ room, (e.key == id) = false) ∧
      List.Sublist room c.entries ∧
      (∀ e ∈ c.entries, e.key ≠ id → e.before_mark = false → e ∈ room) := by
  unfold LRUCache.insert
  dsimp only
  refine ⟨_, rfl, ?_, ?_, ?_⟩
  · intro e he
    have hk : e ∈ c.entries.filter (fun e => e.key != id) := by
      split at he
      · have h1 := (evictOld_sublist _ _).reverse.subset he
        simpa using h1
      · exact he
    have := (List.mem_filter.mp hk).2
    simpa using this
  · split
    · have h1 := (evictOld_sublist (List.length (List.filter (fun e => e.key != id) c.entries)
        + 1 - c.capacity) (List.filter (fun e => e.key != id) c.entries).reverse).reverse
      rw [List.reverse_reverse] at h1
      exact h1.trans (List.filter_sublist _)
    · exact List.filter_sublist _
  · intro e he hne hb
    have hk : e ∈ c.entries.filter (fun e => e.key != id) := by
      rw [List.mem_filter]
      exact ⟨he, by simpa using hne⟩
    split
    · rw [List.mem_reverse]
      exact evictOld_keeps _ _ e (List.mem_reverse.mpr hk) hb
    · exact hk

theorem eq_of_countP_one (p : LRUEntry → Bool) : ∀ (l : List LRUEntry) (a b : LRUEntry),
    l.countP p = 1 → a ∈ l → b ∈ l → p a = true → p b = true → a = b := by
  intro l
  induction l with
  | nil => intro a b _ ha; cases ha
  | cons x l ih =>
    intro a b hc ha hb hpa hpb
    rw [List.countP_cons] at hc
    by_cases hx : p x = true
    · rw [if_pos hx] at hc
      have h0 : l.countP p = 0 := by omega
      rw [List.countP_eq_zero] at h0
      rcases List.mem_cons.mp ha with h1 | h1
      · rcases List.mem_cons.mp hb with h2 | h2
        · rw [h1, h2]
        · exact absurd hpb (h0 b h2)
      · exact absurd hpa (h0 a h1)
    · rw [if_neg hx] at hc
      rcases List.mem_cons.mp ha with h1 | h1
      · rw [h1] at hpa; exact absurd hpa hx
      · rcases List.mem_cons.mp hb with h2 | h2
        · rw [h2] at hpb; exact absurd hpb hx
        · exact ih a b (by omega) h1 h2 hpa hpb

theorem countP_filter_other (l : List LRUEntry) (id id0 : TileLL.Id) (h : id ≠ id0) :
    (l.filter (fun e => e.key != id0)).countP (fun e => e.key == id)
      = l.countP (fun e => e.key == id) := by
  induction l with
  | nil => rfl
  | cons x l ih =>
    by_cases hx : x.key = id0
    · have h1 : (x.key != id0) = false := by simp [hx]
      have h2 : (x.key == id) = false := by
        rw [hx]
        simpa using Ne.symm h
      rw [List.filter_cons_of_neg (by rw [h1]; decide), List.countP_cons, ih, h2]
      simp
    · have h1 : (x.key != id0) = true := by simpa using hx
      rw [List.filter_cons_of_pos (by rw [h1]), List.countP_cons, List.countP_cons, ih]

theorem FreshCached_congr (n : Nat) (s s' : TileSetLL)
    (h1 : s'.m_tile_data_source = s.m_tile_data_source)
    (h2 : s'.m_lru_view_data = s.m_lru_view_data) (h : FreshCached n s) :
    FreshCached n s' := by
  unfold FreshCached
  rw [h1, h2]
  exact h

theorem getOrCreateDataRequest_freshCached (n : Nat) (tile : TileLL) (s s' : TileSetLL)
    (r : Option Request) (hinv : FreshCached n s)
    (h : getOrCreateDataRequest tile s = Except.ok (r, s')) : FreshCached n s' := by
  cases hflag : s.m_list_level_is_preloaded[tile.level]? with
  | none =>
    rw [getOrCreateDataRequest_no_flag tile s hflag] at h
    cases h
  | some flag =>
    by_cases hne : flag = 0
    · subst hne
      cases hfind : s.m_lru_view_data.entries.find? (fun e => e.key == tile.id) with
      | none =>
        rw [getOrCreateDataRequest_absent tile s hflag hfind] at h
        cases h
        obtain ⟨room, hroom, hk, hsub, hkeep⟩ :=
          insert_room s.m_lru_view_data tile.id s.m_tile_data_source.length false
        have hc0 := count_absent _ _ hfind
        have hroom0 : room.countP (fun e => e.key == tile.id) = 0 := by
          rw [List.countP_eq_zero]
          intro e he
          simp [hk e he]
        intro r1 id hr1 hget
        show ∃ e ∈ (s.m_lru_view_data.insert tile.id s.m_tile_data_source.length false).entries,
          e.key = id ∧ e.value = r1 ∧ e.before_mark = false ∧
            List.countP (fun e => e.key == id)
              (s.m_lru_view_data.insert tile.id s.m_tile_data_source.length false).entries = 1
        rw [hroom]
        change (s.m_tile_data_source ++ [tile.id])[r1]? = some id at hget
        by_cases hlt : r1 < s.m_tile_data_source.length
        · rw [List.getElem?_append_left hlt] at hget
          obtain ⟨e, he, e1, e2, e3, e4⟩ := hinv r1 id hr1 hget
          have hidne : id ≠ tile.id := by
            intro heq
            rw [heq] at e4
            unfold LRUCache.count at e4
            omega
          have her : e ∈ room := hkeep e he (by rw [e1]; exact hidne) e3
          refine ⟨e, List.mem_cons_of_mem _ her, e1, e2, e3, ?_⟩
          rw [List.countP_cons, if_neg (by simpa using Ne.symm hidne)]
          have hle := hsub.countP_le (fun e => e.key == id)
          have hge : 0 < room.countP (fun e => e.key == id) :=
            List.countP_pos_iff.mpr ⟨e, her, by simpa using e1⟩
          unfold LRUCache.count at e4
          omega
        · have hr : r1 = s.m_tile_data_source.length := by
            have := (List.getElem?_eq_some.mp hget).1
            rw [List.length_append, List.length_singleton] at this
            exact Nat.le_antisymm (Nat.lt_succ_iff.mp this) (Nat.le_of_not_lt hlt)
          subst hr
          rw [List.getElem?_append_right (Nat.le_refl _)] at hget
          simp only [Nat.sub_self, List.getElem?_cons_zero, Option.some.injEq] at hget
          subst hget
          refine ⟨_, List.mem_cons_self _ _, rfl, rfl, rfl, ?_⟩
          rw [List.countP_cons, if_pos (by simp), hroom0]
      | some e0 =>
        rw [getOrCreateDataRequest_cached tile s e0 hflag hfind] at h
        cases h
        have hk0 := List.find?_some hfind
        have hm0 := List.mem_of_find?_eq_some hfind
        intro r1 id hr1 hget
        obtain ⟨e, he, e1, e2, e3, e4⟩ := hinv r1 id hr1 hget
        show ∃ e ∈ e0 :: s.m_lru_view_data.entries.filter (fun e' => e'.key != tile.id),
          e.key = id ∧ e.value = r1 ∧ e.before_mark = false ∧
            List.countP (fun e => e.key == id)
              (e0 :: s.m_lru_view_data.entries.filter (fun e' => e'.key != tile.id)) = 1
        by_cases hid : id = tile.id
        · subst hid
          have hee : e = e0 := eq_of_countP_one _ _ e e0 e4 he hm0 (by simpa using e1) hk0
          subst hee
          exact ⟨e, List.mem_cons_self _ _, e1, e2, e3, count_cached _ _ _ hfind⟩
        · refine ⟨e, List.mem_cons_of_mem _ (List.mem_filter.mpr ⟨he, by
            rw [e1]; simpa using hid⟩), e1, e2, e3, ?_⟩
          have hk1 : (e0.key == id) = false := by
            have : e0.key = tile.id := by simpa using hk0
            rw [this]
            simpa using Ne.symm hid
          rw [List.countP_cons, countP_filter_other _ _ _ hid, hk1]
          exact e4
    · cases hl : s.m_lkup_preloaded_data.lookup tile.id with
      | none =>
        rw [getOrCreateDataRequest_preloaded_absent tile s flag hflag hne hl] at h
        cases h
      | some r0 =>
        rw [getOrCreateDataRequest_preloaded tile s flag r0 hflag hne hl] at h
        cases h
        exact hinv

theorem createChildren_freshCached (env : Ports) (n : Nat) (t : TileLL) (s : TileSetLL)
    (h : FreshCached n s) : FreshCached n (createChildren env t s) := by
  unfold createChildren
  split
  · exact FreshCached_congr n s _ rfl rfl h
  · exact h

theorem destroyChildren_freshCached (n : Nat) (t : TileLL) (s : TileSetLL)
    (h : FreshCached n s) : FreshCached n (destroyChildren t s) := by
  unfold destroyChildren
  split
  · exact FreshCached_congr n s _ rfl rfl h
  · exact h

theorem childRequests_freshCached (env : Ports) (n : Nat) :
    ∀ (cs : List TileLL) (ready : Bool) (s : TileSetLL) (metas : List TileMetaData)
      (ready' : Bool) (s' : TileSetLL),
    FreshCached n s → childRequests env cs ready s = Except.ok (metas, ready', s') →
    FreshCached n s' := by
  intro cs
  induction cs with
  | nil =>
    intro ready s metas ready' s' hinv h
    simp only [childRequests] at h
    cases h
    exact hinv
  | cons c cs ih =>
    intro ready s metas ready' s' hinv h
    simp only [childRequests] at h
    split at h
    · cases h
    · cases h
    · rename_i r s1 hreq
      split at h
      · cases h
      · rename_i metas2 ready2 s2 hrest
        cases h
        exact ih _ _ _ _ _ (getOrCreateDataRequest_freshCached n c s s1 _ hinv hreq) hrest

theorem childVisibility_freshCached (env : Ports) (n : Nat) :
    ∀ (ms : List TileMetaData) (s : TileSetLL),
    FreshCached n s → FreshCached n (childVisibility env ms s).2 := by
  intro ms
  induction ms with
  | nil => intro s h; exact h
  | cons m ms ih =>
    intro s h
    unfold childVisibility
    dsimp only
    exact ih _ (FreshCached_congr n s _ rfl rfl h)

theorem getOrCreateChildDataRequests_freshCached (env : Ports) (n : Nat) (t : TileLL)
    (s s' : TileSetLL) (metas : List TileMetaData) (ready : Bool) (hinv : FreshCached n s)
    (h : getOrCreateChildDataRequests env t s = Except.ok (metas, ready, s')) :
    FreshCached n s' := by
  unfold getOrCreateChildDataRequests at h
  dsimp only at h
  split at h
  · split at h
    · cases h
    · rename_i metas1 ready1 s2 hreq
      have h2 := childRequests_freshCached env n _ _ _ _ _ _
        (createChildren_freshCached env n t s hinv) hreq
      split at h
      · cases h
        exact childVisibility_freshCached env n metas1 s2 h2
      · cases h
        exact h2
  · cases h

theorem bfsLoop_freshCached (env : Ports) (n : Nat) : ∀ (fuel i : Nat)
    (q : List TileMetaData) (items : List TileItem) (s : TileSetLL)
    (q' : List TileMetaData) (items' : List TileItem) (s' : TileSetLL),
    FreshCached n s → bfsLoop env fuel i q items s = Except.ok (q', items', s') →
    FreshCached n s' := by
  intro fuel
  induction fuel with
  | zero =>
    intro i q items s q' items' s' _ h
    simp only [bfsLoop] at h
    cases h
  | succ fuel ih =>
    intro i q items s q' items' s' hinv h
    unfold bfsLoop at h
    split at h
    · cases h; exact hinv
    · split at h
      · cases h; exact hinv
      · split at h
        · cases h
        · split at h
          · split at h
            · split at h
              · cases h
              · rename_i lc ready s1 hch
                have h1 := getOrCreateChildDataRequests_freshCached env n _ _ _ _ _ hinv hch
                split at h
                · exact ih _ _ _ _ _ _ _ h1 h
                · exact ih _ _ _ _ _ _ _ (destroyChildren_freshCached n _ _ h1) h
            · exact ih _ _ _ _ _ _ _ (destroyChildren_freshCached n _ _ hinv) h
          · exact ih _ _ _ _ _ _ _ hinv h

/-- The example state `startGrid11NoCache` is what the constructor builds. -/
theorem ctor_startGrid11NoCache :
    TileSetLL.TileSetLL portsLeaf srcGrid11
      { min_level := 0, max_level := 1, max_data := 8, cache_size_hint := 0,
        list_preload_levels := [], upsample_hint := false } 8
      = Except.ok startGrid11NoCache := by
  decide

/-! ## Claims -/

/-- C1 (fails on the code): with the two root tiles resident, ids `0` and
`268435456`, the id `5` is resident nowhere and is smaller than a resident id,
yet `GetTile 5` is not null: it returns the item with id `268435456`, because
the iterator of `std::lower_bound` is only compared with `end()`. -/
theorem GetTile_absent_id_returns_other_item :
    (stateAfter portsLeaf 7 startGrid21).m_list_tiles.map TileItem.id = [0, 268435456] ∧
    GetTile (stateAfter portsLeaf 7 startGrid21) 5
      = some { id := 268435456,
               tile := { level := 0, x := 1, y := 0, id := 268435456, addr := [1] },
               data := some 101 } := by
  decide

/-- C2: when the resident list is strictly sorted by id, `GetTile` called with
the id of an item of the list returns that item. -/
theorem GetTile_finds_resident_item (s : TileSetLL) (item : TileItem)
    (hsorted : (s.m_list_tiles.map TileItem.id).Sorted (· < ·))
    (hmem : item ∈ s.m_list_tiles) :
    GetTile s item.id = some item := by
  have hm : IdsMono s.m_list_tiles := idsMono_of_sorted _ hsorted.le_of_lt
  obtain ⟨hle, hlo, hhi⟩ := lower_bound_spec s.m_list_tiles item.id hm
  obtain ⟨k, hk, hkeq⟩ := List.getElem_of_mem hmem
  have hkq : s.m_list_tiles[k]? = some item := by
    rw [List.getElem?_eq_getElem hk, hkeq]
  have hrk : lower_bound s.m_list_tiles item.id ≤ k := by
    by_contra hc
    exact absurd (hlo k item (not_le.mp hc) hkq) (lt_irrefl _)
  have hr : lower_bound s.m_list_tiles item.id < s.m_list_tiles.length :=
    lt_of_le_of_lt hrk hk
  have hrq : s.m_list_tiles[lower_bound s.m_list_tiles item.id]?
      = some (s.m_list_tiles[lower_bound s.m_list_tiles item.id]) :=
    List.getElem?_eq_getElem hr
  have h1 := hhi _ _ (le_refl _) hrq
  have h2 := hm _ _ _ _ hrk hrq hkq
  have hid : (s.m_list_tiles[lower_bound s.m_list_tiles item.id]).id = item.id :=
    le_antisymm h2 h1
  have hrk2 : lower_bound s.m_list_tiles item.id = k := by
    rcases Nat.eq_or_lt_of_le hrk with h | h
    · exact h
    · exfalso
      have hp : List.Pairwise (fun u v : TileItem => u.id < v.id) s.m_list_tiles := by
        have := hsorted
        unfold List.Sorted at this
        rwa [List.pairwise_map] at this
      rw [List.pairwise_iff_getElem] at hp
      have := hp _ k hr hk h
      rw [hid, hkeq] at this
      exact absurd this (lt_irrefl _)
  unfold GetTile
  dsimp only
  rw [if_neg (Nat.ne_of_lt hr), hrk2, hkq]

/-- Witness of C2: the second root tile is found in the resident list of the
two root tiles. -/
theorem GetTile_finds_resident_item_witness :
    GetTile (stateAfter portsLeaf 7 startGrid21) 268435456
      = some { id := 268435456,
               tile := { level := 0, x := 1, y := 0, id := 268435456, addr := [1] },
               data := some 101 } :=
  GetTile_finds_resident_item (stateAfter portsLeaf 7 startGrid21)
    { id := 268435456, tile := { level := 0, x := 1, y := 0, id := 268435456, addr := [1] },
      data := some 101 } (by decide) (by decide)

/-- C3: while the preloaded data is not confirmed ready and some preload
request is unfinished, `UpdateTileSet` returns the state and the three output
lists as it got them: resident list, ready flag, view cache, tile tree and the
logs of the calls to the visibility port and to the data source are unchanged;
with empty output lists the result is `([], [], [])`. -/
theorem UpdateTileSet_preload_pending_noop (env : Ports) (cam : Nat) (s : TileSetLL)
    (out : List TileLL.Id × List TileLL.Id × List TileLL.Id)
    (hready : s.m_preloaded_data_ready = false)
    (hpend : ∃ id_req ∈ s.m_lkup_preloaded_data, env.IsFinished id_req.2 = false) :
    UpdateTileSet env cam s out = Except.ok (s, out) ∧
      UpdateTileSet env cam s ([], [], []) = Except.ok (s, [], [], []) := by
  have hgate : passesPreloadGate env s = false := by
    unfold passesPreloadGate
    rw [hready, Bool.false_or]
    obtain ⟨p, hp, hf⟩ := hpend
    cases hall : s.m_lkup_preloaded_data.all (fun id_req => env.IsFinished id_req.2) with
    | false => rfl
    | true =>
      have := List.all_eq_true.mp hall p hp
      rw [hf] at this
      exact Bool.noConfusion this
  constructor
  · unfold UpdateTileSet
    rw [gate_eq, hgate]
    rfl
  · unfold UpdateTileSet
    rw [gate_eq, hgate]
    rfl

/-- Witness of C3: the state after construction with two outstanding preload
requests. -/
theorem UpdateTileSet_preload_pending_noop_witness :
    UpdateTileSet portsPending 7 startPreload21 ([], [], [])
      = Except.ok (startPreload21, [], [], []) :=
  (UpdateTileSet_preload_pending_noop portsPending 7 startPreload21 ([], [], []) rfl
    ⟨(0, 0), by decide, rfl⟩).2

/-- C7 as stated fails: for the preload level list `[32]` and `max_data = 0`,
`initOptions` returns `max_data = 0`, below the true sum `4 ^ 32`. -/
theorem initOptions_max_data_below_true_sum :
    ∃ r, initOptions srcGrid21
        { min_level := 0, max_level := 1, max_data := 0, cache_size_hint := 4,
          list_preload_levels := [32], upsample_hint := false } = Except.ok r ∧
      r.max_data = 0 ∧ r.max_data < ([32].map (fun l => 4 ^ l)).sum :=
  ⟨{ min_level := 0, max_level := 1, max_data := 0, cache_size_hint := 4,
     list_preload_levels := [32], upsample_hint := false }, by decide, rfl, by decide⟩

/-- C7 (amended): for every Options value accepted by `initOptions`, the
resulting `max_data` is at least the sum of `4 ^ level` over the preload level
list reduced modulo `2 ^ 64`, each entry counted once per occurrence; hence it
is at least the true sum whenever the true sum is below `2 ^ 64`. -/
theorem initOptions_max_data_ge_wrapped_sum (src : TileDataSourceLL) (opts r : Options)
    (h : initOptions src opts = Except.ok r) :
    (opts.list_preload_levels.map (fun l => 4 ^ l)).sum % 2 ^ 64 ≤ r.max_data ∧
      ((opts.list_preload_levels.map (fun l => 4 ^ l)).sum < 2 ^ 64 →
        (opts.list_preload_levels.map (fun l => 4 ^ l)).sum ≤ r.max_data) := by
  have key : (opts.list_preload_levels.map (fun l => 4 ^ l)).sum % 2 ^ 64 ≤ r.max_data := by
    unfold initOptions at h
    split at h
    · cases h
      dsimp only
      rw [sumPreload_sorted]
      split
      · exact le_refl _
      · rename_i hgt
        exact not_lt.mp hgt
    · cases h
  exact ⟨key, fun hlt => by rwa [Nat.mod_eq_of_lt hlt] at key⟩

/-- Witness of C7 (amended): preload levels 0 and 1 raise `max_data` from 4
to 5. -/
theorem initOptions_max_data_ge_wrapped_sum_witness :
    ([0, 1].map (fun l => 4 ^ l)).sum % 2 ^ 64 ≤ 5 ∧
      (([0, 1].map (fun l => 4 ^ l)).sum < 2 ^ 64 → ([0, 1].map (fun l => 4 ^ l)).sum ≤ 5) :=
  initOptions_max_data_ge_wrapped_sum srcGrid21
    { min_level := 0, max_level := 1, max_data := 4, cache_size_hint := 4,
      list_preload_levels := [0, 1], upsample_hint := false }
    { min_level := 0, max_level := 1, max_data := 5, cache_size_hint := 4,
      list_preload_levels := [0, 1], upsample_hint := false }
    (by decide)

/-- C8 (fails on the code): for a root grid of 2 x 1 tiles, preload level 0 and
`max_data = 1`, construction leaves `max_data = 1` while the preload map holds
2 requests: the cap is raised to the sum of `4 ^ level`, which leaves out the
root grid. -/
theorem ctor_cap_below_preload_count :
    (TileSetLL.TileSetLL portsLeaf srcGrid21
        { min_level := 0, max_level := 1, max_data := 1, cache_size_hint := 4,
          list_preload_levels := [0], upsample_hint := false } 8).map
        (fun s => (s.m_opts.max_data, s.m_lkup_preloaded_data.length))
      = Except.ok (1, 2) := by
  decide

/-- C9 (fails on the code): for `max_data = 0` and a preload level list that
holds each of the levels 0 to 31 three times, `initOptions` completes and
returns `max_data = 2 ^ 64 - 1`, the largest `uint64_t`: the assertion precedes
the raise to the preload count. -/
theorem initOptions_max_data_reaches_uint64_max :
    (initOptions srcGrid21
        { min_level := 0, max_level := 1, max_data := 0, cache_size_hint := 4,
          list_preload_levels := thriceLevels, upsample_hint := false }).map
        (fun o => o.max_data)
      = Except.ok UINT64_MAX := by
  set_option maxRecDepth 100000 in decide

/-- C10 (fails on the code): for `min_level = max_level = 255` and a source
with levels 0 to 18, `initOptions` returns `min_level = 18` and
`max_level = 0`: the increment of the equal pair wraps to 0 in `uint8_t`. -/
theorem initOptions_levels_255_inverted :
    (initOptions srcGrid21
        { min_level := 255, max_level := 255, max_data := 4, cache_size_hint := 4,
          list_preload_levels := [], upsample_hint := false }).map
        (fun o => (o.min_level, o.max_level))
      = Except.ok (18, 0) := by
  decide

/-- C11 (fails on the code): for the dataset bounds `[0, 2] x [0, 1]` and a
root grid of 2 x 1 tiles the constructor gives the root tile `(1, 0)` the bounds
`[0, 2] x [0, 1]`, the whole dataset, and not `[1, 2] x [0, 1]`: the minimum
of every root tile is the minimum of the dataset, so the two root tiles
overlap and differ in width. -/
theorem ctor_root_bounds_not_subdivided :
    rootTileBounds { minLon := 0, maxLon := 2, minLat := 0, maxLat := 1 } 2 1
      = [{ minLon := 0, maxLon := 1, minLat := 0, maxLat := 1 },
         { minLon := 0, maxLon := 2, minLat := 0, maxLat := 1 }] := by
  simp [rootTileBounds, List.range, List.range.loop]
  norm_num

/-- C20 as stated fails: the coordinates are computed in `uint32_t`. For a
tile of level 31 with `x = 2^31` (in the tree of the second root of a 2 x 1
grid) the child `LB` gets `x = 0`, not `2 * x = 2^32`. -/
theorem createChildren_coordinates_wrap :
    (getLinks (createChildren portsLeaf
        { level := 31, x := 2147483648, y := 0, id := packId 31 2147483648 0,
          addr := 1 :: List.replicate 31 1 } startGrid21).m_tree
        { level := 31, x := 2147483648, y := 0, id := packId 31 2147483648 0,
          addr := 1 :: List.replicate 31 1 }).tile_LB.map
      (fun c => (c.x, c.y)) = some (0, 0) := by
  decide

/-- C20 (amended): on a tile whose split flag is clear `createChildren`
allocates exactly four children and sets the flag to fully split; their
coordinates are `LT = (2x, 2y+1)`, `LB = (2x, 2y)`, `RB = (2x+1, 2y)`,
`RT = (2x+1, 2y+1)` reduced modulo `2^32`, hence exactly these values when
`2x+1` and `2y+1` are below `2^32`. On a tile whose flag is not clear it changes
nothing, and it is idempotent. -/
theorem createChildren_spec (env : Ports) (tile : TileLL) (s : TileSetLL) :
    ((getLinks s.m_tree tile).clip = Clip.k_clip_NONE →
      ∃ lt lb rb rt : TileLL,
        getLinks (createChildren env tile s).m_tree tile
          = { clip := Clip.k_clip_ALL, tile_LT := some lt, tile_LB := some lb,
              tile_RB := some rb, tile_RT := some rt } ∧
        (lt.x, lt.y) = ((2 * tile.x) % 2 ^ 32, (2 * tile.y + 1) % 2 ^ 32) ∧
        (lb.x, lb.y) = ((2 * tile.x) % 2 ^ 32, (2 * tile.y) % 2 ^ 32) ∧
        (rb.x, rb.y) = ((2 * tile.x + 1) % 2 ^ 32, (2 * tile.y) % 2 ^ 32) ∧
        (rt.x, rt.y) = ((2 * tile.x + 1) % 2 ^ 32, (2 * tile.y + 1) % 2 ^ 32) ∧
        (2 * tile.x + 1 < 2 ^ 32 → 2 * tile.y + 1 < 2 ^ 32 →
          (lt.x, lt.y) = (2 * tile.x, 2 * tile.y + 1) ∧
          (lb.x, lb.y) = (2 * tile.x, 2 * tile.y) ∧
          (rb.x, rb.y) = (2 * tile.x + 1, 2 * tile.y) ∧
          (rt.x, rt.y) = (2 * tile.x + 1, 2 * tile.y + 1))) ∧
    ((getLinks s.m_tree tile).clip ≠ Clip.k_clip_NONE → createChildren env tile s = s) ∧
    createChildren env tile (createChildren env tile s) = createChildren env tile s := by
  have hset : (getLinks s.m_tree tile).clip = Clip.k_clip_NONE →
      getLinks (createChildren env tile s).m_tree tile = splitLinks env tile := by
    intro h
    unfold createChildren
    rw [if_pos h]
    exact getLinks_setLinks _ _ _
  have hne : ∀ s0 : TileSetLL, (getLinks s0.m_tree tile).clip ≠ Clip.k_clip_NONE →
      createChildren env tile s0 = s0 := by
    intro s0 h
    unfold createChildren
    rw [if_neg h]
  refine ⟨?_, hne s, ?_⟩
  · intro h
    refine ⟨_, _, _, _, hset h, ?_⟩
    simp only [TileLL.child, Prod.mk.injEq]
    omega
  · by_cases h : (getLinks s.m_tree tile).clip = Clip.k_clip_NONE
    · apply hne
      rw [hset h]
      simp [splitLinks]
    · rw [hne s h, hne s h]

/-- C15: `getOrCreateDataRequest` on a tile of a preloaded level returns the
handle of the preload map and leaves the state, the request cache included, as
it is; on an id in the request cache it returns the cached handle and issues no
request; on an absent id of a level that is not preloaded it issues one request
`RequestData(id)` and puts it first in the cache. A new request or a change of
the cache therefore happens only for a level that is not preloaded, a new
request only for an id the cache does not hold; after a lookup on a level that
is not preloaded the cache holds exactly one entry under the id, and a second
lookup right after the first returns the same handle and issues no request. -/
theorem getOrCreateDataRequest_spec (tile : TileLL) (s : TileSetLL) :
    (∀ flag r, s.m_list_level_is_preloaded[tile.level]? = some flag → flag ≠ 0 →
      s.m_lkup_preloaded_data.lookup tile.id = some r →
      getOrCreateDataRequest tile s = Except.ok (some r, s)) ∧
    (∀ e, s.m_list_level_is_preloaded[tile.level]? = some 0 →
      s.m_lru_view_data.entries.find? (fun e => e.key == tile.id) = some e →
      ∃ s', getOrCreateDataRequest tile s = Except.ok (some e.value, s') ∧
        s'.m_tile_data_source = s.m_tile_data_source ∧
        s'.m_lru_view_data.count tile.id = 1) ∧
    (s.m_list_level_is_preloaded[tile.level]? = some 0 →
      s.m_lru_view_data.entries.find? (fun e => e.key == tile.id) = none →
      ∃ s', getOrCreateDataRequest tile s
          = Except.ok (some s.m_tile_data_source.length, s') ∧
        s'.m_tile_data_source = s.m_tile_data_source ++ [tile.id] ∧
        s'.m_lru_view_data.entries.head?
          = some { key := tile.id, value := s.m_tile_data_source.length,
                   before_mark := false } ∧
        s'.m_lru_view_data.count tile.id = 1) ∧
    (∀ r s', getOrCreateDataRequest tile s = Except.ok (r, s') →
      (s'.m_tile_data_source ≠ s.m_tile_data_source ∨
          s'.m_lru_view_data ≠ s.m_lru_view_data →
        s.m_list_level_is_preloaded[tile.level]? = some 0) ∧
      (s'.m_tile_data_source ≠ s.m_tile_data_source →
        s.m_lru_view_data.count tile.id = 0) ∧
      ∃ s'', getOrCreateDataRequest tile s' = Except.ok (r, s'') ∧
        s''.m_tile_data_source = s'.m_tile_data_source) := by
  refine ⟨?_, ?_, ?_, ?_⟩
  · intro flag r hflag hne hl
    exact getOrCreateDataRequest_preloaded tile s flag r hflag hne hl
  · intro e hflag hfind
    refine ⟨_, getOrCreateDataRequest_cached tile s e hflag hfind, rfl, ?_⟩
    exact count_cached _ _ _ hfind
  · intro hflag hfind
    refine ⟨_, getOrCreateDataRequest_absent tile s hflag hfind, rfl, ?_⟩
    obtain ⟨room, hroom, hk⟩ :=
      insert_entries s.m_lru_view_data tile.id s.m_tile_data_source.length false
    refine ⟨by simp [hroom], ?_⟩
    show List.countP _ (s.m_lru_view_data.insert tile.id s.m_tile_data_source.length
      false).entries = 1
    rw [hroom, List.countP_cons, if_pos (by simp)]
    have : room.countP (fun e => e.key == tile.id) = 0 := by
      rw [List.countP_eq_zero]
      intro e he
      simp [hk e he]
    omega
  · intro r s' h
    cases hflag : s.m_list_level_is_preloaded[tile.level]? with
    | none =>
      rw [getOrCreateDataRequest_no_flag tile s hflag] at h
      cases h
    | some flag =>
      by_cases hne : flag = 0
      · subst hne
        cases hfind : s.m_lru_view_data.entries.find? (fun e => e.key == tile.id) with
        | none =>
          rw [getOrCreateDataRequest_absent tile s hflag hfind] at h
          cases h
          obtain ⟨room, hroom, hk⟩ :=
            insert_entries s.m_lru_view_data tile.id s.m_tile_data_source.length false
          refine ⟨fun _ => rfl, fun _ => count_absent _ _ hfind, ?_⟩
          refine ⟨_, getOrCreateDataRequest_cached tile _
            { key := tile.id, value := s.m_tile_data_source.length, before_mark := false }
            hflag ?_, rfl⟩
          simp [hroom]
        | some e =>
          rw [getOrCreateDataRequest_cached tile s e hflag hfind] at h
          cases h
          refine ⟨fun _ => rfl, fun hc => absurd rfl hc, ?_⟩
          refine ⟨_, getOrCreateDataRequest_cached tile _ e hflag ?_, rfl⟩
          simp [List.find?_some hfind]
      · cases hl : s.m_lkup_preloaded_data.lookup tile.id with
        | none =>
          rw [getOrCreateDataRequest_preloaded_absent tile s flag hflag hne hl] at h
          cases h
        | some r0 =>
          rw [getOrCreateDataRequest_preloaded tile s flag r0 hflag hne hl] at h
          cases h
          refine ⟨fun hc => ?_, fun hc => absurd rfl hc, ?_⟩
          · rcases hc with hc | hc <;> exact absurd rfl hc
          · exact ⟨_, getOrCreateDataRequest_preloaded tile s flag r0 hflag hne hl, rfl⟩

/-- C12: the BFS queue of `buildTileSetBFS` never holds more than `max_data`
entries. Both loops only append to the queue (the queue they start from is a
prefix of the one they end with) and a queue within the cap stays within the
cap; so the queue and the returned list of a run hold at most `max_data`
entries, whatever the state and the ports answer, and the traversal loop never
exhausts its iteration bound. -/
theorem buildTileSetBFS_queue_within_cap (env : Ports) :
    (∀ (roots : List TileLL) (q : List TileMetaData) (s : TileSetLL)
        (q' : List TileMetaData) (s' : TileSetLL),
      q.length ≤ s.m_opts.max_data → enqueueRoots env roots q s = Except.ok (q', s') →
      q <+: q' ∧ q'.length ≤ s.m_opts.max_data ∧ s'.m_opts = s.m_opts) ∧
    (∀ (fuel i : Nat) (q : List TileMetaData) (items : List TileItem) (s : TileSetLL)
        (q' : List TileMetaData) (items' : List TileItem) (s' : TileSetLL),
      q.length ≤ s.m_opts.max_data →
      bfsLoop env fuel i q items s = Except.ok (q', items', s') →
      q <+: q' ∧ q'.length ≤ s.m_opts.max_data ∧ s'.m_opts = s.m_opts) ∧
    (∀ s : TileSetLL, buildTileSetBFS env s ≠ Except.error Fault.fuel) ∧
    (∀ (s : TileSetLL) (q : List TileMetaData) (items : List TileItem) (s' : TileSetLL),
      buildTileSetBFS_queue env s = Except.ok (q, items, s') →
      q.length ≤ s.m_opts.max_data ∧ items.length ≤ s.m_opts.max_data) ∧
    (∀ (s : TileSetLL) (items : List TileItem) (s' : TileSetLL),
      buildTileSetBFS env s = Except.ok (items, s') →
      items.length ≤ s.m_opts.max_data) := by
  have hq : ∀ (s : TileSetLL) (q : List TileMetaData) (items : List TileItem) (s' : TileSetLL),
      buildTileSetBFS_queue env s = Except.ok (q, items, s') →
      q.length ≤ s.m_opts.max_data ∧ items.length ≤ s.m_opts.max_data := by
    intro s q items s' h
    unfold buildTileSetBFS_queue at h
    split at h
    · cases h
    · rename_i q0 s1 hroots
      obtain ⟨_, r2⟩ := enqueueRoots_bound env _ _ _ _ _ hroots (Nat.zero_le _)
      have hf := (enqueueRoots_ok env _ _ _ _ _ hroots (Nat.zero_le _)).1
      dsimp only at h
      split at h
      · cases h
      · rename_i q1 items1 s3 hloop
        cases h
        have hb := (bfsLoop_bound env (s1.m_opts.max_data + 1) 0 q0 []
          { s1 with m_lru_view_data := s1.m_lru_view_data.mark_head }
          (by rw [frame_opts _ _ hf]; exact r2)).2 _ _ _ hloop
        obtain ⟨_, b2, _, b4⟩ := hb
        have hm : s1.m_opts.max_data = s.m_opts.max_data := by rw [frame_opts _ _ hf]
        have b5 := b4 (Nat.zero_le _) (Nat.zero_le _)
        exact ⟨hm ▸ b2, le_trans b5 (hm ▸ b2)⟩
  refine ⟨?_, ?_, ?_, hq, ?_⟩
  · intro roots q s q' s' hle h
    obtain ⟨a1, a2⟩ := enqueueRoots_bound env _ _ _ _ _ h hle
    exact ⟨a1, a2, frame_opts _ _ (enqueueRoots_ok env _ _ _ _ _ h hle).1⟩
  · intro fuel i q items s q' items' s' hle h
    obtain ⟨a1, a2, _, _⟩ := (bfsLoop_bound env fuel i q items s hle).2 _ _ _ h
    exact ⟨a1, a2, frame_opts _ _ (bfsLoop_frame env _ _ _ _ _ _ _ _ h)⟩
  · intro s h
    unfold buildTileSetBFS buildTileSetBFS_queue at h
    split at h
    · rename_i e hq1
      cases h
      split at hq1
      · rename_i e2 hroots
        cases hq1
        exact enqueueRoots_fuel env _ _ _ hroots
      · rename_i q0 s1 hroots
        obtain ⟨_, r2⟩ := enqueueRoots_bound env _ _ _ _ _ hroots (Nat.zero_le _)
        have hf := (enqueueRoots_ok env _ _ _ _ _ hroots (Nat.zero_le _)).1
        dsimp only at hq1
        split at hq1
        · rename_i e3 hloop
          cases hq1
          exact (bfsLoop_bound env (s1.m_opts.max_data + 1) 0 q0 []
            { s1 with m_lru_view_data := s1.m_lru_view_data.mark_head }
            (by rw [frame_opts _ _ hf]; exact r2)).1 (Nat.zero_le _)
            (by show s1.m_opts.max_data + 1 ≤ 0 + (s1.m_opts.max_data + 1); omega) hloop
        · cases hq1
    · cases h
  · intro s items s' h
    unfold buildTileSetBFS at h
    split at h
    · cases h
    · rename_i q items1 s1 hq1
      cases h
      exact (hq _ _ _ _ hq1).2

/-- C16 (amended): when the turn of a queue entry comes while the queue holds
fewer than `max_data` entries, its request is finished, and the tile does not
exceed its error metric, or is at `max_level`, or fewer than 4 slots are left
under the cap, then the iteration saves the tile and destroys its children, the
run does not exhaust its iteration bound, and when the loop returns the tile's
item is in the returned list and the tile has no children. The tile tree is
well formed and the nodes still open to the traversal are pairwise distinct. -/
theorem bfsLoop_saves_unrefined_tile (env : Ports) (fuel i : Nat) (q : List TileMetaData)
    (items : List TileItem) (s : TileSetLL) (m : TileMetaData) (r : Request)
    (htree : TreeOk env s.m_tree)
    (hnodup : (potential env s.m_opts.max_level i (q.map TileMetaData.tile)).Nodup)
    (hm : q[i]? = some m) (hroom : q.length < s.m_opts.max_data)
    (hr : m.request = some r) (hfin : env.IsFinished r = true)
    (hleaf : m.exceeds_err = false ∨ s.m_opts.max_level ≤ m.tile.level ∨
      s.m_opts.max_data - q.length < 4) :
    bfsLoop env (fuel + 1) i q items s
      = bfsLoop env fuel (i + 1) q (items ++ [makeItem env m r]) (destroyChildren m.tile s) ∧
    (s.m_opts.max_data ≤ i + fuel →
      bfsLoop env (fuel + 1) i q items s ≠ Except.error Fault.fuel) ∧
    ∀ (q' : List TileMetaData) (items' : List TileItem) (s' : TileSetLL),
      bfsLoop env (fuel + 1) i q items s = Except.ok (q', items', s') →
      makeItem env m r ∈ items' ∧ getLinks s'.m_tree m.tile = TileLinks.fresh := by
  have hil : i < q.length := (List.getElem?_eq_some.mp hm).1
  have hcond : ¬ (m.exceeds_err = true ∧ m.tile.level < s.m_opts.max_level ∧
      q.length + 4 ≤ s.m_opts.max_data) := by
    rintro ⟨h1, h2, h3⟩
    rcases hleaf with h | h | h
    · rw [h] at h1; cases h1
    · omega
    · omega
  have hstep := bfsLoop_step_save env fuel i q items s m r hm (Nat.ne_of_lt hroom) hr hfin hcond
  refine ⟨hstep, ?_, ?_⟩
  · intro hf
    exact (bfsLoop_bound env (fuel + 1) i q items s (Nat.le_of_lt hroom)).1 (by omega) (by omega)
  · intro q' items' s' h
    rw [hstep] at h
    have hfd : frame (destroyChildren m.tile s) = frame s := destroyChildren_frame _ _
    have hqt : (q.map TileMetaData.tile)[i]? = some m.tile := by
      rw [List.getElem?_map, hm]; rfl
    have hnd1 : (potential env (destroyChildren m.tile s).m_opts.max_level (i + 1)
        (q.map TileMetaData.tile)).Nodup := by
      rw [frame_opts _ _ hfd]
      exact hnodup.sublist (potential_step env _ i _ _ hqt)
    obtain ⟨g1, _, _⟩ := bfsLoop_later env _ _ _ _ _ _ _ _
      (destroyChildren_treeOk env _ _ htree) hnd1 h
    refine ⟨?_, ?_⟩
    · exact (bfsLoop_extends env _ _ _ _ _ _ _ _ h).2.subset
        (List.mem_append_right _ (List.mem_singleton_self _))
    · apply g1 m.tile
      · rw [List.take_succ, hqt]
        exact List.mem_append_right _ (by simp)
      · exact getLinks_destroyChildren_self env _ _ htree

/-- Witness of C16 (amended): the root tile of the 1 x 1 grid, finished and
within its error metric. -/
theorem bfsLoop_saves_unrefined_tile_witness :
    bfsLoop portsLeaf (8 + 1) 0 [rootEntry11] [] startGrid11
      = bfsLoop portsLeaf 8 (0 + 1) [rootEntry11] ([] ++ [makeItem portsLeaf rootEntry11 0])
          (destroyChildren rootEntry11.tile startGrid11) ∧
    (startGrid11.m_opts.max_data ≤ 0 + 8 →
      bfsLoop portsLeaf (8 + 1) 0 [rootEntry11] [] startGrid11 ≠ Except.error Fault.fuel) ∧
    ∀ (q' : List TileMetaData) (items' : List TileItem) (s' : TileSetLL),
      bfsLoop portsLeaf (8 + 1) 0 [rootEntry11] [] startGrid11 = Except.ok (q', items', s') →
      makeItem portsLeaf rootEntry11 0 ∈ items' ∧
        getLinks s'.m_tree rootEntry11.tile = TileLinks.fresh :=
  bfsLoop_saves_unrefined_tile portsLeaf 8 0 [rootEntry11] [] startGrid11 rootEntry11 0
    (by decide) (by decide) rfl (by decide) rfl rfl (Or.inl rfl)

/-- C18: when a processed tile is finished, exceeds its error metric, is below
`max_level` and the queue has room for four more entries, and one of the
requests `getOrCreateChildDataRequests` obtained for its children is unfinished,
then the children are reported not ready, each of the four children has a
request, and these requests were obtained one child after the other, starting
in the state `createChildren` leaves: each is the handle of the preload map,
or the handle the request cache held under the id of the child (reused, no
request issued), or the handle of a request `RequestData(id)` issued now,
appended to the request log and put first in the cache. The iteration saves
the parent and leaves the queue as it is, the run does not exhaust its
iteration bound, and when the loop returns the parent's item is in the
returned list while none of its children is on the queue or in the list. The
tile tree is well formed, the nodes still open to the traversal are pairwise
distinct and the items saved so far are processed queue entries. -/
theorem bfsLoop_saves_parent_of_pending_children (env : Ports) (fuel i : Nat)
    (q : List TileMetaData) (items : List TileItem) (s : TileSetLL) (m : TileMetaData)
    (r : Request) (metas : List TileMetaData) (ready : Bool) (s1 : TileSetLL)
    (htree : TreeOk env s.m_tree)
    (hnodup : (potential env s.m_opts.max_level i (q.map TileMetaData.tile)).Nodup)
    (hitems : ∀ it ∈ items, it.tile ∈ (q.map TileMetaData.tile).take i)
    (hm : q[i]? = some m) (hr : m.request = some r) (hfin : env.IsFinished r = true)
    (hexc : m.exceeds_err = true) (hlevel : m.tile.level < s.m_opts.max_level)
    (hroom : q.length + 4 ≤ s.m_opts.max_data)
    (hch : getOrCreateChildDataRequests env m.tile s = Except.ok (metas, ready, s1))
    (hpending : ∃ m' ∈ metas, ∃ r', m'.request = some r' ∧ env.IsFinished r' = false) :
    ready = false ∧
    metas.map TileMetaData.tile = newChildren env m.tile ∧
    (∀ m' ∈ metas, ∃ r', m'.request = some r') ∧
    (∃ rs, metas.map TileMetaData.request = rs.map some ∧
      RequestsObtained (newChildren env m.tile) (createChildren env m.tile s) rs s1) ∧
    bfsLoop env (fuel + 1) i q items s
      = bfsLoop env fuel (i + 1) q (items ++ [makeItem env m r])
          (destroyChildren m.tile s1) ∧
    (s.m_opts.max_data ≤ i + fuel →
      bfsLoop env (fuel + 1) i q items s ≠ Except.error Fault.fuel) ∧
    ∀ (q' : List TileMetaData) (items' : List TileItem) (s' : TileSetLL),
      bfsLoop env (fuel + 1) i q items s = Except.ok (q', items', s') →
      makeItem env m r ∈ items' ∧
      ∀ c ∈ newChildren env m.tile,
        c ∉ q'.map TileMetaData.tile ∧ c ∉ items'.map TileItem.tile := by
  have hil : i < q.length := (List.getElem?_eq_some.mp hm).1
  obtain ⟨b1, b2⟩ := getOrCreateChildDataRequests_requests env _ _ _ _ _ hch
  obtain ⟨c1, c2, c3, _, _⟩ := getOrCreateChildDataRequests_ok env m.tile s s1 metas ready htree hch
  have hready : ready = false := by
    cases hrd : ready with
    | false => rfl
    | true =>
      obtain ⟨m', hm', r', hr', hf'⟩ := hpending
      have := (b2.mp hrd) m' hm' r' hr'
      rw [hf'] at this
      cases this
  have hstep := bfsLoop_step_children env fuel i q items s m r metas ready s1 hm (by omega) hr
    hfin ⟨hexc, hlevel, hroom⟩ hch
  rw [hready] at hstep
  simp only [Bool.false_eq_true, if_false] at hstep
  refine ⟨hready, c1, b1,
    getOrCreateChildDataRequests_obtained env m.tile s s1 metas htree (hready ▸ hch),
    hstep, ?_, ?_⟩
  · intro hf
    exact (bfsLoop_bound env (fuel + 1) i q items s (by omega)).1 (by omega) (by omega)
  · intro q' items' s' h
    rw [hstep] at h
    have hfd : frame (destroyChildren m.tile s1) = frame s :=
      (destroyChildren_frame _ _).trans c2
    have hqt : (q.map TileMetaData.tile)[i]? = some m.tile := by
      rw [List.getElem?_map, hm]; rfl
    have hsub := potential_step env s.m_opts.max_level i _ _ hqt
    have hnd1 : (potential env (destroyChildren m.tile s1).m_opts.max_level (i + 1)
        (q.map TileMetaData.tile)).Nodup := by
      rw [frame_opts _ _ hfd]
      exact hnodup.sublist hsub
    obtain ⟨_, g2, g3⟩ := bfsLoop_later env _ _ _ _ _ _ _ _
      (destroyChildren_treeOk env _ _ c3) hnd1 h
    rw [frame_opts _ _ hfd] at g2
    refine ⟨?_, ?_⟩
    · exact (bfsLoop_extends env _ _ _ _ _ _ _ _ h).2.subset
        (List.mem_append_right _ (List.mem_singleton_self _))
    · intro c hc
      have hnot := child_not_mem_potential_succ env _ i _ _ c hnodup hqt hlevel hc
      have htk : ∀ u ∈ (q.map TileMetaData.tile).take (i + 1), u ≠ c := by
        intro u hu heq
        subst heq
        apply hnot
        unfold potential
        exact List.mem_append_left _ hu
      refine ⟨fun hq' => hnot (g2 c hq'), ?_⟩
      intro hmem
      obtain ⟨it, hit, hitc⟩ := List.mem_map.mp hmem
      rcases g3 it hit with h1 | h1
      · rcases List.mem_append.mp h1 with h2 | h2
        · apply htk it.tile _ hitc
          rw [List.take_succ]
          exact List.mem_append_left _ (hitems it h2)
        · rw [List.mem_singleton.mp h2] at hitc
          apply htk m.tile _ hitc
          rw [List.take_succ, hqt]
          exact List.mem_append_right _ (by simp)
      · rw [hitc] at h1
        exact hnot (g2 c h1)

/-- Witness of C18: the root tile of the 1 x 1 grid exceeds its error metric,
its request is finished and the requests of its children are not; the four
requests 1 to 4 are issued for the children and cached. -/
theorem bfsLoop_saves_parent_of_pending_children_witness :
    (childResult portsFirstOnly rootEntryExceeds.tile startGrid11Seeded).2.1 = false ∧
    (∃ rs, (childResult portsFirstOnly rootEntryExceeds.tile startGrid11Seeded).1.map
          TileMetaData.request = rs.map some ∧
      RequestsObtained (newChildren portsFirstOnly rootEntryExceeds.tile)
        (createChildren portsFirstOnly rootEntryExceeds.tile startGrid11Seeded) rs
        (childResult portsFirstOnly rootEntryExceeds.tile startGrid11Seeded).2.2) ∧
    (childResult portsFirstOnly rootEntryExceeds.tile startGrid11Seeded).1.map
        TileMetaData.request = [some 1, some 2, some 3, some 4] ∧
    startGrid11Seeded.m_tile_data_source = [0] ∧
    (childResult portsFirstOnly rootEntryExceeds.tile startGrid11Seeded).2.2.m_tile_data_source
      = [0, packId 1 0 1, packId 1 0 0, packId 1 1 0, packId 1 1 1] ∧
    (childResult portsFirstOnly rootEntryExceeds.tile
        startGrid11Seeded).2.2.m_lru_view_data.entries.map (fun e => (e.key, e.value))
      = [(packId 1 1 1, 4), (packId 1 1 0, 3), (packId 1 0 0, 2), (packId 1 0 1, 1), (0, 0)] ∧
    (bfsLoop portsFirstOnly (16 + 1) 0 [rootEntryExceeds] [] startGrid11Seeded).map
        (fun p => (p.1.map TileMetaData.tile, p.2.1))
      = Except.ok ([rootEntryExceeds.tile],
          [{ id := 0, tile := rootEntryExceeds.tile, data := some 100 }]) ∧
    ∀ (q' : List TileMetaData) (items' : List TileItem) (s' : TileSetLL),
      bfsLoop portsFirstOnly (16 + 1) 0 [rootEntryExceeds] [] startGrid11Seeded
        = Except.ok (q', items', s') →
      makeItem portsFirstOnly rootEntryExceeds 0 ∈ items' ∧
      ∀ c ∈ newChildren portsFirstOnly rootEntryExceeds.tile,
        c ∉ q'.map TileMetaData.tile ∧ c ∉ items'.map TileItem.tile :=
  have h := bfsLoop_saves_parent_of_pending_children portsFirstOnly 16 0 [rootEntryExceeds] []
    startGrid11Seeded rootEntryExceeds 0
    (childResult portsFirstOnly rootEntryExceeds.tile startGrid11Seeded).1
    (childResult portsFirstOnly rootEntryExceeds.tile startGrid11Seeded).2.1
    (childResult portsFirstOnly rootEntryExceeds.tile startGrid11Seeded).2.2
    (by decide) (by decide) (by decide) rfl rfl rfl rfl (by decide) (by decide) (by decide)
    ⟨childEntryLT, by decide, 1, rfl, rfl⟩
  ⟨h.1, h.2.2.2.1, by decide, rfl, by decide, by decide, by decide, h.2.2.2.2.2.2⟩

/-- C13: in the scenario with root grid 2 x 1, `max_level = 1`, preload levels
`[0]`, `cache_size_hint = 4` and `max_data = 4`, for every id function that gives
the two root tiles distinct ids, the constructor issues exactly the two preload
requests of level 0 (handles 0 and 1); when both are finished the first
`UpdateTileSet`, whatever the visibility port answers, leaves the two root
tiles, ordered by id, as the resident list, returns their ids as `added` and
returns empty `updated` and `removed` lists. -/
theorem scenario_preload_roots_added (env : Ports) (cam lru_capacity : Nat)
    (hid : env.GetIdFromLevelXY 0 0 0 ≠ env.GetIdFromLevelXY 0 1 0)
    (hfin0 : env.IsFinished 0 = true) (hfin1 : env.IsFinished 1 = true) :
    ∃ s0 s1 : TileSetLL,
      TileSetLL.TileSetLL env srcGrid21 optsPreload21 lru_capacity = Except.ok s0 ∧
      s0.m_tile_data_source = [env.GetIdFromLevelXY 0 0 0, env.GetIdFromLevelXY 0 1 0] ∧
      s0.m_lkup_preloaded_data
        = [(env.GetIdFromLevelXY 0 0 0, 0), (env.GetIdFromLevelXY 0 1 0, 1)] ∧
      UpdateTileSet env cam s0 ([], [], [])
        = Except.ok (s1, s1.m_list_tiles.map TileItem.id, [], []) ∧
      s1.m_list_tiles
        = (if env.GetIdFromLevelXY 0 0 0 ≤ env.GetIdFromLevelXY 0 1 0
           then [rootItem env 0 0, rootItem env 1 1]
           else [rootItem env 1 1, rootItem env 0 0]) := by
  obtain ⟨s1, h1, h2⟩ := update_startPreload env cam lru_capacity hid hfin0 hfin1
  refine ⟨startPreload env lru_capacity, s1, ctor_startPreload env lru_capacity hid, rfl, rfl,
    ?_, ?_⟩
  · rw [h1, h2]
  · rw [h2, sortTileItems_pair]
    rfl

/-- Witness of C13: the scenario with the ports `portsLeaf`. -/
theorem scenario_preload_roots_added_witness :
    ∃ s0 s1 : TileSetLL,
      TileSetLL.TileSetLL portsLeaf srcGrid21 optsPreload21 8 = Except.ok s0 ∧
      s0.m_tile_data_source = [0, 268435456] ∧
      s0.m_lkup_preloaded_data = [(0, 0), (268435456, 1)] ∧
      UpdateTileSet portsLeaf 7 s0 ([], [], [])
        = Except.ok (s1, s1.m_list_tiles.map TileItem.id, [], []) ∧
      s1.m_list_tiles
        = (if portsLeaf.GetIdFromLevelXY 0 0 0 ≤ portsLeaf.GetIdFromLevelXY 0 1 0
           then [rootItem portsLeaf 0 0, rootItem portsLeaf 1 1]
           else [rootItem portsLeaf 1 1, rootItem portsLeaf 0 0]) :=
  scenario_preload_roots_added portsLeaf 7 8 (by decide) rfl rfl

/-- C14 as stated fails: with one root tile that exceeds its error metric and
requests that are all finished without data, the builder refines the root (it
issues the four child requests and leaves the root fully split) and saves the
four children, each with a null data pointer. -/
theorem buildTileSetBFS_saves_and_refines_failed_requests :
    (buildTileSetBFS portsFailed startGrid11Deep).map
        (fun p => p.1.map (fun it => (it.tile.level, it.data)))
      = Except.ok [(1, none), (1, none), (1, none), (1, none)] ∧
    (buildTileSetBFS portsFailed startGrid11Deep).map
        (fun p => p.2.m_tile_data_source) = Except.ok [0, packId 1 0 1, packId 1 0 0,
          packId 1 1 0, packId 1 1 1] ∧
    (buildTileSetBFS portsFailed startGrid11Deep).map
        (fun p => (getLinks p.2.m_tree rootEntryExceeds.tile).clip)
      = Except.ok Clip.k_clip_ALL := by
  decide

/-- C14 (amended): the builder treats a finished request as ready whether or
not it produced data. The queue, the tiles saved, the tile tree, the request
cache and the requests issued are the same for every `GetData`, and every saved
item belongs to a queue entry whose request is finished and carries the data
pointer of that request, null when the request produced no data. -/
theorem buildTileSetBFS_ignores_request_data (env : Ports) (g : Request → Option Nat)
    (s : TileSetLL) :
    (buildTileSetBFS_queue { env with GetData := g } s).map loopOutcome
      = (buildTileSetBFS_queue env s).map loopOutcome ∧
    ∀ (q : List TileMetaData) (items : List TileItem) (s' : TileSetLL),
      buildTileSetBFS_queue env s = Except.ok (q, items, s') →
      ∀ it ∈ items, ∃ m ∈ q, ∃ r, m.request = some r ∧ env.IsFinished r = true ∧
        it = { id := m.tile.id, tile := m.tile, data := env.GetData r } := by
  refine ⟨buildTileSetBFS_queue_data env g s, ?_⟩
  intro q items s' h
  unfold buildTileSetBFS_queue at h
  split at h
  · cases h
  · dsimp only at h
    split at h
    · cases h
    · rename_i q1 items1 s3 hloop
      cases h
      exact bfsLoop_items env _ _ _ _ _ _ _ _ hloop (fun it hit => absurd hit (List.not_mem_nil it))

/-- C16 as stated fails: with a root grid of 2 x 1 tiles and `max_data = 2` both
root tiles are on the queue, finished and within their error metric, and the
returned list is empty: the traversal loop stops at once because the queue
already holds `max_data` entries. -/
theorem buildTileSetBFS_full_queue_saves_nothing :
    (buildTileSetBFS_queue portsLeaf startGrid21Cap2).map
        (fun p => (p.1.map (fun m => (m.tile.id, m.exceeds_err,
          m.request.map portsLeaf.IsFinished)), p.2.1))
      = Except.ok ([(0, false, some true), (268435456, false, some true)], []) := by
  decide

/-- C25 (fails on the code): the flag table `m_list_level_is_preloaded` has
`max_level` entries, so the level `max_level` is not a valid index. With one
root tile, `max_level = 1` and a root that exceeds its error metric, the update
looks the flag of a child of level 1 up in a table of size 1 and indexes it out
of range; with preload levels `[0, 1]` and `max_level = 1` the constructor
writes the flag of level 1 out of range. -/
theorem UpdateTileSet_flag_table_out_of_range :
    startGrid11.m_list_level_is_preloaded.length = startGrid11.m_opts.max_level ∧
    UpdateTileSet portsRefine 7 startGrid11 ([], [], [])
      = Except.error Fault.out_of_range ∧
    TileSetLL.TileSetLL portsLeaf srcGrid11
      { min_level := 0, max_level := 1, max_data := 8, cache_size_hint := 4,
        list_preload_levels := [0, 1], upsample_hint := false } 8
      = Except.error Fault.out_of_range := by
  decide

/-- C22: in a run of `buildTileSetBFS` from a state with a well-formed tile
tree and root tiles of level 0, every tile placed on the BFS queue and every
tile of the returned list has a level of at most `max_level`; the run does not
exhaust its iteration bound. -/
theorem buildTileSetBFS_levels_within_max (env : Ports) (s : TileSetLL)
    (htree : TreeOk env s.m_tree)
    (hroots : ∀ t ∈ s.m_list_root_tiles, t.level = 0) :
    buildTileSetBFS_queue env s ≠ Except.error Fault.fuel ∧
    ∀ (q : List TileMetaData) (items : List TileItem) (s' : TileSetLL),
      buildTileSetBFS_queue env s = Except.ok (q, items, s') →
      (∀ m ∈ q, m.tile.level ≤ s.m_opts.max_level) ∧
      (∀ it ∈ items, it.tile.level ≤ s.m_opts.max_level) ∧
      buildTileSetBFS env s = Except.ok (items, s') :=
  buildTileSetBFS_queue_levels env s htree hroots

/-- Witness of C22: the 2 x 1 grid with root tiles that exceed their error
metric. -/
theorem buildTileSetBFS_levels_within_max_witness :
    buildTileSetBFS_queue portsRefine startGrid21 ≠ Except.error Fault.fuel ∧
    ∀ (q : List TileMetaData) (items : List TileItem) (s' : TileSetLL),
      buildTileSetBFS_queue portsRefine startGrid21 = Except.ok (q, items, s') →
      (∀ m ∈ q, m.tile.level ≤ startGrid21.m_opts.max_level) ∧
      (∀ it ∈ items, it.tile.level ≤ startGrid21.m_opts.max_level) ∧
      buildTileSetBFS portsRefine startGrid21 = Except.ok (items, s') :=
  buildTileSetBFS_levels_within_max portsRefine startGrid21 (by decide) (by decide)

/-- C21: from a state in which every node has no children and the split flag
clear, every sequence of `createChildren`, `destroyChildren` and
`buildTileSetBFS` calls, under any answers of the ports, leaves every node with
all four children null and the flag clear or all four children non-null and the
flag set, in the tile table and as read through the node. -/
theorem runCalls_split_atomic (GetId : Nat → Nat → Nat → TileLL.Id)
    (calls : List TreeCall) (s s' : TileSetLL)
    (hstart : ∀ e ∈ s.m_tree, e.2 = TileLinks.fresh)
    (h : runCalls GetId calls s = Except.ok s') :
    (∀ e ∈ s'.m_tree, SplitAtomic e.2) ∧ ∀ t, SplitAtomic (getLinks s'.m_tree t) := by
  have h0 : TreeOk (idPorts GetId) s.m_tree := fun e he => Or.inl (hstart e he)
  have h1 := runCalls_treeOk (idPorts GetId) calls s s' h0 h
  refine ⟨?_, splitAtomic_of_treeOk _ _ h1⟩
  intro e he
  rcases h1 e he with h2 | h2
  · rw [h2]
    exact Or.inl ⟨rfl, rfl, rfl, rfl, rfl⟩
  · rw [h2]
    refine Or.inr ⟨rfl, ?_, ?_, ?_, ?_⟩ <;> simp [splitLinks]

/-- Witness of C21: four calls on the 1 x 1 grid, which end with the root tile
split. -/
theorem runCalls_split_atomic_witness :
    (getLinks (stateAfterCalls packId exampleCalls startGrid11Deep).m_tree
        rootEntryExceeds.tile).clip = Clip.k_clip_ALL ∧
    (∀ e ∈ (stateAfterCalls packId exampleCalls startGrid11Deep).m_tree, SplitAtomic e.2) ∧
    ∀ t, SplitAtomic (getLinks (stateAfterCalls packId exampleCalls startGrid11Deep).m_tree t) :=
  ⟨by decide, runCalls_split_atomic packId exampleCalls startGrid11Deep
    (stateAfterCalls packId exampleCalls startGrid11Deep)
    (fun e he => absurd he (List.not_mem_nil e)) (by decide)⟩

/-- C23: the builder does not depend on the `is_visible` answers of the
visibility port. For ports that differ from `env` in the `is_visible` answers
only, in any way, `buildTileSetBFS` from the same state returns the same list
of items and leaves the same state, the data requests issued, the request
cache and the tile tree included; it fails where the run under `env` fails. -/
theorem buildTileSetBFS_ignores_is_visible (env : Ports) (vis : TileLL → Bool)
    (s : TileSetLL) :
    buildTileSetBFS (withVisible env vis) s = buildTileSetBFS env s := by
  unfold buildTileSetBFS buildTileSetBFS_queue
  obtain ⟨a1, a2⟩ := enqueueRoots_vis env vis s.m_list_root_tiles [] [] s rfl
  cases hq : enqueueRoots env s.m_list_root_tiles [] s with
  | error e => rw [a1 e hq]
  | ok v =>
    obtain ⟨q2, s1⟩ := v
    obtain ⟨q1, b1, b2⟩ := a2 q2 s1 hq
    rw [b1]
    dsimp only
    have h := bfsLoop_vis env vis (s1.m_opts.max_data + 1) 0 q1 q2 []
      { s1 with m_lru_view_data := s1.m_lru_view_data.mark_head } b2
    revert h
    cases bfsLoop (withVisible env vis) (s1.m_opts.max_data + 1) 0 q1 []
      { s1 with m_lru_view_data := s1.m_lru_view_data.mark_head } with
    | error e1 =>
      cases bfsLoop env (s1.m_opts.max_data + 1) 0 q2 []
        { s1 with m_lru_view_data := s1.m_lru_view_data.mark_head } with
      | error e2 =>
        intro h
        have : e1 = e2 := Except.error.inj h
        rw [this]
      | ok v2 => intro h; cases h
    | ok v1 =>
      cases bfsLoop env (s1.m_opts.max_data + 1) 0 q2 []
        { s1 with m_lru_view_data := s1.m_lru_view_data.mark_head } with
      | error e2 => intro h; cases h
      | ok v2 =>
        intro h
        have h2 : blindOutcome v1 = blindOutcome v2 := Except.ok.inj h
        obtain ⟨x1, x2, x3⟩ := v1
        obtain ⟨y1, y2, y3⟩ := v2
        simp only [blindOutcome, Prod.mk.injEq] at h2
        obtain ⟨_, e2, e3⟩ := h2
        subst e2 e3
        rfl

/-- C24: the list `buildTileSetBFS` returns is an antichain of the quadtree. In
a run from a state with a well-formed tile tree, root tiles of level 0 and
pairwise distinct quadtree nodes, no tile of the returned list is a proper
descendant, at any depth, of a tile of the list; the run does not exhaust its
iteration bound. -/
theorem buildTileSetBFS_antichain (env : Ports) (s : TileSetLL)
    (htree : TreeOk env s.m_tree)
    (hroots : ∀ t ∈ s.m_list_root_tiles, t.level = 0)
    (hnd : (allNodes env s.m_list_root_tiles s.m_opts.max_level).Nodup) :
    buildTileSetBFS env s ≠ Except.error Fault.fuel ∧
    ∀ (items : List TileItem) (s' : TileSetLL),
      buildTileSetBFS env s = Except.ok (items, s') →
      ∀ a ∈ items.map TileItem.tile, ∀ d ∈ items.map TileItem.tile, ∀ k : Nat,
        d ∉ (subtree env k a).tail := by
  refine ⟨buildTileSetBFS_fuel env s htree, ?_⟩
  intro items s' hb
  obtain ⟨q, hq⟩ : ∃ q, buildTileSetBFS_queue env s = Except.ok (q, items, s') := by
    unfold buildTileSetBFS at hb
    split at hb
    · cases hb
    · rename_i q items1 s1 hq1
      cases hb
      exact ⟨q, hq1⟩
  obtain ⟨_, hlv⟩ := buildTileSetBFS_queue_levels env s htree hroots
  obtain ⟨_, hil, _⟩ := hlv q items s' hq
  have hfix : ∀ a ∈ items.map TileItem.tile, ∀ d ∈ items.map TileItem.tile,
      d ∉ (subtree env (s.m_opts.max_level - a.level) a).tail := by
    unfold buildTileSetBFS_queue at hq
    split at hq
    · cases hq
    · rename_i q0 s1 hq0
      obtain ⟨r1, r2, r3⟩ := enqueueRoots_ok env _ _ _ _ _ hq0 (Nat.zero_le _)
      simp only [List.map_nil, List.nil_append, List.length_nil, Nat.sub_zero] at r3
      dsimp only at hq
      split at hq
      · cases hq
      · rename_i q1 items1 s3 hloop
        cases hq
        have ht2 : TreeOk env s1.m_tree := by rw [r2]; exact htree
        have hopts : s1.m_opts = s.m_opts := frame_opts _ _ r1
        have hq0t : q0.map TileMetaData.tile = s.m_list_root_tiles.take s.m_opts.max_data := by
          rw [map_tile_of_proj, r3, map_fst_refEntry]
        have hsub : List.Sublist (potential env s.m_opts.max_level 0 (q0.map TileMetaData.tile))
            (allNodes env s.m_list_root_tiles s.m_opts.max_level) := by
          unfold potential allNodes
          rw [hq0t]
          simp only [List.take_zero, List.nil_append, List.drop_zero]
          exact sublist_flatMap _ (List.take_sublist _ _)
        have := bfsLoop_antichain env _ _ _ _
          { s1 with m_lru_view_data := s1.m_lru_view_data.mark_head } _ _ _ ht2 (by
            show (potential env s1.m_opts.max_level 0 (q0.map TileMetaData.tile)).Nodup
            rw [hopts]
            exact hnd.sublist hsub) (by
            intro a ha
            cases ha) (by
            intro a ha
            cases ha) hloop
        simp only [hopts] at this
        exact this
  intro a ha d hd k hc
  obtain ⟨ia, hia, rfl⟩ := List.mem_map.mp ha
  obtain ⟨id, hid, rfl⟩ := List.mem_map.mp hd
  have hla := hil ia hia
  have hld := hil id hid
  exact hfix ia.tile ha id.tile hd
    (subtree_tail_truncate env k _ _ _ hc (by omega))

/-- Witness of C24: the 2 x 1 grid with root tiles that exceed their error
metric; the returned list holds the eight tiles of level 1. -/
theorem buildTileSetBFS_antichain_witness :
    buildTileSetBFS portsRefine startGrid21 ≠ Except.error Fault.fuel ∧
    ∀ (items : List TileItem) (s' : TileSetLL),
      buildTileSetBFS portsRefine startGrid21 = Except.ok (items, s') →
      ∀ a ∈ items.map TileItem.tile, ∀ d ∈ items.map TileItem.tile, ∀ k : Nat,
        d ∉ (subtree portsRefine k a).tail :=
  buildTileSetBFS_antichain portsRefine startGrid21 (by decide) (by decide) (by decide)

/-- C17 as stated fails: with a single root tile that exceeds its error
metric, `max_level = 2`, `max_data = 5` (queue size + 4 = `max_data`), all
requests finished and children that do not exceed their error metric, the queue
ends with the root and its four children and the returned list is empty: after
the split the queue holds `max_data` entries and the traversal loop stops. -/
theorem buildTileSetBFS_split_at_cap_saves_nothing :
    (buildTileSetBFS_queue portsRefine startGrid11Cap5).map
        (fun p => (p.1.map (fun m => (m.tile.level, m.exceeds_err,
          m.request.map portsRefine.IsFinished)), p.2.1))
      = Except.ok ([(0, true, some true), (1, false, some true), (1, false, some true),
          (1, false, some true), (1, false, some true)], []) := by
  decide

/-- C17 (amended): in a run of `buildTileSetBFS` with a single root tile below
`max_level` that exceeds its error metric and whose request is finished, when
the cap leaves room beyond the split (queue size + 4 < `max_data`, that is
`max_data` at least 6), the requests obtained for the four children are all
finished (`child_data_ready`) and no child exceeds its error metric, the run
returns exactly the four children, in the order `LT, LB, RB, RT` and without
the parent, and the parent is still fully split with its four children. -/
theorem buildTileSetBFS_refines_single_root (env : Ports) (s : TileSetLL) (root : TileLL)
    (r0 : Request) (s1 : TileSetLL) (metas : List TileMetaData) (s2 : TileSetLL)
    (htree : TreeOk env s.m_tree)
    (hroots : s.m_list_root_tiles = [root])
    (hcap : 6 ≤ s.m_opts.max_data)
    (hlevel : root.level < s.m_opts.max_level)
    (hexc : (env.GetVisibility root).2 = true)
    (hroot : getOrCreateDataRequest root (GetVisibility env root s).2 = Except.ok (some r0, s1))
    (hfin0 : env.IsFinished r0 = true)
    (hkids : getOrCreateChildDataRequests env root (marked s1) = Except.ok (metas, true, s2))
    (hleaf : ∀ c ∈ newChildren env root, (env.GetVisibility c).2 = false) :
    ∃ items s', buildTileSetBFS env s = Except.ok (items, s') ∧
      items.map TileItem.tile = newChildren env root ∧
      root ∉ items.map TileItem.tile ∧
      getLinks s'.m_tree root = splitLinks env root := by
  obtain ⟨f1, f2⟩ := getOrCreateDataRequest_ok _ _ _ _ hroot
  have hf1 : frame (marked s1) = frame s := f1.trans rfl
  have ht1 : TreeOk env (marked s1).m_tree := by
    show TreeOk env s1.m_tree
    rw [f2]
    exact htree
  obtain ⟨c1, c2, c3, c4, _⟩ := getOrCreateChildDataRequests_ok env root _ s2 metas true ht1 hkids
  obtain ⟨_, b2⟩ := getOrCreateChildDataRequests_requests env _ _ _ _ _ hkids
  have hlen : metas.length = 4 := length_of_map_newChildren env _ _ c1
  have hopt1 : (marked s1).m_opts = s.m_opts := frame_opts _ _ hf1
  have hopt2 : s2.m_opts = s.m_opts := (frame_opts _ _ c2).trans hopt1
  let m0 : TileMetaData :=
    { tile := root, is_visible := (env.GetVisibility root).1, exceeds_err := true,
      request := some r0 }
  have hq0 : enqueueRoots env [root] [] s = Except.ok ([m0], s1) := by
    unfold enqueueRoots
    rw [if_neg (by simp only [List.length_nil]; omega)]
    dsimp only
    rw [hroot]
    dsimp only
    unfold enqueueRoots
    simp only [GetVisibility, List.nil_append, hexc, m0]
  have hstep := bfsLoop_step_children env s.m_opts.max_data 0 [m0] [] (marked s1) m0 r0 metas
    true s2 rfl (by rw [hopt1]; simp only [List.length_singleton]; omega) rfl hfin0
    ⟨rfl, by rw [hopt1]; exact hlevel, by rw [hopt1]; simp only [List.length_singleton]; omega⟩
    hkids
  simp only [if_true] at hstep
  have hdrop : ([m0] ++ metas).drop 1 = metas := rfl
  obtain ⟨items', s3, g1, g2, g3⟩ := bfsLoop_save_rest env ([m0] ++ metas) s.m_opts.max_data 1
    [] s2 (by rw [hopt2, List.length_append, hlen]; simp only [List.length_singleton]; omega)
    (by rw [List.length_append, hlen]; simp only [List.length_singleton]; omega) (by
      rw [hdrop]
      intro m hm
      refine ⟨?_, ?_⟩
      · have h1 : m.exceeds_err ∈ metas.map TileMetaData.exceeds_err :=
          List.mem_map_of_mem _ hm
        rw [c4 rfl] at h1
        obtain ⟨c, hc, he⟩ := List.mem_map.mp h1
        rw [← he]
        exact hleaf c hc
      · obtain ⟨r, hr⟩ := (getOrCreateChildDataRequests_requests env _ _ _ _ _ hkids).1 m hm
        exact ⟨r, hr, (b2.mp rfl) m hm r hr⟩)
  rw [hdrop] at g2 g3
  simp only [List.map_nil, List.nil_append] at g2
  refine ⟨items', { s3 with m_lru_view_data :=
    s3.m_lru_view_data.trim_against_mark s3.m_opts.cache_size_hint }, ?_, ?_, ?_, ?_⟩
  · unfold buildTileSetBFS buildTileSetBFS_queue
    rw [hroots, hq0]
    dsimp only
    have hmd : s1.m_opts.max_data = s.m_opts.max_data := by
      rw [← hopt1]
      rfl
    rw [hmd]
    have hst : bfsLoop env (s.m_opts.max_data + 1) 0 [m0] [] (marked s1)
        = Except.ok ([m0] ++ metas, items', s3) := by rw [hstep, g1]
    unfold marked at hst
    rw [hst]
  · rw [g2, c1]
  · rw [g2, c1]
    intro hmem
    exact (child_not_owner env root root hmem).1 rfl
  · show getLinks s3.m_tree root = splitLinks env root
    rw [g3 root (by
      intro m hm
      have hmem : m.tile ∈ newChildren env root := by
        rw [← c1]
        exact List.mem_map_of_mem _ hm
      obtain ⟨h1, h2⟩ := child_not_owner env root m.tile hmem
      exact ⟨fun h => h1 h.symm, h2⟩)]
    rw [getOrCreateChildDataRequests_tree env _ _ _ _ _ hkids]
    exact createChildren_links env root _ ht1

/-- Witness of C17 (amended): the 1 x 1 grid with `max_data = 16`. -/
theorem buildTileSetBFS_refines_single_root_witness :
    ∃ items s', buildTileSetBFS portsRefine startGrid11Deep = Except.ok (items, s') ∧
      items.map TileItem.tile = newChildren portsRefine rootEntryExceeds.tile ∧
      rootEntryExceeds.tile ∉ items.map TileItem.tile ∧
      getLinks s'.m_tree rootEntryExceeds.tile
        = splitLinks portsRefine rootEntryExceeds.tile :=
  buildTileSetBFS_refines_single_root portsRefine startGrid11Deep rootEntryExceeds.tile 0
    afterRootLoop (childResult portsRefine rootEntryExceeds.tile (marked afterRootLoop)).1
    (childResult portsRefine rootEntryExceeds.tile (marked afterRootLoop)).2.2
    (by decide) rfl (by decide) (by decide) rfl (by decide) rfl (by decide) (by decide)

/-- C19 as stated fails: with `cache_size_hint = 0` and an empty request cache,
the run issues the request of the root tile and inserts it into the cache (the
request log grows from nothing to one request) and the cache is empty again
when the run returns: the entry was inserted before `mark_head()` and the
`trim_against_mark` that ends the run evicted it. -/
theorem buildTileSetBFS_trims_root_entry_of_same_call :
    startGrid11NoCache.m_tile_data_source = [] ∧
    startGrid11NoCache.m_lru_view_data.entries = [] ∧
    (rootsResult portsLeaf startGrid11NoCache).2.m_lru_view_data.entries
      = [{ key := 0, value := 0, before_mark := false }] ∧
    (buildResult portsLeaf startGrid11NoCache).2.m_tile_data_source = [0] ∧
    (buildResult portsLeaf startGrid11NoCache).2.m_lru_view_data.entries = [] := by
  decide

/-- C19 (amended): `mark_head()` is recorded after the root loop and before the
traversal loop. When the mark is recorded every entry of the request cache,
those the root loop of this call inserted included, counts as inserted before
the mark; every request issued after the root loop, that is for a child, still
has its entry, flagged as inserted after the mark, in the request cache when
the call returns, whatever `trim_against_mark(cache_size_hint)` evicted. -/
theorem buildTileSetBFS_protects_entries_after_mark (env : Ports) (s : TileSetLL)
    (q0 : List TileMetaData) (s1 : TileSetLL)
    (hq0 : enqueueRoots env s.m_list_root_tiles [] s = Except.ok (q0, s1)) :
    (∀ e ∈ (marked s1).m_lru_view_data.entries, e.before_mark = true) ∧
    ∀ (items : List TileItem) (s' : TileSetLL),
      buildTileSetBFS env s = Except.ok (items, s') →
      ∀ (r : Request) (id : TileLL.Id), s1.m_tile_data_source.length ≤ r →
        s'.m_tile_data_source[r]? = some id →
        ∃ e ∈ s'.m_lru_view_data.entries, e.key = id ∧ e.value = r ∧ e.before_mark = false := by
  refine ⟨?_, ?_⟩
  · intro e he
    simp only [marked, LRUCache.mark_head, List.mem_map] at he
    obtain ⟨e0, _, rfl⟩ := he
    rfl
  · intro items s' hb r id hr hget
    unfold buildTileSetBFS buildTileSetBFS_queue at hb
    rw [hq0] at hb
    dsimp only at hb
    split at hb
    · cases hb
    · rename_i q items1 s3 hq
      cases hb
      split at hq
      · cases hq
      · rename_i q1 items2 s4 hloop
        cases hq
        have h0 : FreshCached s1.m_tile_data_source.length
            { s1 with m_lru_view_data := s1.m_lru_view_data.mark_head } := by
          intro r1 id1 hr1 hg
          have := (List.getElem?_eq_some.mp hg).1
          exact absurd this (Nat.not_lt.mpr hr1)
        have h1 := bfsLoop_freshCached env _ _ _ _ _ _ _ _ _ h0 hloop
        obtain ⟨e, he, e1, e2, e3, _⟩ := h1 r id hr hget
        refine ⟨e, ?_, e1, e2, e3⟩
        show e ∈ (s4.m_lru_view_data.trim_against_mark s4.m_opts.cache_size_hint).entries
        unfold LRUCache.trim_against_mark
        dsimp only
        rw [List.mem_reverse]
        exact evictOld_keeps _ _ e (List.mem_reverse.mpr he) e3

/-- Witness of C19 (amended): the 1 x 1 grid with `cache_size_hint = 0` and a
root tile that is refined; the entries of the four child requests are in the
cache when the run returns, the entry of the root tile is not. -/
theorem buildTileSetBFS_protects_entries_after_mark_witness :
    (buildResult portsRefine startGrid11DeepNoCache).2.m_lru_view_data.entries.map
        LRUEntry.value = [4, 3, 2, 1] ∧
    (∀ e ∈ (marked (rootsResult portsRefine startGrid11DeepNoCache).2).m_lru_view_data.entries,
      e.before_mark = true) ∧
    ∀ (items : List TileItem) (s' : TileSetLL),
      buildTileSetBFS portsRefine startGrid11DeepNoCache = Except.ok (items, s') →
      ∀ (r : Request) (id : TileLL.Id),
        (rootsResult portsRefine startGrid11DeepNoCache).2.m_tile_data_source.length ≤ r →
        s'.m_tile_data_source[r]? = some id →
        ∃ e ∈ s'.m_lru_view_data.entries, e.key = id ∧ e.value = r ∧ e.before_mark = false :=
  ⟨by decide, buildTileSetBFS_protects_entries_after_mark portsRefine startGrid11DeepNoCache
    (rootsResult portsRefine startGrid11DeepNoCache).1
    (rootsResult portsRefine startGrid11DeepNoCache).2 (by decide)⟩

/-- C5 as stated fails, whichever ids in both lists `SplitSets` takes as
changed. Two runs of the second update of the 1 x 1 grid, every request
finished with data. With `cache_size_hint = 4` the request of the root tile is
reused and the data pointer stays 100; with `cache_size_hint = 0` the request
was evicted, is issued again and the data pointer goes from 100 to 101. In both
runs the old and the new id list are `[0]`, so `updated` is the same list in
both, while C5 asks for `[]` in the first run and for `[0]` in the second. -/
theorem UpdateTileSet_updated_ignores_data_pointers :
    (∀ changed,
      (stateAfter (portsLeafWith changed) 7 startGrid11).m_list_tiles
        = [{ id := 0, tile := { level := 0, x := 0, y := 0, id := 0, addr := [0] },
             data := some 100 }] ∧
      (UpdateTileSet (portsLeafWith changed) 7
          (stateAfter (portsLeafWith changed) 7 startGrid11) ([], [], [])).map
          (fun p => (p.1.m_list_tiles, p.2.2.1))
        = Except.ok
            ([{ id := 0, tile := { level := 0, x := 0, y := 0, id := 0, addr := [0] },
                data := some 100 }], [0].filter (changed [0] [0])) ∧
      (stateAfter (portsLeafWith changed) 7 startGrid11NoCache).m_list_tiles
        = [{ id := 0, tile := { level := 0, x := 0, y := 0, id := 0, addr := [0] },
             data := some 100 }] ∧
      (UpdateTileSet (portsLeafWith changed) 7
          (stateAfter (portsLeafWith changed) 7 startGrid11NoCache) ([], [], [])).map
          (fun p => (p.1.m_list_tiles, p.2.2.1))
        = Except.ok
            ([{ id := 0, tile := { level := 0, x := 0, y := 0, id := 0, addr := [0] },
                data := some 101 }], [0].filter (changed [0] [0]))) ∧
    ¬ ∃ changed,
      (outAfter (portsLeafWith changed) 7
          (stateAfter (portsLeafWith changed) 7 startGrid11)).2.1
        = changedIds (stateAfter (portsLeafWith changed) 7 startGrid11).m_list_tiles
            (stateAfter (portsLeafWith changed) 7
              (stateAfter (portsLeafWith changed) 7 startGrid11)).m_list_tiles ∧
      (outAfter (portsLeafWith changed) 7
          (stateAfter (portsLeafWith changed) 7 startGrid11NoCache)).2.1
        = changedIds (stateAfter (portsLeafWith changed) 7 startGrid11NoCache).m_list_tiles
            (stateAfter (portsLeafWith changed) 7
              (stateAfter (portsLeafWith changed) 7 startGrid11NoCache)).m_list_tiles := by
  refine ⟨fun changed => ⟨rfl, rfl, rfl, rfl⟩, ?_⟩
  rintro ⟨changed, hA, hB⟩
  have eA : (outAfter (portsLeafWith changed) 7
      (stateAfter (portsLeafWith changed) 7 startGrid11)).2.1
        = [0].filter (changed [0] [0]) := rfl
  have cA : changedIds (stateAfter (portsLeafWith changed) 7 startGrid11).m_list_tiles
      (stateAfter (portsLeafWith changed) 7
        (stateAfter (portsLeafWith changed) 7 startGrid11)).m_list_tiles = [] := rfl
  have eB : (outAfter (portsLeafWith changed) 7
      (stateAfter (portsLeafWith changed) 7 startGrid11NoCache)).2.1
        = [0].filter (changed [0] [0]) := rfl
  have cB : changedIds (stateAfter (portsLeafWith changed) 7 startGrid11NoCache).m_list_tiles
      (stateAfter (portsLeafWith changed) 7
        (stateAfter (portsLeafWith changed) 7 startGrid11NoCache)).m_list_tiles = [0] := rfl
  rw [eA, cA] at hA
  rw [eB, cB, hA] at hB
  cases hB

/-- C5 (amended): for updates that pass the preload gate, the `updated` output
holds only ids present in both the old and the new resident list, and it is
computed from the ids of the two lists alone: two runs with the same helper
`SplitSets` whose old lists have the same ids and whose new lists have the
same ids return the same `updated` list, whatever the data pointers of the
items, the camera and the answers of the ports are. -/
theorem UpdateTileSet_updated_from_ids (env1 env2 : Ports) (cam1 cam2 : Nat)
    (s t s' t' : TileSetLL)
    (out1 out2 r1 r2 : List TileLL.Id × List TileLL.Id × List TileLL.Id)
    (hchanged : env1.changed = env2.changed)
    (hgate1 : passesPreloadGate env1 s = true) (hgate2 : passesPreloadGate env2 t = true)
    (h1 : UpdateTileSet env1 cam1 s out1 = Except.ok (s', r1))
    (h2 : UpdateTileSet env2 cam2 t out2 = Except.ok (t', r2))
    (hold : s.m_list_tiles.map TileItem.id = t.m_list_tiles.map TileItem.id)
    (hnew : s'.m_list_tiles.map TileItem.id = t'.m_list_tiles.map TileItem.id) :
    r1.2.1 = r2.2.1 ∧
    ∀ id ∈ r1.2.1,
      id ∈ s.m_list_tiles.map TileItem.id ∧ id ∈ s'.m_list_tiles.map TileItem.id := by
  obtain ⟨items1, sB1, _, hs1, hr1⟩ := UpdateTileSet_ok env1 cam1 s s' out1 r1 hgate1 h1
  obtain ⟨items2, sB2, _, hs2, hr2⟩ := UpdateTileSet_ok env2 cam2 t t' out2 r2 hgate2 h2
  subst hs1 hs2 hr1 hr2
  dsimp only at hnew ⊢
  refine ⟨by rw [hchanged, hold, hnew], ?_⟩
  intro id hid
  exact (SplitSets_both_mem _ _ _ id hid).symm

/-- Witness of C5 (amended): the second update of the 1 x 1 grid with
`cache_size_hint = 4`, where the data pointer stays, and with
`cache_size_hint = 0`, where it changes. -/
theorem UpdateTileSet_updated_from_ids_witness :
    (outAfter portsLeaf 7 (stateAfter portsLeaf 7 startGrid11)).2.1
      = (outAfter portsLeaf 7 (stateAfter portsLeaf 7 startGrid11NoCache)).2.1 ∧
    ∀ id ∈ (outAfter portsLeaf 7 (stateAfter portsLeaf 7 startGrid11)).2.1,
      id ∈ (stateAfter portsLeaf 7 startGrid11).m_list_tiles.map TileItem.id ∧
      id ∈ (stateAfter portsLeaf 7
        (stateAfter portsLeaf 7 startGrid11)).m_list_tiles.map TileItem.id :=
  UpdateTileSet_updated_from_ids portsLeaf portsLeaf 7 7
    (stateAfter portsLeaf 7 startGrid11) (stateAfter portsLeaf 7 startGrid11NoCache)
    (stateAfter portsLeaf 7 (stateAfter portsLeaf 7 startGrid11))
    (stateAfter portsLeaf 7 (stateAfter portsLeaf 7 startGrid11NoCache))
    ([], [], []) ([], [], [])
    (outAfter portsLeaf 7 (stateAfter portsLeaf 7 startGrid11))
    (outAfter portsLeaf 7 (stateAfter portsLeaf 7 startGrid11NoCache))
    rfl (by decide) (by decide) (by decide) (by decide) (by decide) (by decide)

end scratch
